import Mathlib

/-!
# Verification of the xylosip RFC3261 (SIP) parser

This file is a shallow embedding, in Lean 4, of the parsing core of the
xylosip SIP parser (a Rust library built on the nom 5 combinator library),
together with theorems settling a list of specification claims about it.

Conventions of the embedding:

* Nats are `Nat` (always < 256 in practice); the input is a `List Nat`.
* A nom parser `Fn(&[u8]) -> IResult<&[u8], T, Error>` becomes
  `Parser T := Input → PRes T`, where `PRes` distinguishes nom's
  recoverable `Err::Error` (constructor `err`) from its fatal
  `Err::Failure` (constructor `fail`), since `alt`/`opt`/`many0` catch the
  former but propagate the latter.
* The error type of the source carries a kind plus a backtrace of nested
  errors; the backtrace is dropped here (no claim depends on it), only the
  kind is kept.  nom-generated errors (`ErrorKind::Nom(..)`) are collapsed
  to the single kind `nomError`; the parser-specific kinds
  (`InvalidIntegerError`, `InvalidTTLValue`, `InvalidHostname`,
  `InvalidDomainPart`, `Utf8Error`) are kept as in the source.
* Rust `&str` / `String` values are represented by their byte lists; a
  `std::str::from_utf8` call is modelled by the `utf8Valid` check below
  (a faithful model of UTF-8 validation), failing with `Err::Failure`
  exactly where the source maps the error to a failure.
* `.unwrap()` calls on `Option` values in the source (in `hostname`,
  `top_label` and `domain_label`) are modelled explicitly: the `none` case
  produces the distinguished result `fail unreachableUnwrap`, standing for
  a Rust panic.  A theorem below shows this result is unreachable.
* Unbounded repetition combinators (`many0`, `separated_list`, ...) are
  implemented with an explicit fuel argument (`input.length + 1` at entry)
  so that all definitions compute by structural recursion.  nom 5's
  repetition combinators return an error whenever the inner parser
  succeeds without consuming input (the infinite-loop guard, e.g.
  `ErrorKind::Many0`); that guard is reproduced here, and it makes the
  fuel sufficient: every loop iteration consumes at least one byte, so the
  fuel can never run out before the loop exits on its own.
-/

namespace Xylosip

/-- A byte-slice `&[u8]`, the input type of every parser in the source;
each byte is a `Nat` (in practice < 256). -/
abbrev Input := List Nat

/-- The error kinds of `parser::ErrorKind` (backtraces dropped; all
`ErrorKind::Nom(..)` values collapsed into `nomError`; `Utf8Error` and
`ParseIntError` payloads dropped).  `unreachableUnwrap` is not an error of
the source: it marks a Rust `.unwrap()` panic in the embedding. -/
inductive ErrKind where
  | nomError
  | invalidInteger
  | invalidTTL
  | invalidHostname (s : Input)
  | invalidDomainPart (s : Input)
  | utf8Error
  | unreachableUnwrap
  deriving Repr, DecidableEq

/-- Result of running a parser: `ok remaining value`, or nom's recoverable
`Err::Error`, or nom's fatal `Err::Failure`. -/
inductive PRes (α : Type) where
  | ok (rest : Input) (val : α)
  | err (k : ErrKind)
  | fail (k : ErrKind)
  deriving Repr, DecidableEq

/-- A nom parser over byte slices. -/
abbrev Parser (α : Type) := Input → PRes α

/-- Convert a Lean string literal to input bytes (used only to write test
vectors readably; all inputs in this file are ASCII). -/
def bytes (s : String) : Input := s.toList.map (fun c => c.toNat)

/-! ## Generic nom 5 combinators -/

/-- Map over a successful parse result (the `Ok((input, f(v)))` pattern of
the source). -/
def pmap (p : Parser α) (f : α → β) : Parser β := fun input =>
  match p input with
  | .ok r v => .ok r (f v)
  | .err k => .err k
  | .fail k => .fail k

/-- `nom::bytes::complete::tag`: match an exact byte-string prefix. -/
def tag (s : Input) : Parser Input := fun input =>
  if s.isPrefixOf input then .ok (input.drop s.length) s else .err .nomError

/-- ASCII lower-casing, as used by nom's case-insensitive comparison. -/
def asciiLower (b : Nat) : Nat := if 65 ≤ b ∧ b ≤ 90 then b + 32 else b

/-- `nom::bytes::complete::tag_no_case`: ASCII-case-insensitive prefix
match; on success the *input's* bytes (original case) are returned. -/
def tag_no_case (s : Input) : Parser Input := fun input =>
  if (s.map asciiLower).isPrefixOf (input.map asciiLower)
  then .ok (input.drop s.length) (input.take s.length)
  else .err .nomError

/-- `nom::character::complete::char`: match one exact byte. -/
def charP (c : Nat) : Parser Nat := fun input =>
  match input with
  | b :: r => if b = c then .ok r c else .err .nomError
  | [] => .err .nomError

/-- `nom::bytes::complete::take_while`: longest (possibly empty) prefix
satisfying the predicate; never fails. -/
def take_while (f : Nat → Bool) : Parser Input := fun input =>
  .ok (input.dropWhile f) (input.takeWhile f)

/-- `nom::bytes::complete::take_while1`: like `take_while` but the match
must be non-empty. -/
def take_while1 (f : Nat → Bool) : Parser Input := fun input =>
  match input.takeWhile f with
  | [] => .err .nomError
  | v => .ok (input.dropWhile f) v

/-- `nom::bytes::complete::take_while_m_n`: between `m` and `n` bytes
satisfying the predicate (maximal munch capped at `n`); fails if fewer
than `m` match. -/
def take_while_m_n (m n : Nat) (f : Nat → Bool) : Parser Input := fun input =>
  let v := (input.takeWhile f).take n
  if v.length < m then .err .nomError else .ok (input.drop v.length) v

/-- `nom::combinator::opt`: catch a recoverable error (but let a
`Failure` through, as nom does). -/
def opt (p : Parser α) : Parser (Option α) := fun input =>
  match p input with
  | .ok r v => .ok r (some v)
  | .err _ => .ok input none
  | .fail k => .fail k

/-- `nom::sequence::pair` (and the building block for `tuple`). -/
def pair (p : Parser α) (q : Parser β) : Parser (α × β) := fun input =>
  match p input with
  | .ok r v =>
    match q r with
    | .ok r2 w => .ok r2 (v, w)
    | .err k => .err k
    | .fail k => .fail k
  | .err k => .err k
  | .fail k => .fail k

/-- `nom::sequence::preceded`. -/
def preceded (p : Parser α) (q : Parser β) : Parser β :=
  pmap (pair p q) (fun x => x.2)

/-- `nom::sequence::terminated`. -/
def terminated (p : Parser α) (q : Parser β) : Parser α :=
  pmap (pair p q) (fun x => x.1)

/-- `nom::sequence::separated_pair`. -/
def separated_pair (p : Parser α) (s : Parser γ) (q : Parser β) : Parser (α × β) :=
  pmap (pair p (pair s q)) (fun x => (x.1, x.2.2))

/-- `nom::branch::alt` for two alternatives; an `alt` over an n-tuple in
the source is written as a right-nested chain of `alt2`.  A recoverable
error from the first branch tries the second (whose error, if any, is the
one reported, matching nom's behaviour of keeping the last error); a
`Failure` aborts the whole alternation. -/
def alt2 (p q : Parser α) : Parser α := fun input =>
  match p input with
  | .ok r v => .ok r v
  | .err _ => q input
  | .fail k => .fail k

/-- `nom::combinator::recognize`: run the inner parser and return the
consumed prefix of the input instead of its value. -/
def recognize (p : Parser α) : Parser Input := fun input =>
  match p input with
  | .ok r _ => .ok r (input.take (input.length - r.length))
  | .err k => .err k
  | .fail k => .fail k

/-- `nom::combinator::rest`: consume and return all the remaining input. -/
def rest : Parser Input := fun input => .ok [] input

/-- Fuelled worker for `many0` (nom 5 semantics, including the
`ErrorKind::Many0` infinite-loop guard when the inner parser succeeds
without consuming). -/
def many0F (p : Parser α) : Nat → Input → PRes (List α)
  | 0, _ => .err .nomError
  | fuel + 1, input =>
    match p input with
    | .ok r v =>
      if r.length < input.length then
        match many0F p fuel r with
        | .ok r2 vs => .ok r2 (v :: vs)
        | .err k => .err k
        | .fail k => .fail k
      else .err .nomError
    | .err _ => .ok input []
    | .fail k => .fail k

/-- `nom::multi::many0`. -/
def many0 (p : Parser α) : Parser (List α) := fun input =>
  many0F p (input.length + 1) input

/-- `nom::multi::many1`: one mandatory match, then the `many0` loop (the
first match is not progress-checked, as in nom 5). -/
def many1 (p : Parser α) : Parser (List α) := fun input =>
  match p input with
  | .ok r v =>
    match many0 p r with
    | .ok r2 vs => .ok r2 (v :: vs)
    | .err k => .err k
    | .fail k => .fail k
  | .err k => .err k
  | .fail k => .fail k

/-- Fuelled worker for `many_m_n`: at most `n` iterations (structural on
`n`), error if fewer than `m` matches; the zero-progress guard matches
nom 5. -/
def manyMNF (p : Parser α) (m : Nat) : Nat → Input → PRes (List α)
  | 0, input => if m = 0 then .ok input [] else .err .nomError
  | n + 1, input =>
    match p input with
    | .ok r v =>
      if r.length < input.length then
        match manyMNF p (m - 1) n r with
        | .ok r2 vs => .ok r2 (v :: vs)
        | .err k => .err k
        | .fail k => .fail k
      else .err .nomError
    | .err k => if m = 0 then .ok input [] else .err k
    | .fail k => .fail k

/-- `nom::multi::many_m_n`. -/
def many_m_n (m n : Nat) (p : Parser α) : Parser (List α) := fun input =>
  manyMNF p m n input

/-- Fuelled loop shared by `separated_list` and
`separated_nonempty_list`: repeatedly parse a separator followed by an
element, stopping (before the separator) on the first recoverable error,
with nom 5's zero-progress guard. -/
def sepLoopF (sep : Parser γ) (p : Parser α) : Nat → Input → PRes (List α)
  | 0, _ => .err .nomError
  | fuel + 1, input =>
    match sep input with
    | .ok r1 _ =>
      match p r1 with
      | .ok r2 v =>
        if r2.length < input.length then
          match sepLoopF sep p fuel r2 with
          | .ok r3 vs => .ok r3 (v :: vs)
          | .err k => .err k
          | .fail k => .fail k
        else .err .nomError
      | .err _ => .ok input []
      | .fail k => .fail k
    | .err _ => .ok input []
    | .fail k => .fail k

/-- `nom::multi::separated_list`: possibly-empty separated list (a
recoverable error on the very first element yields the empty list). -/
def separated_list (sep : Parser γ) (p : Parser α) : Parser (List α) := fun input =>
  match p input with
  | .ok r v =>
    if r.length < input.length then
      match sepLoopF sep p (input.length + 1) r with
      | .ok r2 vs => .ok r2 (v :: vs)
      | .err k => .err k
      | .fail k => .fail k
    else .err .nomError
  | .err _ => .ok input []
  | .fail k => .fail k

/-- `nom::multi::separated_nonempty_list`: the first element is
mandatory. -/
def separated_nonempty_list (sep : Parser γ) (p : Parser α) : Parser (List α) := fun input =>
  match p input with
  | .ok r v =>
    if r.length < input.length then
      match sepLoopF sep p (input.length + 1) r with
      | .ok r2 vs => .ok r2 (v :: vs)
      | .err k => .err k
      | .fail k => .fail k
    else .err .nomError
  | .err k => .err k
  | .fail k => .fail k

/-! ## nom character classes and primitive recognizers -/

/-- `nom::character::is_digit` (ASCII `0`..`9`). -/
def nom_is_digit (b : Nat) : Bool := 48 ≤ b && b ≤ 57

/-- `nom::character::is_hex_digit` (`0-9A-Fa-f`). -/
def nom_is_hex_digit (b : Nat) : Bool :=
  (48 ≤ b && b ≤ 57) || (65 ≤ b && b ≤ 70) || (97 ≤ b && b ≤ 102)

/-- `nom::character::is_alphabetic` (`A-Za-z`). -/
def nom_is_alphabetic (b : Nat) : Bool :=
  (65 ≤ b && b ≤ 90) || (97 ≤ b && b ≤ 122)

/-- `nom::character::is_alphanumeric`. -/
def nom_is_alphanumeric (b : Nat) : Bool :=
  nom_is_alphabetic b || nom_is_digit b

/-- `nom::character::is_space` (space or horizontal tab). -/
def nom_is_space (b : Nat) : Bool := b = 32 || b = 9

/-- `nom::character::complete::space0`. -/
def space0 : Parser Input := take_while nom_is_space

/-- `nom::character::complete::space1`. -/
def space1 : Parser Input := take_while1 nom_is_space

/-- `nom::character::complete::digit0`. -/
def digit0 : Parser Input := take_while nom_is_digit

/-- `nom::character::complete::digit1`. -/
def digit1 : Parser Input := take_while1 nom_is_digit

/-- `nom::character::complete::alpha1`. -/
def alpha1 : Parser Input := take_while1 nom_is_alphabetic

/-- `nom::bytes::complete::is_a`: longest non-empty prefix of bytes drawn
from the given set. -/
def is_a (s : Input) : Parser Input := take_while1 (fun b => s.contains b)

/-! ## UTF-8 validity (model of `std::str::from_utf8`) -/

/-- A UTF-8 continuation byte `0x80..0xBF`. -/
def utf8ContB (b : Nat) : Bool := 0x80 ≤ b && b ≤ 0xbf

/-- Validity of a byte sequence as UTF-8, with exactly the byte-range
table used by Rust's `std::str::from_utf8` (overlong encodings and
surrogates rejected). -/
def utf8Valid : Input → Bool
  | [] => true
  | b :: r =>
    if b ≤ 0x7f then utf8Valid r
    else if 0xc2 ≤ b ∧ b ≤ 0xdf then
      match r with
      | c1 :: r1 => utf8ContB c1 && utf8Valid r1
      | [] => false
    else if 0xe0 ≤ b ∧ b ≤ 0xef then
      match r with
      | c1 :: c2 :: r2 =>
        (if b = 0xe0 then 0xa0 ≤ c1 && c1 ≤ 0xbf
         else if b = 0xed then 0x80 ≤ c1 && c1 ≤ 0x9f
         else utf8ContB c1) && utf8ContB c2 && utf8Valid r2
      | _ => false
    else if 0xf0 ≤ b ∧ b ≤ 0xf4 then
      match r with
      | c1 :: c2 :: c3 :: r3 =>
        (if b = 0xf0 then 0x90 ≤ c1 && c1 ≤ 0xbf
         else if b = 0xf4 then 0x80 ≤ c1 && c1 ≤ 0x8f
         else utf8ContB c1) && utf8ContB c2 && utf8ContB c3 && utf8Valid r3
      | _ => false
    else false

/-- Model of the recurring source pattern
`std::str::from_utf8(v).map_err(|err| nom::Err::Failure(err.into()))?`:
keep the bytes if they are valid UTF-8, otherwise turn the parse into a
`Failure` with the UTF-8 error kind. -/
def mapUtf8 (p : Parser Input) : Parser Input := fun input =>
  match p input with
  | .ok r v => if utf8Valid v then .ok r v else .fail .utf8Error
  | .err k => .err k
  | .fail k => .fail k

end Xylosip

namespace Xylosip

/-! ## `parser/rfc3261/tokens.rs` -/

def is_alphanumeric_hyphen (b : Nat) : Bool := nom_is_alphanumeric b || b = 45

def alphanumeric_hyphen : Parser Input := take_while_m_n 1 1 is_alphanumeric_hyphen

/-- `RESERVED_CHARS`: the bytes of `;/?:@&=+$,`. -/
def RESERVED_CHARS : Input := [59, 47, 63, 58, 64, 38, 61, 43, 36, 44]

def is_reserved (b : Nat) : Bool := RESERVED_CHARS.contains b

/-- `MARK_CHARS`: the bytes of `-_.!~*'()`. -/
def MARK_CHARS : Input := [45, 95, 46, 33, 126, 42, 39, 40, 41]

def is_mark (b : Nat) : Bool := MARK_CHARS.contains b

/-- `LOWERCASE_HEXADECIMAL_CHARS`: the bytes of `0123456789abcdef`. -/
def LOWERCASE_HEXADECIMAL_CHARS : Input :=
  [48, 49, 50, 51, 52, 53, 54, 55, 56, 57, 97, 98, 99, 100, 101, 102]

def is_lowercase_hexadecimal (b : Nat) : Bool := LOWERCASE_HEXADECIMAL_CHARS.contains b

def is_unreserved (b : Nat) : Bool := is_mark b || nom_is_alphanumeric b

def unreserved : Parser Input := take_while_m_n 1 1 is_unreserved

/-- `escaped`: `%` followed by exactly two hex digits. -/
def escaped : Parser Input :=
  recognize (pair (charP 37) (take_while_m_n 2 2 nom_is_hex_digit))

/-- `tokens::is_space` (only the space character, unlike nom's). -/
def is_space (b : Nat) : Bool := b = 32

/-- `newline`: the literal CRLF. -/
def newline : Parser Input := tag [13, 10]

/-- `linear_whitespace`: `[*WSP CRLF] 1*WSP`. -/
def linear_whitespace : Parser Input :=
  recognize (pair (opt (pair space0 newline)) space1)

def separator_whitespace : Parser Input := recognize (opt linear_whitespace)

/-- `header_colon`: `*SP ":" [LWS]`. -/
def header_colon : Parser Input :=
  recognize (pair space0 (pair (charP 58) separator_whitespace))

/-- `TOKEN_CHARS`: the bytes of `-.!%*_+` plus backtick, apostrophe,
tilde and a duplicated backtick, exactly as in the source constant. -/
def TOKEN_CHARS : Input := [45, 46, 33, 37, 42, 95, 43, 96, 39, 126, 96]

def is_token (b : Nat) : Bool := nom_is_alphanumeric b || TOKEN_CHARS.contains b

def token : Parser Input := take_while1 is_token

/-- Modelled from the spec: `token_str` is imported throughout the header
modules of the source but its definition is not among the source files;
per the spec's data model, token values are exposed as text.  It is
modelled as the `token` recognizer followed by the usual UTF-8 `&str`
conversion (token bytes are ASCII, so the conversion never fails). -/
def token_str : Parser Input := mapUtf8 token

/-- `WORD_CHARS`: the bytes of the source constant
(dash dot bang percent star underscore plus backtick apostrophe tilde
parens angle brackets colon backslash double-quote slash square brackets
question mark curly braces). -/
def WORD_CHARS : Input :=
  [45, 46, 33, 37, 42, 95, 43, 96, 39, 126, 40, 41, 60, 62, 58, 92, 34, 47,
   91, 93, 63, 123, 125]

def is_word (b : Nat) : Bool := nom_is_alphanumeric b || WORD_CHARS.contains b

def word : Parser Input := take_while is_word

def star : Parser Input :=
  recognize (pair separator_whitespace (pair (charP 42) separator_whitespace))

def slash : Parser Input :=
  recognize (pair separator_whitespace (pair (charP 47) separator_whitespace))

def equal : Parser Input :=
  recognize (pair separator_whitespace (pair (charP 61) separator_whitespace))

def left_parenthesis : Parser Input :=
  recognize (pair separator_whitespace (pair (charP 40) separator_whitespace))

def right_parenthesis : Parser Input :=
  recognize (pair separator_whitespace (pair (charP 41) separator_whitespace))

/-- `right_angle_quote`: `>` plus trailing (not leading) whitespace. -/
def right_angle_quote : Parser Input :=
  recognize (pair (charP 62) separator_whitespace)

/-- `left_angle_quote`: `<` plus trailing (not leading) whitespace. -/
def left_angle_quote : Parser Input :=
  recognize (pair (charP 60) separator_whitespace)

def comma : Parser Input :=
  recognize (pair separator_whitespace (pair (charP 44) separator_whitespace))

def semicolon : Parser Input :=
  recognize (pair separator_whitespace (pair (charP 59) separator_whitespace))

def colon : Parser Input :=
  recognize (pair separator_whitespace (pair (charP 58) separator_whitespace))

def left_double_quote : Parser Input :=
  recognize (pair separator_whitespace (tag [34]))

def right_double_quote : Parser Input :=
  recognize (pair (tag [34]) separator_whitespace)

def is_utf8_cont (b : Nat) : Bool := 0x80 ≤ b && b ≤ 0xbf

def is_utf8_nonascii_c0_df (b : Nat) : Bool := 0xc0 ≤ b && b ≤ 0xdf

def utf8_nonascii_c0_df : Parser Input :=
  recognize (pair (take_while_m_n 1 1 is_utf8_nonascii_c0_df)
                  (take_while_m_n 1 1 is_utf8_cont))

def is_utf8_nonascii_e0_ef (b : Nat) : Bool := 0xe0 ≤ b && b ≤ 0xef

def utf8_nonascii_e0_ef : Parser Input :=
  recognize (pair (take_while_m_n 1 1 is_utf8_nonascii_e0_ef)
                  (take_while_m_n 2 2 is_utf8_cont))

def is_utf8_nonascii_f0_f7 (b : Nat) : Bool := 0xf0 ≤ b && b ≤ 0xf7

def utf8_nonascii_f0_f7 : Parser Input :=
  recognize (pair (take_while_m_n 1 1 is_utf8_nonascii_f0_f7)
                  (take_while_m_n 3 3 is_utf8_cont))

def is_utf8_nonascii_f8_fb (b : Nat) : Bool := 0xf8 ≤ b && b ≤ 0xfb

def utf8_nonascii_f8_fb : Parser Input :=
  recognize (pair (take_while_m_n 1 1 is_utf8_nonascii_f8_fb)
                  (take_while_m_n 4 4 is_utf8_cont))

def is_utf8_nonascii_fc_fd (b : Nat) : Bool := b = 0xfc || b = 0xfd

def utf8_nonascii_fc_fd : Parser Input :=
  recognize (pair (take_while_m_n 1 1 is_utf8_nonascii_fc_fd)
                  (take_while_m_n 5 5 is_utf8_cont))

def is_utf8_ascii (b : Nat) : Bool := 0x21 ≤ b && b ≤ 0x7e

def utf8_ascii1 : Parser Input := take_while_m_n 1 1 is_utf8_ascii

def is_utf8_nonascii (b : Nat) : Bool :=
  is_utf8_nonascii_c0_df b || is_utf8_nonascii_e0_ef b ||
    is_utf8_nonascii_f0_f7 b || is_utf8_nonascii_f8_fb b ||
    is_utf8_nonascii_fc_fd b

def utf8_nonascii1 : Parser Input :=
  alt2 utf8_nonascii_c0_df (alt2 utf8_nonascii_e0_ef
    (alt2 utf8_nonascii_f0_f7 (alt2 utf8_nonascii_f8_fb utf8_nonascii_fc_fd)))

def utf8_char1 : Parser Input := alt2 utf8_ascii1 utf8_nonascii1

def utf8_trim : Parser Input :=
  recognize (pair utf8_char1 (many0 (pair (many0 linear_whitespace) utf8_char1)))

def is_comment_char (b : Nat) : Bool :=
  (0x21 ≤ b && b ≤ 0x27) || (0x2a ≤ b && b ≤ 0x5b) || (0x5d ≤ b && b ≤ 0x7e)

def comment_char : Parser Input := take_while_m_n 1 1 is_comment_char

def comment_text : Parser Input :=
  alt2 comment_char (alt2 utf8_nonascii1 linear_whitespace)

def is_quotable_character (b : Nat) : Bool :=
  b ≤ 0x09 || b = 0x0b || b = 0x0c || (0x0e ≤ b && b ≤ 0x7f)

def quotable_character : Parser Input := take_while_m_n 1 1 is_quotable_character

def quoted_pair : Parser Input := recognize (pair (charP 92) quotable_character)

/-- Fuelled worker for the recursive `comment` grammar: the fuel bounds
the comment nesting depth, which is bounded by the input length because
every nesting level consumes at least its opening parenthesis, so fuel
`input.length` at entry can never be exhausted. -/
def commentF : Nat → Parser Input
  | 0 => fun _ => .err .nomError
  | f + 1 =>
    recognize (pair left_parenthesis
      (pair (many0 (alt2 comment_text (alt2 (commentF f) quoted_pair)))
            right_parenthesis))

/-- `comment`: parenthesised, recursively nestable comments. -/
def comment : Parser Input := fun input => commentF input.length input

def is_quoted_text_char (b : Nat) : Bool :=
  b = 0x21 || (0x23 ≤ b && b ≤ 0x5b) || (0x5d ≤ b && b ≤ 0x7e)

def quoted_text_char : Parser Input := take_while_m_n 1 1 is_quoted_text_char

def quoted_text : Parser Input :=
  alt2 linear_whitespace (alt2 quoted_text_char utf8_nonascii1)

def quoted_string : Parser Input :=
  recognize (pair separator_whitespace
    (pair (tag [34]) (pair (many0 (alt2 quoted_text quoted_pair)) (tag [34]))))

/-- `PASSWORD_CHARS`: the bytes of `&=+$,`. -/
def PASSWORD_CHARS : Input := [38, 61, 43, 36, 44]

def password : Parser Input :=
  recognize (many0 (alt2 unreserved (alt2 escaped (is_a PASSWORD_CHARS))))

/-- `USER_RESERVED_CHARS`: the bytes of `&=+$,;?/`. -/
def USER_RESERVED_CHARS : Input := [38, 61, 43, 36, 44, 59, 63, 47]

def user : Parser Input :=
  recognize (many1 (alt2 unreserved (alt2 escaped (is_a USER_RESERVED_CHARS))))

/-- `UNRESERVED_PARAM_CHARS`: the bytes of `[]/:&+$`. -/
def UNRESERVED_PARAM_CHARS : Input := [91, 93, 47, 58, 38, 43, 36]

def is_param_char (b : Nat) : Bool :=
  is_unreserved b || UNRESERVED_PARAM_CHARS.contains b

/-- `UNRESERVED_HEADER_CHARS`: the bytes of `[]/?:+$`. -/
def UNRESERVED_HEADER_CHARS : Input := [91, 93, 47, 63, 58, 43, 36]

def is_header_char (b : Nat) : Bool :=
  is_unreserved b || UNRESERVED_HEADER_CHARS.contains b

def is_uric (b : Nat) : Bool := is_reserved b || is_unreserved b

def is_uric_no_slash (b : Nat) : Bool := b ≠ 47 && is_uric b

/-- `REG_NAME_CHARS`: the bytes of `$,;:@&=+`. -/
def REG_NAME_CHARS : Input := [36, 44, 59, 58, 64, 38, 61, 43]

def is_reg_name (b : Nat) : Bool := is_unreserved b || REG_NAME_CHARS.contains b

def reg_name : Parser Input := take_while1 is_reg_name

/-- `PCHAR_CHARS`: the bytes of `:@&=+$,`. -/
def PCHAR_CHARS : Input := [58, 64, 38, 61, 43, 36, 44]

def is_pchar (b : Nat) : Bool := is_unreserved b || PCHAR_CHARS.contains b

def param : Parser Input := take_while is_pchar

/-- `SCHEME_CHARS`: the bytes of `+-.`. -/
def SCHEME_CHARS : Input := [43, 45, 46]

def is_scheme_char (b : Nat) : Bool :=
  nom_is_alphanumeric b || SCHEME_CHARS.contains b

end Xylosip

namespace Xylosip

/-! ## `parser/mod.rs`: checked integer parsing -/

/-- Decimal value of a digit string. -/
def digitsToNat (ds : Input) : Nat := ds.foldl (fun acc d => acc * 10 + (d - 48)) 0

/-- `integer::<i32>`: one or more digits (`digit1`) converted with
`atoi::atoi` (checked arithmetic).  Every instantiation in the source is
at `i32`, whose maximum is 2147483647; a digit run whose value exceeds it
makes `atoi` return `None`, which the source turns into
`nom::Err::Failure(InvalidIntegerError)`.  The value is non-negative by
construction (digits only). -/
def integer : Parser Int := fun input =>
  match digit1 input with
  | .ok r ds =>
    if digitsToNat ds ≤ 2147483647 then .ok r (digitsToNat ds : Int)
    else .fail .invalidInteger
  | .err k => .err k
  | .fail k => .fail k

/-! ## Parsed value types

These mirror the payload types the parser functions construct (`sip.rs`,
`header.rs` and `message.rs` across the source's refactoring snapshots;
where the snapshots disagree the type follows what the cited parser code
actually produces, e.g. `ContentLength` holds the raw digit bytes as in
`headers/content.rs`).  Rust `&str`/`String` payloads are byte lists.
The `Opaque` variants of the digest parameter types are named
`OpaqueValue` here (the source's variant name is not usable in Lean). -/

inductive Method where
  | Invite | Ack | Options | Bye | Cancel | Register
  | Extension (m : Input)
  deriving Repr, DecidableEq

inductive Version where
  | Two
  | Other (major minor : Int)
  deriving Repr, DecidableEq

inductive Transport where
  | UDP | TCP | SCTP | TLS
  | Extension (t : Input)
  deriving Repr, DecidableEq

inductive User where
  | Phone | IP
  | Other (u : Input)
  deriving Repr, DecidableEq

structure GenericParam where
  name : Input
  value : Option Input
  deriving Repr, DecidableEq

inductive URIParam where
  | Transport (t : Transport)
  | User (u : User)
  | Method (m : Method)
  | TTL (v : Int)
  | MAddr (h : Input)
  | LR
  | Other (name : Input) (value : Option Input)
  deriving Repr, DecidableEq

structure URIHeader where
  name : Input
  value : Input
  deriving Repr, DecidableEq

inductive ViaParam where
  | Ttl (v : Int)
  | MAddr (h : Input)
  | Received (a : Input)
  | Branch (b : Input)
  | Extension (p : GenericParam)
  deriving Repr, DecidableEq

structure Via where
  protocol : Input
  sent_by : Input
  params : List ViaParam
  deriving Repr, DecidableEq

inductive InfoParamPurpose where
  | Icon | Info | Card
  | Other (v : Input)
  deriving Repr, DecidableEq

inductive InfoParam where
  | Purpose (p : InfoParamPurpose)
  | Extension (p : GenericParam)
  deriving Repr, DecidableEq

structure Info where
  uri : Input
  params : List InfoParam
  deriving Repr, DecidableEq

inductive AlgorithmKind where
  | MD5 | MD5Sess
  | Extension (v : Input)
  deriving Repr, DecidableEq

inductive QOPValue where
  | Auth | AuthInt
  | Extension (v : Input)
  deriving Repr, DecidableEq

inductive DigestParam where
  | Realm (v : Input)
  | Domain (vs : List Input)
  | Nonce (v : Input)
  | OpaqueValue (v : Input)
  | Stale (b : Bool)
  | Algorithm (a : AlgorithmKind)
  | QOPOptions (vs : List QOPValue)
  | Extension (name value : Input)
  deriving Repr, DecidableEq

inductive Challenge where
  | Digest (ps : List DigestParam)
  | Other (scheme : Input) (ps : List (Input × Input))
  deriving Repr, DecidableEq

inductive DigestResponseParam where
  | Username (v : Input)
  | Realm (v : Input)
  | Nonce (v : Input)
  | URI (v : Input)
  | Response (v : Input)
  | Algorithm (a : AlgorithmKind)
  | CNonce (v : Input)
  | OpaqueValue (v : Input)
  | QOP (q : QOPValue)
  | NonceCount (v : Input)
  | Extension (name value : Input)
  deriving Repr, DecidableEq

inductive Credentials where
  | DigestResponse (ps : List DigestResponseParam)
  | OtherResponse (scheme : Input) (ps : List (Input × Input))
  deriving Repr, DecidableEq

inductive AuthenticationInfo where
  | NextNonce (v : Input)
  | QOP (q : QOPValue)
  | ResponseAuth (v : Input)
  | CNonce (v : Input)
  | NonceCount (v : Input)
  deriving Repr, DecidableEq

inductive Priority where
  | Emergency | Urgent | Normal | NonUrgent
  | Extension (v : Input)
  deriving Repr, DecidableEq

inductive ToParam where
  | Tag (v : Input)
  | Extension (p : GenericParam)
  deriving Repr, DecidableEq

structure To where
  addr : Input
  name : Option Input
  params : List ToParam
  deriving Repr, DecidableEq

structure Route where
  addr : Input
  name : Option Input
  params : List GenericParam
  deriving Repr, DecidableEq

structure ReplyTo where
  addr : Input
  name : Option Input
  params : List GenericParam
  deriving Repr, DecidableEq

structure RecordRoute where
  addr : Input
  name : Option Input
  params : List GenericParam
  deriving Repr, DecidableEq

inductive FromParam where
  | Tag (v : Input)
  | Extension (p : GenericParam)
  deriving Repr, DecidableEq

structure From where
  addr : Input
  name : Option Input
  params : List FromParam
  deriving Repr, DecidableEq

inductive ContactParam where
  | Q (v : Input)
  | Expires (v : Int)
  | Extension (p : GenericParam)
  deriving Repr, DecidableEq

structure Contact where
  addr : Input
  name : Option Input
  params : List ContactParam
  deriving Repr, DecidableEq

inductive ContactValue where
  | Any
  | Specific (cs : List Contact)
  deriving Repr, DecidableEq

structure ErrorInfo where
  uri : Input
  params : List GenericParam
  deriving Repr, DecidableEq

inductive WarningAgent where
  | HostPort (h : Input) (p : Option Int)
  | Pseudonym (v : Input)
  deriving Repr, DecidableEq

structure Warning where
  code : Input
  agent : WarningAgent
  text : Input
  deriving Repr, DecidableEq

inductive DispositionType where
  | Render | Session | Icon | Alert
  | Extension (v : Input)
  deriving Repr, DecidableEq

inductive DispositionParam where
  | HandlingOptional
  | HandlingRequired
  | OtherHandling (v : Input)
  | Extension (p : GenericParam)
  deriving Repr, DecidableEq

structure ContentDisposition where
  disposition : DispositionType
  params : List DispositionParam
  deriving Repr, DecidableEq

inductive RetryParam where
  | AvailabilityDuration (v : Int)
  | Extension (p : GenericParam)
  deriving Repr, DecidableEq

structure RetryAfter where
  duration : Int
  comment : Option Input
  params : List RetryParam
  deriving Repr, DecidableEq

inductive MediaSubType where
  | Any
  | IETFExtension (v : Input)
  | IANAExtension (v : Input)
  | XExtension (v : Input)
  deriving Repr, DecidableEq

inductive MediaType where
  | Any | Text | Image | Audio | Video | Application | Message | Multipart
  | IETFExtension (v : Input)
  | XExtension (v : Input)
  deriving Repr, DecidableEq

structure MediaParam where
  name : Input
  value : Input
  deriving Repr, DecidableEq

/-- `Media` (the source field `r#type` is called `mtype` here). -/
structure Media where
  mtype : MediaType
  subtype : MediaSubType
  params : List MediaParam
  deriving Repr, DecidableEq

inductive AcceptParam where
  | Q (v : Input)
  | Extension (p : GenericParam)
  deriving Repr, DecidableEq

structure Accept where
  media : Media
  params : List AcceptParam
  deriving Repr, DecidableEq

inductive ContentCoding where
  | Any
  | Other (v : Input)
  deriving Repr, DecidableEq

structure Encoding where
  coding : ContentCoding
  params : List AcceptParam
  deriving Repr, DecidableEq

inductive LanguageRange where
  | Any
  | Other (v : Input)
  deriving Repr, DecidableEq

structure Language where
  range : LanguageRange
  params : List AcceptParam
  deriving Repr, DecidableEq

structure AlertInfo where
  uri : Input
  params : List GenericParam
  deriving Repr, DecidableEq

/-- The `Header` sum type, one variant per supported SIP header.
`ContentLength` carries the raw digit bytes (what
`headers/content.rs::content_length` produces). -/
inductive Header where
  | Accept (v : List Accept)
  | AcceptEncoding (v : List Encoding)
  | AcceptLanguage (v : List Language)
  | AlertInfo (v : List AlertInfo)
  | Allow (v : List Method)
  | AuthenticationInfo (v : List AuthenticationInfo)
  | Authorization (v : Credentials)
  | CallID (v : Input)
  | CallInfo (v : List Info)
  | Contact (v : ContactValue)
  | ContentDisposition (v : ContentDisposition)
  | ContentEncoding (v : List Input)
  | ContentLanguage (v : List Input)
  | ContentLength (v : Input)
  | ContentType (v : Media)
  | CSeq (n : Int) (m : Method)
  | Date (v : Input)
  | ErrorInfo (v : List ErrorInfo)
  | Expires (v : Int)
  | From (v : From)
  | Via (v : List Via)
  | InReplyTo (v : List Input)
  | MaxForwards (v : Int)
  | MIMEVersion (v : Input)
  | MinExpires (v : Int)
  | Organization (v : Option Input)
  | Priority (v : Priority)
  | ProxyAuthenticate (v : Challenge)
  | ProxyAuthorization (v : Credentials)
  | ProxyRequire (v : List Input)
  | RecordRoute (v : List RecordRoute)
  | ReplyTo (v : ReplyTo)
  | Require (v : List Input)
  | RetryAfter (v : RetryAfter)
  | Route (v : List Route)
  | Server (v : Input)
  | Subject (v : Option Input)
  | Supported (v : List Input)
  | Timestamp (ts : Input) (delay : Option Input)
  | To (v : To)
  | Unsupported (v : List Input)
  | UserAgent (v : Input)
  | Warning (v : List Warning)
  | WWWAuthenticate (v : Challenge)
  | Extension (name value : Input)
  deriving Repr, DecidableEq

end Xylosip

namespace Xylosip

/-! ## `parser/rfc3261/common.rs`, part 1: hosts -/

/-- Rust's `u8::is_ascii_alphabetic`. -/
def is_ascii_alphabetic (b : Nat) : Bool := nom_is_alphabetic b

/-- Model of `slice::split(|i| *i == b'.')`: the (possibly empty)
chunks between dots; a trailing dot yields a trailing empty chunk. -/
def splitOnDot : Input → List Input
  | [] => [[]]
  | b :: r =>
    if b = 46 then [] :: splitOnDot r
    else
      match splitOnDot r with
      | s :: ss => (b :: s) :: ss
      | [] => [[b]]

/-- `top_label`: run of alphanumeric-or-hyphen characters that must not
end in a hyphen and must start with an alphabetic character.  The
source's `.unwrap()` calls on first/last byte are modelled by the
`unreachableUnwrap` failure in the (impossible) empty-label case. -/
def top_label : Parser Input := fun input =>
  match recognize (many1 alphanumeric_hyphen) input with
  | .ok r label =>
    match label.getLast?, label.head? with
    | some lastB, some headB =>
      if lastB = 45 ∨ ¬ is_ascii_alphabetic headB
      then .err (.invalidDomainPart label)
      else .ok r label
    | _, _ => .fail .unreachableUnwrap
  | .err k => .err k
  | .fail k => .fail k

/-- `domain_label`: run of alphanumeric-or-hyphen characters that must
neither start nor end in a hyphen. -/
def domain_label : Parser Input := fun input =>
  match recognize (many1 alphanumeric_hyphen) input with
  | .ok r label =>
    match label.getLast?, label.head? with
    | some lastB, some headB =>
      if headB = 45 ∨ lastB = 45
      then .err (.invalidDomainPart label)
      else .ok r label
    | _, _ => .fail .unreachableUnwrap
  | .err k => .err k
  | .fail k => .fail k

/-- `hostname`: either dotted domain labels ending in a top label, or a
fully dot-terminated label sequence (FQDN); an FQDN re-validates its
second-to-last dot-separated segment as a top label, returning
`InvalidHostname` otherwise.  The source's `.unwrap()`s (last byte of
the non-empty match) and the `parts.len() - 2` index are modelled with
`unreachableUnwrap` in the impossible cases. -/
def hostname : Parser Input := fun input =>
  match (alt2 (recognize (pair (many0 (pair domain_label (tag [46]))) top_label))
              (recognize (many1 (pair domain_label (tag [46]))))) input with
  | .ok r hn =>
    match hn.getLast? with
    | none => .fail .unreachableUnwrap
    | some lastB =>
      if lastB = 46 then
        let parts := splitOnDot hn
        if parts.length < 2 then .fail .unreachableUnwrap
        else
          match parts.get? (parts.length - 2) with
          | none => .fail .unreachableUnwrap
          | some top =>
            match top_label top with
            | .ok _ _ => .ok r hn
            | _ => .err (.invalidHostname hn)
      else .ok r hn
  | .err k => .err k
  | .fail k => .fail k

/-- `ipv4_address`: four 1–3 digit groups separated by dots (purely
lexical, no range check). -/
def ipv4_address : Parser Input :=
  recognize (pair (take_while_m_n 1 3 nom_is_digit)
    (pair (tag [46]) (pair (take_while_m_n 1 3 nom_is_digit)
      (pair (tag [46]) (pair (take_while_m_n 1 3 nom_is_digit)
        (pair (tag [46]) (take_while_m_n 1 3 nom_is_digit)))))))

/-- `port`: a checked `i32` integer. -/
def port : Parser Int := integer

def hex4 : Parser Input := take_while_m_n 1 4 nom_is_hex_digit

def hexseq : Parser Input :=
  recognize (pair hex4 (many0 (pair (tag [58]) hex4)))

def hexpart : Parser Input :=
  alt2 (recognize (pair hexseq (pair (tag [58, 58]) (opt hexseq))))
    (alt2 (recognize (pair (tag [58, 58]) (opt hexseq))) hexseq)

def ipv6_address : Parser Input :=
  recognize (pair hexpart (opt (pair (tag [58]) ipv4_address)))

def ipv6_reference : Parser Input :=
  recognize (pair (tag [91]) (pair ipv6_address (tag [93])))

def host : Parser Input := alt2 hostname (alt2 ipv4_address ipv6_reference)

def host_port : Parser (Input × Option Int) :=
  pair host (opt (preceded (tag [58]) port))

end Xylosip

namespace Xylosip

/-! ## `parser/rfc2806.rs`: telephone-subscriber grammar

The four `*_prefix` functions of the source are spelled with a `_pfx`
suffix here. -/

/-- `VISUAL_SEPARATOR`: the bytes of `-.()`. -/
def VISUAL_SEPARATOR : Input := [45, 46, 40, 41]

def numeric : Parser Input := take_while_m_n 1 1 nom_is_digit

def is_visual_separator (b : Nat) : Bool := VISUAL_SEPARATOR.contains b

def visual_separator : Parser Input := take_while_m_n 1 1 is_visual_separator

def phone_digit : Parser Input := alt2 numeric visual_separator

def base_phone_number : Parser Input := recognize (many1 phone_digit)

/-- `DTMF_DIGITS`: the bytes of `*#ABCD`. -/
def DTMF_DIGITS : Input := [42, 35, 65, 66, 67, 68]

def is_dtmf_digit (b : Nat) : Bool := DTMF_DIGITS.contains b

def dtmf_digit : Parser Input := take_while_m_n 1 1 is_dtmf_digit

def is_pause_character (b : Nat) : Bool := b = 112 || b = 119

def pause_character : Parser Input := take_while_m_n 1 1 is_pause_character

/-- `FUTURE_EXTENSION_TOKEN_CHARS`: the bytes of the source constant
(bang hash dollar percent ampersand apostrophe star plus dash dot caret
underscore backtick pipe tilde). -/
def FUTURE_EXTENSION_TOKEN_CHARS : Input :=
  [33, 35, 36, 37, 38, 39, 42, 43, 45, 46, 94, 95, 96, 124, 126]

def is_future_extension_token (b : Nat) : Bool :=
  nom_is_alphanumeric b || FUTURE_EXTENSION_TOKEN_CHARS.contains b

def future_extension_token : Parser Input :=
  take_while_m_n 1 1 is_future_extension_token

def is_rfc2806_quoted_string_char (b : Nat) : Bool := 0x01 ≤ b && b ≤ 0x7f

def rfc2806_quoted_string_char : Parser Input :=
  take_while_m_n 1 1 is_rfc2806_quoted_string_char

def is_rfc2806_quoted_string_extra_char (b : Nat) : Bool :=
  b = 0x20 || b = 0x21 || 0x80 ≤ b || (0x23 ≤ b && b ≤ 0x7e)

def rfc2806_quoted_string_extra_char : Parser Input :=
  take_while_m_n 1 1 is_rfc2806_quoted_string_extra_char

def rfc2806_quoted_string : Parser Input :=
  recognize (pair (tag [34])
    (pair (many0 (pair (pair (tag [92]) rfc2806_quoted_string_char)
                       rfc2806_quoted_string_extra_char))
          (tag [34])))

def future_extension : Parser Input :=
  recognize (pair (tag [59])
    (pair (many1 future_extension_token)
      (opt (pair (tag [61])
        (alt2 (recognize (pair (many1 future_extension_token)
                (opt (pair (tag [63]) (many1 future_extension_token)))))
              rfc2806_quoted_string)))))

def isdn_subaddress : Parser Input :=
  recognize (pair (tag (bytes ";isub=")) (many1 phone_digit))

def post_dial : Parser Input :=
  recognize (pair (tag (bytes ";postd="))
    (many1 (alt2 phone_digit (alt2 dtmf_digit pause_character))))

def is_private_pfx_first_char (b : Nat) : Bool :=
  b = 0x21 || b = 0x22 || b = 0x2c || b = 0x2f || b = 0x3a ||
    (0x24 ≤ b && b ≤ 0x27) || (0x3c ≤ b && b ≤ 0x40) ||
    (0x45 ≤ b && b ≤ 0x4f) || (0x51 ≤ b && b ≤ 0x56) ||
    (0x58 ≤ b && b ≤ 0x60) || (0x65 ≤ b && b ≤ 0x6f) ||
    (0x71 ≤ b && b ≤ 0x76) || (0x78 ≤ b && b ≤ 0x7e)

def is_private_pfx_other_chars (b : Nat) : Bool :=
  (0x21 ≤ b && b ≤ 0x3a) || (0x3c ≤ b && b ≤ 0x7e)

def private_pfx : Parser Input :=
  recognize (pair (take_while_m_n 1 1 is_private_pfx_first_char)
                  (take_while is_private_pfx_other_chars))

def local_network_pfx : Parser Input :=
  recognize (many1 (alt2 phone_digit (alt2 dtmf_digit pause_character)))

def global_network_pfx : Parser Input :=
  recognize (pair (tag [43]) (many1 phone_digit))

def network_pfx : Parser Input := alt2 global_network_pfx local_network_pfx

def phone_context_ident : Parser Input := alt2 network_pfx private_pfx

def area_specifier : Parser Input :=
  recognize (pair (tag (bytes ";phone-context=")) phone_context_ident)

def service_provider : Parser Input :=
  recognize (pair (tag (bytes ";tsp=")) hostname)

def local_phone_number : Parser Input :=
  recognize (many1 (pair (alt2 phone_digit (alt2 dtmf_digit pause_character))
    (pair (opt isdn_subaddress)
      (pair (opt post_dial)
        (pair area_specifier
          (many0 (alt2 area_specifier (alt2 service_provider future_extension))))))))

def global_phone_number : Parser Input :=
  recognize (pair (tag [43])
    (pair base_phone_number
      (pair (opt isdn_subaddress)
        (pair (opt post_dial)
          (many0 (alt2 area_specifier (alt2 service_provider future_extension)))))))

def telephone_subscriber : Parser Input :=
  alt2 global_phone_number local_phone_number

end Xylosip

namespace Xylosip

/-! ## `parser/rfc3261/common.rs`, part 2: URIs, methods, params -/

/-- `message_body`: the rest of the input, verbatim. -/
def message_body : Parser Input := rest

def user_info : Parser Input :=
  recognize (pair (alt2 user telephone_subscriber)
    (pair (opt (preceded (tag [58]) password)) (tag [64])))

/-- `uri_parameter` of the source (defined below) and the `headers` /
`uri_parameters` productions it feeds; note that in this version of the
source the `headers` part of `sip_uri`/`sips_uri` is *not* optional. -/
def uri_header : Parser URIHeader := fun input =>
  match (separated_pair (take_while1 is_header_char) (tag [61])
          (take_while is_header_char)) input with
  | .ok r (n, v) =>
    if utf8Valid n then
      if utf8Valid v then .ok r ⟨n, v⟩ else .fail .utf8Error
    else .fail .utf8Error
  | .err k => .err k
  | .fail k => .fail k

/-- `headers` (URI headers): `?` followed by an `&`-separated list. -/
def uri_headers : Parser (List URIHeader) :=
  preceded (tag [63]) (separated_list (tag [38]) uri_header)

def transport_udp : Parser Transport :=
  pmap (tag_no_case (bytes "udp")) (fun _ => Transport.UDP)

def transport_tcp : Parser Transport :=
  pmap (tag_no_case (bytes "tcp")) (fun _ => Transport.TCP)

def transport_sctp : Parser Transport :=
  pmap (tag_no_case (bytes "sctp")) (fun _ => Transport.SCTP)

def transport_tls : Parser Transport :=
  pmap (tag_no_case (bytes "TLS")) (fun _ => Transport.TLS)

def transport_extension : Parser Transport := pmap token_str Transport.Extension

def transport : Parser Transport :=
  alt2 transport_udp (alt2 transport_tcp (alt2 transport_sctp
    (alt2 transport_tls transport_extension)))

def uri_parameter_transport : Parser URIParam :=
  pmap (preceded (tag_no_case (bytes "transport=")) transport) URIParam.Transport

def user_phone : Parser User :=
  pmap (tag_no_case (bytes "phone")) (fun _ => User.Phone)

def user_ip : Parser User :=
  pmap (tag_no_case (bytes "ip")) (fun _ => User.IP)

def user_extension : Parser User := pmap token_str User.Other

/-- The source fn `user` of `common.rs` (renamed here because `tokens.rs`
also defines a `user` recognizer). -/
def user_value : Parser User := alt2 user_phone (alt2 user_ip user_extension)

def uri_parameter_user : Parser URIParam :=
  pmap (preceded (tag_no_case (bytes "user=")) user_value) URIParam.User

def invite : Parser Method := pmap (tag (bytes "INVITE")) (fun _ => Method.Invite)

def ack : Parser Method := pmap (tag (bytes "ACK")) (fun _ => Method.Ack)

def options : Parser Method := pmap (tag (bytes "OPTIONS")) (fun _ => Method.Options)

def bye : Parser Method := pmap (tag (bytes "BYE")) (fun _ => Method.Bye)

def cancel : Parser Method := pmap (tag (bytes "CANCEL")) (fun _ => Method.Cancel)

def register : Parser Method := pmap (tag (bytes "REGISTER")) (fun _ => Method.Register)

def extension_method : Parser Method := pmap token_str Method.Extension

def method : Parser Method :=
  alt2 invite (alt2 ack (alt2 options (alt2 bye (alt2 cancel
    (alt2 register extension_method)))))

def uri_parameter_method : Parser URIParam :=
  pmap (preceded (tag_no_case (bytes "method=")) method) URIParam.Method

/-- `ttl`: 1–3 digits, converted via `integer` and then bounded to
`[0, 255]`; out of range is `nom::Err::Failure(InvalidTTLValue)`. -/
def ttl : Parser Int := fun input =>
  match take_while_m_n 1 3 nom_is_digit input with
  | .ok r ds =>
    match integer ds with
    | .ok _ t => if t < 0 ∨ 255 < t then .fail .invalidTTL else .ok r t
    | .err k => .err k
    | .fail k => .fail k
  | .err k => .err k
  | .fail k => .fail k

def uri_parameter_ttl : Parser URIParam :=
  pmap (preceded (tag_no_case (bytes "ttl=")) ttl) URIParam.TTL

def uri_parameter_maddr : Parser URIParam := fun input =>
  match (preceded (tag_no_case (bytes "maddr=")) host) input with
  | .ok r v => if utf8Valid v then .ok r (.MAddr v) else .fail .utf8Error
  | .err k => .err k
  | .fail k => .fail k

def uri_parameter_lr : Parser URIParam :=
  pmap (tag_no_case (bytes "lr")) (fun _ => URIParam.LR)

def uri_parameter_other : Parser URIParam := fun input =>
  match (pair (take_while1 is_param_char)
          (opt (preceded (tag [61]) (take_while1 is_param_char)))) input with
  | .ok r (n, v) =>
    if utf8Valid n then
      match v with
      | some w => if utf8Valid w then .ok r (.Other n (some w)) else .fail .utf8Error
      | none => .ok r (.Other n none)
    else .fail .utf8Error
  | .err k => .err k
  | .fail k => .fail k

def uri_parameter : Parser URIParam :=
  alt2 uri_parameter_transport (alt2 uri_parameter_user
    (alt2 uri_parameter_method (alt2 uri_parameter_ttl
      (alt2 uri_parameter_maddr (alt2 uri_parameter_lr uri_parameter_other)))))

def uri_parameters : Parser (List URIParam) :=
  many0 (preceded (tag [59]) uri_parameter)

/-- `sip_uri`: note that the trailing `headers` production is mandatory
in this version of the source (no `opt`), so a sip URI without a `?`
header part is *not* matched by `sip_uri` (callers fall back to
`absolute_uri`). -/
def sip_uri : Parser Input :=
  recognize (preceded (tag_no_case (bytes "sip:"))
    (pair (opt user_info) (pair host_port (pair uri_parameters uri_headers))))

def sips_uri : Parser Input :=
  recognize (preceded (tag_no_case (bytes "sips:"))
    (pair (opt user_info) (pair host_port (pair uri_parameters uri_headers))))

def sip_version : Parser Version := fun input =>
  match (pair (preceded (tag_no_case (bytes "SIP/")) integer)
          (preceded (tag [46]) integer)) input with
  | .ok r (major, minor) =>
    if major = 2 ∧ minor = 0 then .ok r .Two else .ok r (.Other major minor)
  | .err k => .err k
  | .fail k => .fail k

def query : Parser Input := take_while is_uric

def srvr : Parser Input :=
  recognize (opt (pair (opt (pair user_info (tag [64]))) host_port))

def authority : Parser Input := alt2 srvr reg_name

def scheme : Parser Input := recognize (pair alpha1 (take_while is_scheme_char))

def segment : Parser (List Input) := separated_nonempty_list (tag [59]) param

def path_segments : Parser (List (List Input)) :=
  separated_nonempty_list (tag [47]) segment

def opaque_part : Parser Input :=
  recognize (pair (take_while_m_n 1 1 is_uric_no_slash) (take_while is_uric))

def abs_path : Parser Input := recognize (pair (tag [47]) path_segments)

def net_path : Parser Input :=
  recognize (pair (tag [47, 47]) (pair authority (opt abs_path)))

def hier_part : Parser Input :=
  recognize (pair (alt2 net_path abs_path) (opt (pair (tag [63]) query)))

def absolute_uri : Parser Input :=
  recognize (separated_pair scheme (tag [58]) (alt2 hier_part opaque_part))

def gen_value : Parser Input := fun input =>
  match (alt2 host (alt2 token quoted_string)) input with
  | .ok r v => if utf8Valid v then .ok r v else .fail .utf8Error
  | .err k => .err k
  | .fail k => .fail k

def generic_param : Parser GenericParam :=
  pmap (pair token_str (opt (preceded equal gen_value)))
    (fun x => ⟨x.1, x.2⟩)

def generic_params : Parser (List GenericParam) :=
  many0 (preceded semicolon generic_param)

def option_tag : Parser (List Input) := many0 (preceded comma token_str)

/-- `qvalue`: `0[.0-3digits]` or `1[.up-to-3-zeros]`. -/
def qvalue : Parser Input :=
  alt2 (recognize (pair (tag [48])
          (opt (pair (tag [46]) (take_while_m_n 0 3 nom_is_digit)))))
       (recognize (pair (tag [49])
          (opt (pair (tag [46]) (many_m_n 0 3 (tag [48]))))))

end Xylosip

namespace Xylosip

/-! ## `parser/rfc3261/headers/content.rs` -/

def m_type_any : Parser MediaType := pmap (tag_no_case [42]) (fun _ => .Any)

def m_type_text : Parser MediaType :=
  pmap (tag_no_case (bytes "text")) (fun _ => .Text)

def m_type_image : Parser MediaType :=
  pmap (tag_no_case (bytes "image")) (fun _ => .Image)

def m_type_audio : Parser MediaType :=
  pmap (tag_no_case (bytes "audio")) (fun _ => .Audio)

def m_type_video : Parser MediaType :=
  pmap (tag_no_case (bytes "video")) (fun _ => .Video)

def m_type_application : Parser MediaType :=
  pmap (tag_no_case (bytes "application")) (fun _ => .Application)

def m_type_multipart : Parser MediaType :=
  pmap (tag_no_case (bytes "multipart")) (fun _ => .Multipart)

def m_type_message : Parser MediaType :=
  pmap (tag_no_case (bytes "message")) (fun _ => .Message)

def m_type_ietf_extension : Parser MediaType := pmap token MediaType.IETFExtension

def m_type_x_extension : Parser MediaType :=
  pmap (recognize (pair (tag_no_case (bytes "x-")) token)) MediaType.XExtension

def m_type : Parser MediaType :=
  alt2 m_type_any (alt2 m_type_text (alt2 m_type_audio (alt2 m_type_image
    (alt2 m_type_video (alt2 m_type_multipart (alt2 m_type_application
      (alt2 m_type_message (alt2 m_type_x_extension m_type_ietf_extension))))))))

def m_subtype_any : Parser MediaSubType := pmap (tag_no_case [42]) (fun _ => .Any)

def m_subtype_ietf_extension : Parser MediaSubType :=
  pmap token MediaSubType.IETFExtension

def m_subtype_iana_extension : Parser MediaSubType :=
  pmap token MediaSubType.IANAExtension

def m_subtype_x_extension : Parser MediaSubType :=
  pmap (recognize (pair (tag_no_case (bytes "x-")) token)) MediaSubType.XExtension

def m_subtype : Parser MediaSubType :=
  alt2 m_subtype_any (alt2 m_subtype_x_extension
    (alt2 m_subtype_ietf_extension m_subtype_iana_extension))

def m_parameter : Parser MediaParam :=
  pmap (pair token (pair equal (alt2 token quoted_string)))
    (fun x => ⟨x.1, x.2.2⟩)

def media_range : Parser Media :=
  pmap (pair (pair m_type (pair slash m_subtype))
             (many0 (pair semicolon m_parameter)))
    (fun x => ⟨x.1.1, x.1.2.2, x.2.map (fun y => y.2)⟩)

def accept_param_q : Parser AcceptParam :=
  pmap (pair (tag_no_case [113]) (pair equal qvalue)) (fun x => .Q x.2.2)

def accept_param_extension : Parser AcceptParam :=
  pmap generic_param AcceptParam.Extension

def accept_param : Parser AcceptParam := alt2 accept_param_q accept_param_extension

def accept_range : Parser Accept :=
  pmap (pair media_range (many0 (pair semicolon accept_param)))
    (fun x => ⟨x.1, x.2.map (fun y => y.2)⟩)

def accept : Parser Header :=
  pmap (pair (tag_no_case (bytes "Accept")) (pair header_colon
         (opt (pair accept_range (many0 (pair comma accept_range))))))
    (fun x => .Accept (match x.2.2 with
      | some (first, others) => first :: others.map (fun y => y.2)
      | none => []))

def codings_any : Parser ContentCoding := pmap (tag [42]) (fun _ => .Any)

def codings_other : Parser ContentCoding := pmap token ContentCoding.Other

def codings : Parser ContentCoding := alt2 codings_any codings_other

def encoding : Parser Encoding :=
  pmap (pair codings (many0 (pair semicolon accept_param)))
    (fun x => ⟨x.1, x.2.map (fun y => y.2)⟩)

def accept_encoding : Parser Header :=
  pmap (pair (tag_no_case (bytes "Accept-Encoding")) (pair header_colon
         (opt (pair encoding (many0 (pair comma encoding))))))
    (fun x => .AcceptEncoding (match x.2.2 with
      | some (first, others) => first :: others.map (fun y => y.2)
      | none => []))

def language_range_any : Parser LanguageRange := pmap (tag [42]) (fun _ => .Any)

def language_range_other : Parser LanguageRange :=
  pmap (recognize (pair (take_while_m_n 1 8 nom_is_alphabetic)
         (many0 (pair (tag [45]) (take_while_m_n 1 8 nom_is_alphabetic)))))
    LanguageRange.Other

def language_range : Parser LanguageRange :=
  alt2 language_range_any language_range_other

def language : Parser Language :=
  pmap (pair language_range (many0 (pair semicolon accept_param)))
    (fun x => ⟨x.1, x.2.map (fun y => y.2)⟩)

def accept_language : Parser Header :=
  pmap (pair (tag_no_case (bytes "Accept-Language")) (pair header_colon
         (opt (pair language (many0 (pair comma language))))))
    (fun x => .AcceptLanguage (match x.2.2 with
      | some (first, others) => first :: others.map (fun y => y.2)
      | none => []))

def media_type : Parser Media :=
  pmap (pair m_type (pair slash (pair m_subtype
         (many0 (pair semicolon m_parameter)))))
    (fun x => ⟨x.1, x.2.2.1, x.2.2.2.map (fun y => y.2)⟩)

def content_type : Parser Header :=
  pmap (pair (alt2 (tag_no_case (bytes "Content-Type")) (tag_no_case [99]))
         (pair header_colon media_type))
    (fun x => .ContentType x.2.2)

/-- `content_length`: the value is the raw `digit1` match, with no
numeric conversion or overflow check. -/
def content_length : Parser Header :=
  pmap (pair (alt2 (tag_no_case (bytes "Content-Length")) (tag_no_case [108]))
         (pair header_colon digit1))
    (fun x => .ContentLength x.2.2)

def content_encoding : Parser Header :=
  pmap (pair (alt2 (tag_no_case (bytes "Content-Encoding")) (tag_no_case [101]))
         (pair header_colon (pair token (many0 (pair comma token)))))
    (fun x => .ContentEncoding (x.2.2.1 :: x.2.2.2.map (fun y => y.2)))

def disposition_param_handling_optional : Parser DispositionParam :=
  pmap (pair (tag_no_case (bytes "handling"))
         (pair equal (tag_no_case (bytes "optional"))))
    (fun _ => .HandlingOptional)

def disposition_param_handling_required : Parser DispositionParam :=
  pmap (pair (tag_no_case (bytes "handling"))
         (pair equal (tag_no_case (bytes "required"))))
    (fun _ => .HandlingRequired)

def disposition_param_handling_other : Parser DispositionParam :=
  pmap (pair (tag_no_case (bytes "handling")) (pair equal token))
    (fun x => .OtherHandling x.2.2)

def disposition_param_extension : Parser DispositionParam :=
  pmap generic_param DispositionParam.Extension

def disposition_param : Parser DispositionParam :=
  alt2 disposition_param_handling_optional
    (alt2 disposition_param_handling_required
      (alt2 disposition_param_handling_other disposition_param_extension))

def disp_type_render : Parser DispositionType :=
  pmap (tag_no_case (bytes "render")) (fun _ => .Render)

def disp_type_session : Parser DispositionType :=
  pmap (tag_no_case (bytes "session")) (fun _ => .Session)

def disp_type_icon : Parser DispositionType :=
  pmap (tag_no_case (bytes "icon")) (fun _ => .Icon)

def disp_type_alert : Parser DispositionType :=
  pmap (tag_no_case (bytes "alert")) (fun _ => .Alert)

def disp_type_extension : Parser DispositionType :=
  pmap token DispositionType.Extension

def disp_type : Parser DispositionType :=
  alt2 disp_type_render (alt2 disp_type_session (alt2 disp_type_icon
    (alt2 disp_type_alert disp_type_extension)))

def content_disposition : Parser Header :=
  pmap (pair (tag_no_case (bytes "Content-Disposition")) (pair header_colon
         (pair disp_type (many0 (pair semicolon disposition_param)))))
    (fun x => .ContentDisposition ⟨x.2.2.1, x.2.2.2.map (fun y => y.2)⟩)

def language_tag : Parser Input :=
  recognize (pair (take_while_m_n 1 8 nom_is_alphabetic)
    (many0 (pair (tag [45]) (take_while_m_n 1 8 nom_is_alphabetic))))

def content_language : Parser Header :=
  pmap (pair (tag_no_case (bytes "Content-Language")) (pair header_colon
         (pair language_tag (many0 (pair comma language_tag)))))
    (fun x => .ContentLanguage (x.2.2.1 :: x.2.2.2.map (fun y => y.2)))

end Xylosip

namespace Xylosip

/-! ## `parser/rfc3261/headers/auth.rs`

The source's `opaque` parser and the corresponding variants are named
`opaque_value` / `OpaqueValue` here. -/

def auth_param : Parser (Input × Input) := fun input =>
  match (pair token_str (preceded equal (alt2 token quoted_string))) input with
  | .ok r (n, v) => if utf8Valid v then .ok r (n, v) else .fail .utf8Error
  | .err k => .err k
  | .fail k => .fail k

def request_digest : Parser Input :=
  pmap (pair left_double_quote
         (pair (take_while_m_n 32 32 is_lowercase_hexadecimal) right_double_quote))
    (fun x => x.2.1)

def dig_resp_response : Parser DigestResponseParam := fun input =>
  match (pair (tag_no_case (bytes "response")) (pair equal request_digest)) input with
  | .ok r x => if utf8Valid x.2.2 then .ok r (.Response x.2.2) else .fail .utf8Error
  | .err k => .err k
  | .fail k => .fail k

def nonce_count : Parser Input := fun input =>
  match (pair (tag_no_case (bytes "nc"))
          (pair equal (take_while_m_n 8 8 is_lowercase_hexadecimal))) input with
  | .ok r x => if utf8Valid x.2.2 then .ok r x.2.2 else .fail .utf8Error
  | .err k => .err k
  | .fail k => .fail k

def cnonce : Parser Input := fun input =>
  match (pair (tag_no_case (bytes "cnonce")) (pair equal quoted_string)) input with
  | .ok r x => if utf8Valid x.2.2 then .ok r x.2.2 else .fail .utf8Error
  | .err k => .err k
  | .fail k => .fail k

def qop_value_auth : Parser QOPValue :=
  pmap (tag_no_case (bytes "auth")) (fun _ => .Auth)

def qop_value_auth_int : Parser QOPValue :=
  pmap (tag_no_case (bytes "auth-int")) (fun _ => .AuthInt)

def qop_value_extension : Parser QOPValue := pmap token_str QOPValue.Extension

def qop_value : Parser QOPValue :=
  alt2 qop_value_auth (alt2 qop_value_auth_int qop_value_extension)

def message_qop : Parser QOPValue :=
  pmap (pair (tag_no_case (bytes "qop")) (pair equal qop_value)) (fun x => x.2.2)

def digest_uri_value : Parser Input :=
  alt2 (tag [42]) (alt2 absolute_uri (alt2 abs_path authority))

def dig_resp_uri : Parser DigestResponseParam := fun input =>
  match (pair (tag_no_case (bytes "uri")) (pair equal (pair left_double_quote
          (pair digest_uri_value right_double_quote)))) input with
  | .ok r x =>
    if utf8Valid x.2.2.2.1 then .ok r (.URI x.2.2.2.1) else .fail .utf8Error
  | .err k => .err k
  | .fail k => .fail k

def dig_resp_username : Parser DigestResponseParam := fun input =>
  match (pair (tag_no_case (bytes "username")) (pair equal quoted_string)) input with
  | .ok r x => if utf8Valid x.2.2 then .ok r (.Username x.2.2) else .fail .utf8Error
  | .err k => .err k
  | .fail k => .fail k

def realm : Parser Input := fun input =>
  match (pair (tag_no_case (bytes "realm")) (pair equal quoted_string)) input with
  | .ok r x => if utf8Valid x.2.2 then .ok r x.2.2 else .fail .utf8Error
  | .err k => .err k
  | .fail k => .fail k

def nonce : Parser Input := fun input =>
  match (pair (tag_no_case (bytes "nonce")) (pair equal quoted_string)) input with
  | .ok r x => if utf8Valid x.2.2 then .ok r x.2.2 else .fail .utf8Error
  | .err k => .err k
  | .fail k => .fail k

def opaque_value : Parser Input := fun input =>
  match (pair (tag_no_case (bytes "opaque")) (pair equal quoted_string)) input with
  | .ok r x => if utf8Valid x.2.2 then .ok r x.2.2 else .fail .utf8Error
  | .err k => .err k
  | .fail k => .fail k

def dig_resp_realm : Parser DigestResponseParam := pmap realm DigestResponseParam.Realm

def dig_resp_nonce : Parser DigestResponseParam := pmap nonce DigestResponseParam.Nonce

def algorithm_md5 : Parser AlgorithmKind :=
  pmap (tag_no_case (bytes "MD5")) (fun _ => .MD5)

def algorithm_md5_sess : Parser AlgorithmKind :=
  pmap (tag_no_case (bytes "MD5-sess")) (fun _ => .MD5Sess)

def algorithm_extension : Parser AlgorithmKind :=
  pmap token_str AlgorithmKind.Extension

def algorithm : Parser AlgorithmKind :=
  pmap (pair (tag_no_case (bytes "algorithm")) (pair equal
         (alt2 algorithm_md5_sess (alt2 algorithm_md5 algorithm_extension))))
    (fun x => x.2.2)

def dig_resp_algorithm : Parser DigestResponseParam :=
  pmap algorithm DigestResponseParam.Algorithm

def dig_resp_cnonce : Parser DigestResponseParam :=
  pmap cnonce DigestResponseParam.CNonce

def dig_resp_opaque : Parser DigestResponseParam :=
  pmap opaque_value DigestResponseParam.OpaqueValue

def dig_resp_qop : Parser DigestResponseParam :=
  pmap message_qop DigestResponseParam.QOP

def dig_resp_nonce_count : Parser DigestResponseParam :=
  pmap nonce_count DigestResponseParam.NonceCount

def dig_resp_extension : Parser DigestResponseParam :=
  pmap auth_param (fun x => .Extension x.1 x.2)

def dig_resp : Parser DigestResponseParam :=
  alt2 dig_resp_username (alt2 dig_resp_realm (alt2 dig_resp_nonce
    (alt2 dig_resp_uri (alt2 dig_resp_response (alt2 dig_resp_algorithm
      (alt2 dig_resp_cnonce (alt2 dig_resp_opaque (alt2 dig_resp_qop
        (alt2 dig_resp_nonce_count dig_resp_extension)))))))))

def credentials_digest_response : Parser Credentials :=
  pmap (preceded (pair (tag_no_case (bytes "Digest")) linear_whitespace)
         (separated_nonempty_list comma dig_resp))
    Credentials.DigestResponse

def credentials_other_response : Parser Credentials :=
  pmap (pair (terminated token_str linear_whitespace)
         (separated_nonempty_list comma auth_param))
    (fun x => .OtherResponse x.1 x.2)

def credentials : Parser Credentials :=
  alt2 credentials_digest_response credentials_other_response

def authorization : Parser Header :=
  pmap (preceded (pair (tag_no_case (bytes "Authorization")) header_colon)
         credentials)
    Header.Authorization

def response_digest : Parser Input :=
  recognize (preceded left_double_quote
    (terminated (take_while is_lowercase_hexadecimal) right_double_quote))

def ainfo_response_auth : Parser AuthenticationInfo := fun input =>
  match (preceded (pair (tag_no_case (bytes "rspauth")) equal) response_digest) input with
  | .ok r v => if utf8Valid v then .ok r (.ResponseAuth v) else .fail .utf8Error
  | .err k => .err k
  | .fail k => .fail k

def ainfo_nextnonce : Parser AuthenticationInfo := fun input =>
  match (preceded (pair (tag_no_case (bytes "nextnonce")) equal) quoted_string) input with
  | .ok r v => if utf8Valid v then .ok r (.NextNonce v) else .fail .utf8Error
  | .err k => .err k
  | .fail k => .fail k

def ainfo_qop : Parser AuthenticationInfo := pmap message_qop AuthenticationInfo.QOP

def ainfo_cnonce : Parser AuthenticationInfo :=
  pmap cnonce AuthenticationInfo.CNonce

def ainfo_nonce_count : Parser AuthenticationInfo :=
  pmap nonce_count AuthenticationInfo.NonceCount

def ainfo : Parser AuthenticationInfo :=
  alt2 ainfo_nextnonce (alt2 ainfo_qop (alt2 ainfo_response_auth
    (alt2 ainfo_cnonce ainfo_nonce_count)))

def authentication_info : Parser Header :=
  pmap (preceded (pair (tag_no_case (bytes "Authentication-Info")) header_colon)
         (separated_nonempty_list comma ainfo))
    Header.AuthenticationInfo

def qop_options : Parser (List QOPValue) :=
  preceded (pair (tag_no_case (bytes "qop")) equal)
    (preceded left_double_quote
      (terminated (separated_nonempty_list (tag [44]) qop_value)
        right_double_quote))

def boolean_true : Parser Bool :=
  pmap (tag_no_case (bytes "true")) (fun _ => true)

def boolean_false : Parser Bool :=
  pmap (tag_no_case (bytes "false")) (fun _ => false)

def boolean : Parser Bool := alt2 boolean_true boolean_false

def stale : Parser Bool :=
  preceded (pair (tag_no_case (bytes "stale")) equal) boolean

def domain : Parser (List Input) := fun input =>
  match (preceded (pair (tag_no_case (bytes "domain")) (pair equal left_double_quote))
          (terminated
            (separated_nonempty_list (take_while1 is_space)
              (alt2 absolute_uri abs_path))
            right_double_quote)) input with
  | .ok r vs =>
    if vs.all utf8Valid then .ok r vs else .fail .utf8Error
  | .err k => .err k
  | .fail k => .fail k

def digest_cln_realm : Parser DigestParam := pmap realm DigestParam.Realm

def digest_cln_domain : Parser DigestParam := pmap domain DigestParam.Domain

def digest_cln_nonce : Parser DigestParam := pmap nonce DigestParam.Nonce

def digest_cln_opaque : Parser DigestParam :=
  pmap opaque_value DigestParam.OpaqueValue

def digest_cln_stale : Parser DigestParam := pmap stale DigestParam.Stale

def digest_cln_algorithm : Parser DigestParam :=
  pmap algorithm DigestParam.Algorithm

def digest_cln_qop_options : Parser DigestParam :=
  pmap qop_options DigestParam.QOPOptions

def digest_cln_extension : Parser DigestParam :=
  pmap auth_param (fun x => .Extension x.1 x.2)

def digest_cln : Parser DigestParam :=
  alt2 digest_cln_realm (alt2 digest_cln_domain (alt2 digest_cln_nonce
    (alt2 digest_cln_opaque (alt2 digest_cln_stale (alt2 digest_cln_algorithm
      (alt2 digest_cln_qop_options digest_cln_extension))))))

def challenge_other : Parser Challenge :=
  pmap (pair (terminated token_str linear_whitespace)
         (separated_nonempty_list comma auth_param))
    (fun x => .Other x.1 x.2)

def challenge_digest : Parser Challenge :=
  pmap (preceded (pair (tag_no_case (bytes "Digest")) linear_whitespace)
         (separated_nonempty_list comma digest_cln))
    Challenge.Digest

def challenge : Parser Challenge := alt2 challenge_digest challenge_other

def proxy_authenticate : Parser Header :=
  pmap (preceded (pair (tag_no_case (bytes "Proxy-Authenticate")) header_colon)
         challenge)
    Header.ProxyAuthenticate

def proxy_authorization : Parser Header :=
  pmap (preceded (pair (tag_no_case (bytes "Proxy-Authorization")) header_colon)
         credentials)
    Header.ProxyAuthorization

def proxy_require : Parser Header :=
  pmap (preceded (pair (tag_no_case (bytes "Proxy-Require")) header_colon)
         (separated_nonempty_list comma token_str))
    Header.ProxyRequire

def www_authenticate : Parser Header :=
  pmap (preceded (pair (tag_no_case (bytes "WWW-Authenticate")) header_colon)
         challenge)
    Header.WWWAuthenticate

end Xylosip

namespace Xylosip

/-! ## `parser/rfc3261/headers/call.rs` -/

def callid : Parser Input :=
  mapUtf8 (recognize (pair word (opt (pair (tag [64]) word))))

def call_id : Parser Header :=
  pmap (preceded (pair (alt2 (tag_no_case (bytes "Call-ID")) (tag_no_case [105]))
         header_colon) callid)
    Header.CallID

def info_param_purpose_icon : Parser InfoParamPurpose :=
  pmap (tag_no_case (bytes "icon")) (fun _ => .Icon)

def info_param_purpose_info : Parser InfoParamPurpose :=
  pmap (tag_no_case (bytes "info")) (fun _ => .Info)

def info_param_purpose_card : Parser InfoParamPurpose :=
  pmap (tag_no_case (bytes "card")) (fun _ => .Card)

def info_param_purpose_other : Parser InfoParamPurpose :=
  pmap token_str InfoParamPurpose.Other

def info_param_purpose : Parser InfoParam :=
  pmap (preceded (pair (tag_no_case (bytes "purpose")) equal)
         (alt2 info_param_purpose_icon (alt2 info_param_purpose_info
           (alt2 info_param_purpose_card info_param_purpose_other))))
    InfoParam.Purpose

def info_param_extension : Parser InfoParam :=
  pmap generic_param InfoParam.Extension

def info_param : Parser InfoParam := alt2 info_param_purpose info_param_extension

def info : Parser Info := fun input =>
  match (pair (preceded left_angle_quote (terminated absolute_uri right_angle_quote))
          (separated_list semicolon info_param)) input with
  | .ok r (uri, ps) =>
    if utf8Valid uri then .ok r ⟨uri, ps⟩ else .fail .utf8Error
  | .err k => .err k
  | .fail k => .fail k

def call_info : Parser Header :=
  pmap (preceded (pair (tag_no_case (bytes "Call-Info")) header_colon)
         (separated_nonempty_list comma info))
    Header.CallInfo

def in_reply_to : Parser Header :=
  pmap (preceded (pair (tag_no_case (bytes "In-Reply-To")) header_colon)
         (separated_nonempty_list comma callid))
    Header.InReplyTo

/-! ## `parser/rfc3261/headers/alert.rs` -/

def alert_param : Parser AlertInfo := fun input =>
  match (pair (preceded left_angle_quote (terminated absolute_uri right_angle_quote))
          generic_params) input with
  | .ok r (uri, ps) =>
    if utf8Valid uri then .ok r ⟨uri, ps⟩ else .fail .utf8Error
  | .err k => .err k
  | .fail k => .fail k

def alert_info : Parser Header :=
  pmap (preceded (pair (tag_no_case (bytes "Alert-Info")) header_colon)
         (separated_nonempty_list comma alert_param))
    Header.AlertInfo

/-! ## `parser/rfc3261/headers/date.rs` -/

def month : Parser Input :=
  alt2 (tag_no_case (bytes "Jan")) (alt2 (tag_no_case (bytes "Feb"))
    (alt2 (tag_no_case (bytes "Mar")) (alt2 (tag_no_case (bytes "Apr"))
      (alt2 (tag_no_case (bytes "May")) (alt2 (tag_no_case (bytes "Jun"))
        (alt2 (tag_no_case (bytes "Jul")) (alt2 (tag_no_case (bytes "Aug"))
          (alt2 (tag_no_case (bytes "Sep")) (alt2 (tag_no_case (bytes "Oct"))
            (alt2 (tag_no_case (bytes "Nov")) (tag_no_case (bytes "Dec"))))))))))))

def wkday : Parser Input :=
  alt2 (tag_no_case (bytes "Mon")) (alt2 (tag_no_case (bytes "Tue"))
    (alt2 (tag_no_case (bytes "Wed")) (alt2 (tag_no_case (bytes "Thu"))
      (alt2 (tag_no_case (bytes "Fri")) (alt2 (tag_no_case (bytes "Sat"))
        (tag_no_case (bytes "Sun")))))))

def time : Parser Input :=
  recognize (pair (take_while_m_n 2 2 nom_is_digit)
    (pair (tag [58]) (pair (take_while_m_n 2 2 nom_is_digit)
      (pair (tag [58]) (take_while_m_n 2 2 nom_is_digit)))))

def date1 : Parser Input :=
  recognize (pair (take_while_m_n 2 2 nom_is_digit)
    (pair (tag [32]) (pair month
      (pair (tag [32]) (take_while_m_n 4 4 nom_is_digit)))))

def rfc1123_date : Parser Input :=
  mapUtf8 (recognize (pair wkday (pair (tag [44, 32]) (pair date1
    (pair (tag [32]) (pair time (tag_no_case (bytes " GMT"))))))))

def date : Parser Header :=
  pmap (preceded (pair (tag_no_case (bytes "Date")) header_colon) rfc1123_date)
    Header.Date

/-! ## `parser/rfc3261/headers/error.rs` -/

def error_uri : Parser ErrorInfo := fun input =>
  match (pair left_angle_quote (pair absolute_uri
          (pair right_angle_quote generic_params))) input with
  | .ok r x =>
    if utf8Valid x.2.1 then .ok r ⟨x.2.1, x.2.2.2⟩ else .fail .utf8Error
  | .err k => .err k
  | .fail k => .fail k

def error_info : Parser Header :=
  pmap (pair (tag_no_case (bytes "Error-Info")) (pair header_colon
         (pair error_uri (many0 (pair comma error_uri)))))
    (fun x => .ErrorInfo (x.2.2.1 :: x.2.2.2.map (fun y => y.2)))

/-! ## `parser/rfc3261/headers/priority.rs` -/

def priority_value_emergency : Parser Priority :=
  pmap (tag_no_case (bytes "emergency")) (fun _ => .Emergency)

def priority_value_urgent : Parser Priority :=
  pmap (tag_no_case (bytes "urgent")) (fun _ => .Urgent)

def priority_value_normal : Parser Priority :=
  pmap (tag_no_case (bytes "normal")) (fun _ => .Normal)

def priority_value_non_urgent : Parser Priority :=
  pmap (tag_no_case (bytes "non-urgent")) (fun _ => .NonUrgent)

def priority_value_extension : Parser Priority :=
  pmap token_str Priority.Extension

def priority_value : Parser Priority :=
  alt2 priority_value_emergency (alt2 priority_value_urgent
    (alt2 priority_value_normal (alt2 priority_value_non_urgent
      priority_value_extension)))

def priority : Parser Header :=
  pmap (pair (tag_no_case (bytes "Priority")) (pair header_colon priority_value))
    (fun x => .Priority x.2.2)

/-! ## `parser/rfc3261/headers/via.rs` -/

def sent_by : Parser Input :=
  recognize (pair host (opt (pair colon port)))

def protocol_name : Parser Input :=
  mapUtf8 (alt2 (tag_no_case (bytes "SIP")) token)

def sent_protocol : Parser Input :=
  recognize (pair protocol_name (pair slash (pair token (pair slash transport))))

def via_extension : Parser ViaParam := pmap generic_param ViaParam.Extension

def via_branch : Parser ViaParam :=
  pmap (preceded (pair (tag_no_case (bytes "branch")) equal) token_str)
    ViaParam.Branch

def via_received : Parser ViaParam := fun input =>
  match (pair (tag_no_case (bytes "received")) (pair equal
          (alt2 ipv4_address ipv6_address))) input with
  | .ok r x => if utf8Valid x.2.2 then .ok r (.Received x.2.2) else .fail .utf8Error
  | .err k => .err k
  | .fail k => .fail k

def via_maddr : Parser ViaParam := fun input =>
  match (pair (tag_no_case (bytes "maddr")) (pair equal host)) input with
  | .ok r x => if utf8Valid x.2.2 then .ok r (.MAddr x.2.2) else .fail .utf8Error
  | .err k => .err k
  | .fail k => .fail k

/-- `via_ttl`: note that the value is parsed with the unbounded `integer`
parser, not with the range-checked `ttl` parser. -/
def via_ttl : Parser ViaParam :=
  pmap (pair (tag_no_case (bytes "ttl")) (pair equal integer))
    (fun x => .Ttl x.2.2)

def via_params : Parser ViaParam :=
  alt2 via_ttl (alt2 via_maddr (alt2 via_received (alt2 via_branch via_extension)))

def via_parm : Parser Via := fun input =>
  match (pair sent_protocol (pair linear_whitespace (pair sent_by
          (many0 (pair semicolon via_params))))) input with
  | .ok r x =>
    if utf8Valid x.1 then
      if utf8Valid x.2.2.1 then
        .ok r ⟨x.1, x.2.2.1, x.2.2.2.map (fun y => y.2)⟩
      else .fail .utf8Error
    else .fail .utf8Error
  | .err k => .err k
  | .fail k => .fail k

def via : Parser Header :=
  pmap (pair (alt2 (tag_no_case (bytes "Via")) (tag_no_case [118]))
         (pair header_colon (pair via_parm (many0 (pair comma via_parm)))))
    (fun x => .Via (x.2.2.1 :: x.2.2.2.map (fun y => y.2)))

/-! ## `parser/rfc3261/headers/warning.rs` -/

def warning_agent_host_port : Parser WarningAgent := fun input =>
  match host_port input with
  | .ok r (h, p) => if utf8Valid h then .ok r (.HostPort h p) else .fail .utf8Error
  | .err k => .err k
  | .fail k => .fail k

def warning_agent_pseudonym : Parser WarningAgent :=
  pmap token_str WarningAgent.Pseudonym

def warning_agent : Parser WarningAgent :=
  alt2 warning_agent_host_port warning_agent_pseudonym

def warning_value : Parser Warning := fun input =>
  match (pair (take_while_m_n 3 3 nom_is_digit)
          (pair (preceded (tag [32]) warning_agent)
            (preceded (tag [32]) quoted_string))) input with
  | .ok r x =>
    if utf8Valid x.1 then
      if utf8Valid x.2.2 then .ok r ⟨x.1, x.2.1, x.2.2⟩ else .fail .utf8Error
    else .fail .utf8Error
  | .err k => .err k
  | .fail k => .fail k

def warning : Parser Header :=
  pmap (pair (tag_no_case (bytes "Warning")) (pair header_colon
         (pair warning_value (many0 (pair comma warning_value)))))
    (fun x => .Warning (x.2.2.1 :: x.2.2.2.map (fun y => y.2)))

end Xylosip

namespace Xylosip

/-! ## `parser/rfc3261/headers/contact.rs`

The source fns `from` and `to` are named `from_header` / `to_header`
here (both are reserved words in Lean). -/

def contact_params_expires : Parser ContactParam :=
  pmap (preceded (pair (tag_no_case (bytes "expires")) equal) integer)
    ContactParam.Expires

def contact_params_q : Parser ContactParam := fun input =>
  match (preceded (pair (tag_no_case [113]) equal) qvalue) input with
  | .ok r v => if utf8Valid v then .ok r (.Q v) else .fail .utf8Error
  | .err k => .err k
  | .fail k => .fail k

def contact_params_extension : Parser ContactParam :=
  pmap generic_param ContactParam.Extension

def contact_params : Parser ContactParam :=
  alt2 contact_params_q (alt2 contact_params_expires contact_params_extension)

def display_name : Parser Input :=
  alt2 (recognize (many1 (pair token linear_whitespace))) quoted_string

def addr_spec : Parser (Option Input × Input) :=
  pmap (alt2 sip_uri absolute_uri) (fun a => (none, a))

def name_addr : Parser (Option Input × Input) :=
  pmap (pair (opt display_name)
         (preceded left_angle_quote (terminated addr_spec right_angle_quote)))
    (fun x => (x.1, x.2.2))

def contact_param : Parser Contact := fun input =>
  match (pair (alt2 name_addr addr_spec)
          (many0 (preceded semicolon contact_params))) input with
  | .ok r ((n, a), ps) =>
    if utf8Valid a then
      match n with
      | some nv =>
        if utf8Valid nv then .ok r ⟨a, some nv, ps⟩ else .fail .utf8Error
      | none => .ok r ⟨a, none, ps⟩
    else .fail .utf8Error
  | .err k => .err k
  | .fail k => .fail k

def contact_star : Parser ContactValue := pmap star (fun _ => .Any)

def contact_specific : Parser ContactValue :=
  pmap (separated_nonempty_list comma contact_param) ContactValue.Specific

def contact : Parser Header :=
  pmap (preceded (pair (alt2 (tag_no_case (bytes "Contact")) (tag_no_case [109]))
         header_colon)
         (alt2 contact_star contact_specific))
    Header.Contact

def tag_param : Parser Input :=
  preceded (pair (tag_no_case (bytes "tag")) equal) token_str

def from_param_tag : Parser FromParam := pmap tag_param FromParam.Tag

def from_param_extension : Parser FromParam :=
  pmap generic_param FromParam.Extension

def from_spec : Parser From := fun input =>
  match (pair (alt2 name_addr addr_spec)
          (many0 (preceded semicolon (alt2 from_param_tag from_param_extension)))) input with
  | .ok r ((n, a), ps) =>
    if utf8Valid a then
      match n with
      | some nv =>
        if utf8Valid nv then .ok r ⟨a, some nv, ps⟩ else .fail .utf8Error
      | none => .ok r ⟨a, none, ps⟩
    else .fail .utf8Error
  | .err k => .err k
  | .fail k => .fail k

def from_header : Parser Header :=
  pmap (preceded (pair (alt2 (tag_no_case (bytes "From")) (tag_no_case [102]))
         header_colon) from_spec)
    Header.From

def rec_route : Parser RecordRoute := fun input =>
  match (pair name_addr generic_params) input with
  | .ok r ((n, a), ps) =>
    if utf8Valid a then
      match n with
      | some nv =>
        if utf8Valid nv then .ok r ⟨a, some nv, ps⟩ else .fail .utf8Error
      | none => .ok r ⟨a, none, ps⟩
    else .fail .utf8Error
  | .err k => .err k
  | .fail k => .fail k

def record_route : Parser Header :=
  pmap (preceded (pair (tag_no_case (bytes "Record-Route")) header_colon)
         (separated_nonempty_list comma rec_route))
    Header.RecordRoute

def rplyto_spec : Parser ReplyTo := fun input =>
  match (pair (alt2 name_addr addr_spec) generic_params) input with
  | .ok r ((n, a), ps) =>
    if utf8Valid a then
      match n with
      | some nv =>
        if utf8Valid nv then .ok r ⟨a, some nv, ps⟩ else .fail .utf8Error
      | none => .ok r ⟨a, none, ps⟩
    else .fail .utf8Error
  | .err k => .err k
  | .fail k => .fail k

def reply_to : Parser Header :=
  pmap (preceded (pair (tag_no_case (bytes "Reply-To")) header_colon) rplyto_spec)
    Header.ReplyTo

def route_param : Parser Route := fun input =>
  match (pair name_addr generic_params) input with
  | .ok r ((n, a), ps) =>
    if utf8Valid a then
      match n with
      | some nv =>
        if utf8Valid nv then .ok r ⟨a, some nv, ps⟩ else .fail .utf8Error
      | none => .ok r ⟨a, none, ps⟩
    else .fail .utf8Error
  | .err k => .err k
  | .fail k => .fail k

def route : Parser Header :=
  pmap (preceded (pair (tag_no_case (bytes "Route")) header_colon)
         (separated_nonempty_list comma route_param))
    Header.Route

def to_param_tag : Parser ToParam := pmap tag_param ToParam.Tag

def to_param_extension : Parser ToParam := pmap generic_param ToParam.Extension

def to_param : Parser ToParam := alt2 to_param_tag to_param_extension

def to_header : Parser Header := fun input =>
  match (preceded (pair (alt2 (tag_no_case (bytes "To")) (tag_no_case [116]))
          header_colon)
          (pair (alt2 name_addr addr_spec)
            (many0 (preceded semicolon to_param)))) input with
  | .ok r ((n, a), ps) =>
    if utf8Valid a then
      match n with
      | some nv =>
        if utf8Valid nv then .ok r (.To ⟨a, some nv, ps⟩) else .fail .utf8Error
      | none => .ok r (.To ⟨a, none, ps⟩)
    else .fail .utf8Error
  | .err k => .err k
  | .fail k => .fail k

end Xylosip

namespace Xylosip

/-! ## `parser/rfc3261/headers/mod.rs` -/

def allow : Parser Header :=
  pmap (preceded (pair (tag_no_case (bytes "Allow")) header_colon)
         (separated_list comma method))
    Header.Allow

def cseq : Parser Header :=
  pmap (preceded (pair (tag_no_case (bytes "CSeq")) header_colon)
         (pair integer (preceded linear_whitespace method)))
    (fun x => .CSeq x.1 x.2)

def expires : Parser Header :=
  pmap (preceded (pair (tag_no_case (bytes "Expires")) header_colon) integer)
    Header.Expires

def max_forwards : Parser Header :=
  pmap (preceded (pair (tag_no_case (bytes "Max-Forwards")) header_colon) integer)
    Header.MaxForwards

def mime_version : Parser Header := fun input =>
  match (preceded (pair (tag_no_case (bytes "MIME-Version")) header_colon)
          (recognize (pair digit1 (pair (tag [46]) digit1)))) input with
  | .ok r v => if utf8Valid v then .ok r (.MIMEVersion v) else .fail .utf8Error
  | .err k => .err k
  | .fail k => .fail k

def min_expires : Parser Header :=
  pmap (preceded (pair (tag_no_case (bytes "Min-Expires")) header_colon) integer)
    Header.MinExpires

def organization : Parser Header := fun input =>
  match (preceded (pair (tag_no_case (bytes "Organization")) header_colon)
          (opt utf8_trim)) input with
  | .ok r (some v) =>
    if utf8Valid v then .ok r (.Organization (some v)) else .fail .utf8Error
  | .ok r none => .ok r (.Organization none)
  | .err k => .err k
  | .fail k => .fail k

def require : Parser Header :=
  pmap (preceded (pair (tag_no_case (bytes "Require")) header_colon)
         (pair token_str option_tag))
    (fun x => .Require (x.1 :: x.2))

def duration_retry_param : Parser RetryParam :=
  pmap (preceded (pair (tag_no_case (bytes "duration")) equal) integer)
    RetryParam.AvailabilityDuration

def generic_retry_param : Parser RetryParam :=
  pmap generic_param RetryParam.Extension

def retry_param : Parser RetryParam :=
  alt2 duration_retry_param generic_retry_param

def retry_params : Parser (List RetryParam) :=
  many0 (preceded semicolon retry_param)

def retry_after : Parser Header := fun input =>
  match (preceded (pair (tag_no_case (bytes "Retry-After")) header_colon)
          (pair integer (pair (opt comment) retry_params))) input with
  | .ok r (d, (c, ps)) =>
    match c with
    | some cv =>
      if utf8Valid cv then .ok r (.RetryAfter ⟨d, some cv, ps⟩)
      else .fail .utf8Error
    | none => .ok r (.RetryAfter ⟨d, none, ps⟩)
  | .err k => .err k
  | .fail k => .fail k

def server_val : Parser Input :=
  alt2 (recognize (pair token (opt (pair slash token)))) comment

def server : Parser Header := fun input =>
  match (preceded (pair (tag_no_case (bytes "Server")) header_colon)
          (recognize (pair server_val (many0 (pair linear_whitespace server_val))))) input with
  | .ok r v => if utf8Valid v then .ok r (.Server v) else .fail .utf8Error
  | .err k => .err k
  | .fail k => .fail k

def user_agent : Parser Header := fun input =>
  match (preceded (pair (tag_no_case (bytes "User-Agent")) header_colon)
          (recognize (pair server_val (many0 (pair linear_whitespace server_val))))) input with
  | .ok r v => if utf8Valid v then .ok r (.UserAgent v) else .fail .utf8Error
  | .err k => .err k
  | .fail k => .fail k

def subject : Parser Header := fun input =>
  match (preceded (pair (alt2 (tag_no_case (bytes "Subject")) (tag_no_case [115]))
          header_colon)
          (opt utf8_trim)) input with
  | .ok r (some v) =>
    if utf8Valid v then .ok r (.Subject (some v)) else .fail .utf8Error
  | .ok r none => .ok r (.Subject none)
  | .err k => .err k
  | .fail k => .fail k

def supported : Parser Header :=
  pmap (preceded (pair (alt2 (tag_no_case (bytes "Supported")) (tag_no_case [107]))
         header_colon)
         (pair token_str option_tag))
    (fun x => .Supported (x.1 :: x.2))

def delay : Parser (Option Input) := fun input =>
  match (opt (preceded linear_whitespace
          (recognize (pair digit0 (opt (pair (tag [46]) digit0)))))) input with
  | .ok r (some v) => if utf8Valid v then .ok r (some v) else .fail .utf8Error
  | .ok r none => .ok r none
  | .err k => .err k
  | .fail k => .fail k

def timestamp : Parser Header := fun input =>
  match (preceded (pair (tag_no_case (bytes "Timestamp")) header_colon)
          (pair (recognize (pair digit1 (opt (pair (tag [46]) digit0))))
                delay)) input with
  | .ok r (ts, d) =>
    if utf8Valid ts then .ok r (.Timestamp ts d) else .fail .utf8Error
  | .err k => .err k
  | .fail k => .fail k

def unsupported : Parser Header :=
  pmap (preceded (pair (tag_no_case (bytes "Unsupported")) header_colon)
         (pair token_str option_tag))
    (fun x => .Unsupported (x.1 :: x.2))

/-- `header_value`: a `many0` over alternatives whose second branch
(`take_while(is_utf8_cont)`) can succeed consuming nothing, so the loop
can only ever terminate through nom's zero-progress guard, i.e. with an
error. -/
def header_value : Parser Input :=
  mapUtf8 (recognize (many0 (alt2 utf8_char1
    (alt2 (take_while is_utf8_cont) linear_whitespace))))

/-- `extension_header`: catch-all `token ":" header-value` fallback. -/
def extension_header : Parser Header :=
  pmap (pair token_str (preceded header_colon header_value))
    (fun x => .Extension x.1 x.2)

/-- `message_header`: the full alternation over every supported header,
in source order (three nested `alt` groups), terminated by CRLF. -/
def message_header : Parser Header :=
  terminated
    (alt2
      (alt2 accept (alt2 accept_encoding (alt2 accept_language
        (alt2 alert_info (alt2 allow (alt2 authentication_info
          (alt2 authorization (alt2 call_id (alt2 call_info
            (alt2 contact (alt2 content_disposition (alt2 content_encoding
              (alt2 content_language (alt2 content_length (alt2 content_type
                (alt2 cseq (alt2 date (alt2 error_info (alt2 expires
                  (alt2 from_header via))))))))))))))))))))
      (alt2
        (alt2 in_reply_to (alt2 max_forwards (alt2 mime_version
          (alt2 min_expires (alt2 organization (alt2 priority
            (alt2 proxy_authenticate (alt2 proxy_authorization
              (alt2 proxy_require (alt2 record_route (alt2 reply_to
                (alt2 require (alt2 retry_after (alt2 route (alt2 server
                  (alt2 subject (alt2 supported (alt2 timestamp
                    (alt2 to_header (alt2 unsupported user_agent))))))))))))))))))))
        (alt2 warning (alt2 www_authenticate extension_header))))
    newline

/-! ## `parser/rfc3261/request.rs` -/

/-- The request line `{ method, uri, version }`. -/
structure RequestLine where
  method : Method
  uri : Input
  version : Version
  deriving Repr, DecidableEq

/-- The structure built by the `request` parser of
`parser/rfc3261/request.rs` (request line, wire-ordered header list,
optional body). -/
structure ParsedRequest where
  request_line : RequestLine
  headers : List Header
  body : Option Input
  deriving Repr, DecidableEq

def request_uri : Parser Input := alt2 sip_uri (alt2 sips_uri absolute_uri)

def request_line : Parser RequestLine := fun input =>
  match (terminated
          (pair method (pair (preceded (tag [32]) request_uri)
            (preceded (tag [32]) sip_version)))
          newline) input with
  | .ok r (m, (u, v)) =>
    if utf8Valid u then .ok r ⟨m, u, v⟩ else .fail .utf8Error
  | .err k => .err k
  | .fail k => .fail k

/-- `request`: request line, zero-or-more message headers (wire order),
the empty-line CRLF, then the optional opaque body. -/
def request : Parser ParsedRequest :=
  pmap (pair request_line (pair (many0 message_header)
         (preceded newline (opt message_body))))
    (fun x => ⟨x.1, x.2.1, x.2.2⟩)

/-! ## `parser/rfc3261/response.rs`: the status-code alternation -/

/-- `status_code`: a large alternation of known 3-digit codes, tried in
source order, with a final generic 3-digit fallback. -/
def status_code : Parser Input :=
  alt2
    (alt2 (tag (bytes "100")) (alt2 (tag (bytes "180"))
      (alt2 (tag (bytes "181")) (alt2 (tag (bytes "182")) (tag (bytes "183"))))))
    (alt2 (tag (bytes "200"))
      (alt2
        (alt2 (tag (bytes "300")) (alt2 (tag (bytes "301"))
          (alt2 (tag (bytes "302")) (alt2 (tag (bytes "305")) (tag (bytes "380"))))))
        (alt2
          (alt2 (tag (bytes "400")) (alt2 (tag (bytes "401"))
            (alt2 (tag (bytes "402")) (alt2 (tag (bytes "403"))
              (alt2 (tag (bytes "404")) (alt2 (tag (bytes "405"))
                (alt2 (tag (bytes "406")) (alt2 (tag (bytes "407"))
                  (alt2 (tag (bytes "408")) (alt2 (tag (bytes "410"))
                    (alt2 (tag (bytes "413")) (alt2 (tag (bytes "414"))
                      (alt2 (tag (bytes "415")) (alt2 (tag (bytes "416"))
                        (alt2 (tag (bytes "420")) (alt2 (tag (bytes "421"))
                          (alt2 (tag (bytes "423")) (alt2 (tag (bytes "480"))
                            (alt2 (tag (bytes "481")) (alt2 (tag (bytes "482"))
                              (tag (bytes "483"))))))))))))))))))))))
          (alt2
            (alt2 (tag (bytes "483")) (alt2 (tag (bytes "485"))
              (alt2 (tag (bytes "486")) (alt2 (tag (bytes "487"))
                (alt2 (tag (bytes "488")) (alt2 (tag (bytes "491"))
                  (tag (bytes "493"))))))))
            (alt2
              (alt2 (tag (bytes "500")) (alt2 (tag (bytes "501"))
                (alt2 (tag (bytes "502")) (alt2 (tag (bytes "503"))
                  (alt2 (tag (bytes "504")) (alt2 (tag (bytes "505"))
                    (tag (bytes "513"))))))))
              (alt2
                (alt2 (tag (bytes "600")) (alt2 (tag (bytes "603"))
                  (alt2 (tag (bytes "604")) (tag (bytes "606")))))
                (take_while_m_n 3 3 nom_is_digit)))))))

end Xylosip

namespace Xylosip

/-! ## `request.rs`: `Request::new` -/

/-- `InvalidRequestError`: one variant per missing mandatory header. -/
inductive InvalidRequestError where
  | MissingCallIDHeader
  | MissingCSeqHeader
  | MissingFromHeader
  | MissingMaxForwardsHeader
  | MissingToHeader
  | MissingViaHeader
  deriving Repr, DecidableEq

/-- The `Request` of `request.rs`, with the mandatory headers extracted
into dedicated fields (the source fields `from` and `to` are named
`from_f` and `to_f` here, both being reserved words in Lean). -/
structure Request where
  request_line : RequestLine
  call_id : Input
  cseq : Int × Method
  from_f : From
  max_forwards : Int
  to_f : To
  via : List Via
  headers : List Header
  body : Option Input
  deriving Repr, DecidableEq

/-- Accumulator for the header scan of `Request::new` (the six local
`Option` variables of the source). -/
structure ReqAcc where
  call_id : Option Input
  cseq : Option (Int × Method)
  from_f : Option From
  max_forwards : Option Int
  to_f : Option To
  via : Option (List Via)
  deriving Repr, DecidableEq

/-- One step of the `for header in headers.iter()` loop of
`Request::new`: each matching header overwrites the corresponding
option, so the final value is the last occurrence in wire order. -/
def reqAccStep (acc : ReqAcc) (h : Header) : ReqAcc :=
  match h with
  | .CallID id => { acc with call_id := some id }
  | .CSeq c m => { acc with cseq := some (c, m) }
  | .From f => { acc with from_f := some f }
  | .MaxForwards mf => { acc with max_forwards := some mf }
  | .To t => { acc with to_f := some t }
  | .Via v => { acc with via := some v }
  | _ => acc

/-- `Request::new`: scan the headers, then check the six mandatory
headers in the source's fixed order, erroring on the first one missing;
on success store the extracted values together with the unchanged header
list and body. -/
def Request.new (rl : RequestLine) (headers : List Header) (body : Option Input) :
    Except InvalidRequestError Request :=
  let acc := headers.foldl reqAccStep ⟨none, none, none, none, none, none⟩
  match acc.call_id with
  | none => .error .MissingCallIDHeader
  | some cid =>
    match acc.cseq with
    | none => .error .MissingCSeqHeader
    | some cs =>
      match acc.from_f with
      | none => .error .MissingFromHeader
      | some f =>
        match acc.max_forwards with
        | none => .error .MissingMaxForwardsHeader
        | some mf =>
          match acc.to_f with
          | none => .error .MissingToHeader
          | some t =>
            match acc.via with
            | none => .error .MissingViaHeader
            | some v =>
              .ok ⟨rl, cid, cs, f, mf, t, v, headers, body⟩

end Xylosip

namespace Xylosip

/-! ## Specification-side definitions

Used only to *state* claims about the embedded code. -/

/-- Spec-side status-code parser, following the spec's words: a parser
that directly accepts exactly three ASCII digits. -/
def statusCodeSpec : Parser Input := take_while_m_n 3 3 nom_is_digit

/-- Value, in thousandths, of the fractional digits after the dot of a
qvalue (up to three digits). -/
def fracMilli : Input → Nat
  | [] => 0
  | [d] => (d - 48) * 100
  | [d, e] => (d - 48) * 100 + (e - 48) * 10
  | d :: e :: f :: _ => (d - 48) * 100 + (e - 48) * 10 + (f - 48)

/-- Numeric value, in thousandths, denoted by an accepted qvalue span
(`d["." up-to-3-digits]`). -/
def qvalueMilli : Input → Nat
  | [] => 0
  | [d] => (d - 48) * 1000
  | d :: e :: ds =>
    if e = 46 then (d - 48) * 1000 + fracMilli ds else (d - 48) * 1000

/-- A valid RFC3261 domain label: non-empty, alphanumeric-or-hyphen,
with no hyphen at either end. -/
def validDomainLabel (lab : Input) : Bool :=
  !lab.isEmpty && lab.all is_alphanumeric_hyphen &&
    !(lab.head? == some 45) && !(lab.getLast? == some 45)

/-- A valid RFC3261 top label: non-empty, alphanumeric-or-hyphen,
starting with an alphabetic character and not ending in a hyphen. -/
def validTopLabel (lab : Input) : Bool :=
  !lab.isEmpty && lab.all is_alphanumeric_hyphen &&
    (match lab.head? with
     | some b => is_ascii_alphabetic b
     | none => false) &&
    !(lab.getLast? == some 45)

/-- A label with no hyphen at either end (the property claimed of every
dot-separated label of an accepted hostname; the empty label of a
trailing dot counts). -/
def hyphenFreeEnds (lab : Input) : Bool :=
  !(lab.head? == some 45) && !(lab.getLast? == some 45)

/-- Spec-side: labels each followed by a dot (`lab1.lab2. ... labn.`). -/
def dotJoin : List Input → Input
  | [] => []
  | l :: ls => l ++ 46 :: dotJoin ls

/-- The payload of the last `Call-ID` header of a list, if any. -/
def lastCallID (hs : List Header) : Option Input :=
  hs.reverse.findSome? (fun h => match h with | .CallID id => some id | _ => none)

/-- The payload of the last `CSeq` header of a list, if any. -/
def lastCSeq (hs : List Header) : Option (Int × Method) :=
  hs.reverse.findSome? (fun h => match h with | .CSeq c m => some (c, m) | _ => none)

/-- The payload of the last `From` header of a list, if any. -/
def lastFrom (hs : List Header) : Option From :=
  hs.reverse.findSome? (fun h => match h with | .From f => some f | _ => none)

/-- The payload of the last `Max-Forwards` header of a list, if any. -/
def lastMaxForwards (hs : List Header) : Option Int :=
  hs.reverse.findSome? (fun h => match h with | .MaxForwards v => some v | _ => none)

/-- The payload of the last `To` header of a list, if any. -/
def lastTo (hs : List Header) : Option To :=
  hs.reverse.findSome? (fun h => match h with | .To t => some t | _ => none)

/-- The payload of the last `Via` header of a list, if any. -/
def lastVia (hs : List Header) : Option (List Via) :=
  hs.reverse.findSome? (fun h => match h with | .Via v => some v | _ => none)

end Xylosip

namespace Xylosip

/-- Refinement predicate used to prove the status-code equivalence: a
parser `p` refines the 3-digit fallback when prepending it (as an `alt`
branch) in front of anything already equivalent to the fallback changes
nothing. -/
def RefinesSC (p : Parser Input) : Prop :=
  ∀ q : Parser Input, (∀ i, q i = statusCodeSpec i) →
    ∀ i, alt2 p q i = statusCodeSpec i

end Xylosip

namespace Xylosip

/-! # Theorems

Helper lemmas first, then one theorem per claim (with witnesses and
counterexamples where required). -/

theorem takeWhile_append_all {p : Nat → Bool} {xs : Input} (ys : Input)
    (h : ∀ b ∈ xs, p b = true) :
    (xs ++ ys).takeWhile p = xs ++ ys.takeWhile p := by
  induction xs with
  | nil => simp
  | cons a t ih =>
    have ha : p a = true := h a (by simp)
    simp only [List.cons_append, List.takeWhile_cons, ha, if_true]
    exact congrArg (a :: ·) (ih (fun b hb => h b (by simp [hb])))

theorem dropWhile_append_all {p : Nat → Bool} {xs : Input} (ys : Input)
    (h : ∀ b ∈ xs, p b = true) :
    (xs ++ ys).dropWhile p = ys.dropWhile p := by
  induction xs with
  | nil => simp
  | cons a t ih =>
    have ha : p a = true := h a (by simp)
    simp only [List.cons_append, List.dropWhile_cons, ha, if_true]
    exact ih (fun b hb => h b (by simp [hb]))

theorem tag_self_append (s r : Input) : tag s (s ++ r) = .ok r s := by
  have hp : s.isPrefixOf (s ++ r) = true :=
    List.isPrefixOf_iff_prefix.mpr (List.prefix_append s r)
  simp [tag, hp]

theorem tag_no_case_self_append (s r : Input) : tag_no_case s (s ++ r) = .ok r s := by
  have hp : (s.map asciiLower).isPrefixOf ((s ++ r).map asciiLower) = true := by
    rw [List.map_append]
    exact List.isPrefixOf_iff_prefix.mpr (List.prefix_append _ _)
  simp [tag_no_case, hp]

theorem digit_not_space {b : Nat} (h : nom_is_digit b = true) :
    nom_is_space b = false := by
  simp only [nom_is_digit, Bool.and_eq_true, decide_eq_true_eq] at h
  simp only [nom_is_space, Bool.or_eq_false_iff, decide_eq_false_iff_not]
  omega

theorem digit_ne_cr {b : Nat} (h : nom_is_digit b = true) : (13 == b) = false := by
  simp only [nom_is_digit, Bool.and_eq_true, decide_eq_true_eq] at h
  simp only [beq_eq_false_iff_ne, ne_eq]
  omega

/-- When the inner parser consumes exactly `pre` of the input,
`recognize` returns `pre` as the value. -/
theorem recognize_ok_of (p : Parser α) (pre r : Input) (v : α)
    (h : p (pre ++ r) = .ok r v) : recognize p (pre ++ r) = .ok r pre := by
  have hl : (pre ++ r).length - r.length = pre.length := by
    simp [List.length_append]
  simp only [recognize, h, hl, List.take_left]

/-- `header_colon` on `": "` followed by a digit consumes exactly the
colon and the space. -/
theorem header_colon_colon_space {d : Nat} (hd : nom_is_digit d = true)
    (z : Input) : header_colon (58 :: 32 :: d :: z) = .ok (d :: z) [58, 32] := by
  have hsp : nom_is_space d = false := digit_not_space hd
  have hcr : (13 == d) = false := digit_ne_cr hd
  have h58 : nom_is_space 58 = false := by decide
  have h32 : nom_is_space 32 = true := by decide
  have e3 : space0 (32 :: d :: z) = .ok (d :: z) [32] := by
    simp [space0, take_while, List.takeWhile_cons, List.dropWhile_cons, h32, hsp]
  have e4 : newline (d :: z) = .err .nomError := by
    have : ([13, 10] : Input).isPrefixOf (d :: z) = false := by
      simp only [List.isPrefixOf, hcr, Bool.false_and]
    simp [newline, tag, this]
  have e6 : opt (pair space0 newline) (32 :: d :: z) = .ok (32 :: d :: z) none := by
    simp [opt, pair, e3, e4]
  have e8 : linear_whitespace (32 :: d :: z) = .ok (d :: z) [32] := by
    have hp : pair (opt (pair space0 newline)) space1 (([32] : Input) ++ d :: z) =
        .ok (d :: z) (none, [32]) := by
      have e7 : space1 (32 :: d :: z) = .ok (d :: z) [32] := by
        simp [space1, take_while1, List.takeWhile_cons, List.dropWhile_cons, h32, hsp]
      simp only [List.singleton_append, pair, e6, e7]
    exact recognize_ok_of _ [32] (d :: z) _ hp
  have e9 : separator_whitespace (32 :: d :: z) = .ok (d :: z) [32] := by
    have h9 := recognize_ok_of (opt linear_whitespace) [32] (d :: z) (some [32])
      (by simp [opt, e8])
    simpa [separator_whitespace] using h9
  have e10 : pair space0 (pair (charP 58) separator_whitespace)
      (([58, 32] : Input) ++ d :: z) = .ok (d :: z) ([], (58, [32])) := by
    have e1 : space0 (58 :: 32 :: d :: z) = .ok (58 :: 32 :: d :: z) [] := by
      simp [space0, take_while, List.takeWhile_cons, List.dropWhile_cons, h58]
    have e2 : charP 58 (58 :: 32 :: d :: z) = .ok (32 :: d :: z) 58 := by
      simp [charP]
    simp only [List.cons_append, List.nil_append, List.singleton_append, pair,
      e1, e2, e9]
  exact recognize_ok_of _ [58, 32] (d :: z) _ e10

/-- `digit1` on a non-empty digit run followed by a space stops exactly
at the space. -/
theorem digit1_digits_append {ds : Input} (h1 : ds ≠ [])
    (h2 : ∀ b ∈ ds, nom_is_digit b = true) (z : Input) :
    digit1 (ds ++ 32 :: z) = .ok (32 :: z) ds := by
  have htw : (ds ++ 32 :: z).takeWhile nom_is_digit = ds ++ (32 :: z).takeWhile nom_is_digit :=
    takeWhile_append_all _ h2
  have hdw : (ds ++ 32 :: z).dropWhile nom_is_digit = (32 :: z).dropWhile nom_is_digit :=
    dropWhile_append_all _ h2
  have h32 : nom_is_digit 32 = false := by decide
  simp only [digit1, take_while1, htw, hdw, List.takeWhile_cons, h32,
    List.dropWhile_cons, if_false, Bool.false_eq_true, List.append_nil]

/-- Overflowing digit runs make `integer` a hard `Failure`. -/
theorem integer_overflow_fails {ds : Input} (h1 : ds ≠ [])
    (h2 : ∀ b ∈ ds, nom_is_digit b = true) (h3 : 2147483647 < digitsToNat ds)
    (z : Input) : integer (ds ++ 32 :: z) = .fail .invalidInteger := by
  simp [integer, digit1_digits_append h1 h2 z, Nat.not_le.mpr h3]

end Xylosip

namespace Xylosip

/-- The `CSeq` header with any overflowing sequence number is a hard
`Err::Failure(InvalidIntegerError)`. -/
theorem cseq_overflow_hard (ds : Input) (h1 : ds ≠ [])
    (h2 : ∀ b ∈ ds, nom_is_digit b = true) (h3 : 2147483647 < digitsToNat ds) :
    cseq (bytes "CSeq: " ++ ds ++ bytes " INVITE\r\n") = .fail .invalidInteger := by
  obtain ⟨d, ds2, rfl⟩ : ∃ d ds2, ds = d :: ds2 := by
    cases ds with
    | nil => exact absurd rfl h1
    | cons a t => exact ⟨a, t, rfl⟩
  have hd : nom_is_digit d = true := h2 d (by simp)
  have e1 : tag_no_case (bytes "CSeq")
      (bytes "CSeq: " ++ (d :: ds2) ++ bytes " INVITE\r\n") =
      .ok (58 :: 32 :: d :: (ds2 ++ bytes " INVITE\r\n")) (bytes "CSeq") :=
    tag_no_case_self_append (bytes "CSeq")
      (58 :: 32 :: d :: (ds2 ++ bytes " INVITE\r\n"))
  have e2 : header_colon (58 :: 32 :: d :: (ds2 ++ bytes " INVITE\r\n")) =
      .ok (d :: (ds2 ++ bytes " INVITE\r\n")) [58, 32] :=
    header_colon_colon_space hd _
  have e3 : integer (d :: (ds2 ++ bytes " INVITE\r\n")) = .fail .invalidInteger :=
    integer_overflow_fails h1 h2 h3 (bytes "INVITE\r\n")
  simp only [cseq, pmap, preceded, pair, e1, e2, e3]

/-- C1: the spec claims that a syntactically well-formed but unknown
header such as `X-Custom-Thing: anything\r\n` always parses as
`Header::Extension` and never makes the message fail.  The code does the
opposite: `header_value`'s `many0` loop contains the alternative
`take_while(is_utf8_cont)`, which succeeds consuming nothing whenever
the other alternatives fail, so nom 5's zero-length-match guard turns
the loop into an error; `extension_header` therefore never succeeds,
`message_header` rejects the header line, and a request carrying such a
header fails to parse. -/
theorem c1_unknown_header_aborts_message :
    header_value (bytes "anything\r\n") = .err .nomError ∧
    message_header (bytes "X-Custom-Thing: anything\r\n") = .err .nomError ∧
    request (bytes "INVITE sip:j@x.com SIP/2.0\r\nX-Custom-Thing: anything\r\n\r\n") =
      .err .nomError :=
  ⟨by decide, by decide, by decide⟩

/-- C3 counterexample: the claim says
`Content-Length: 99999999999999999999\r\n` fails to parse; in fact
`content_length` never converts the digits to a number (it keeps the raw
`digit1` match), so the header parses successfully. -/
theorem c3_counterexample :
    message_header (bytes "Content-Length: 99999999999999999999\r\n") =
      .ok [] (.ContentLength (bytes "99999999999999999999")) := by decide

/-- C3 (amended): every numeric field parsed through `integer`
(Max-Forwards, Expires, CSeq number, TTL, port, Retry-After duration,
Min-Expires, ...) must fit a 32-bit signed integer — an accepted value
is always in `[0, 2147483647]` and an overflowing digit run is a hard
failure — but Content-Length is excluded: its parser stores the raw
digit string without numeric conversion, so an overlong Content-Length
header parses successfully. -/
theorem c3_integer_overflow_amended :
    (∀ i r v, integer i = .ok r v → 0 ≤ v ∧ v ≤ 2147483647) ∧
    (∀ (ds z : Input), ds ≠ [] → (∀ b ∈ ds, nom_is_digit b = true) →
      2147483647 < digitsToNat ds → integer (ds ++ 32 :: z) = .fail .invalidInteger) ∧
    message_header (bytes "Content-Length: 99999999999999999999\r\n") =
      .ok [] (.ContentLength (bytes "99999999999999999999")) := by
  refine ⟨?_, ?_, by decide⟩
  · intro i r v h
    simp only [integer] at h
    cases hd : digit1 i with
    | ok r2 ds =>
      rw [hd] at h
      by_cases hle : digitsToNat ds ≤ 2147483647
      · simp only [hle, if_true] at h
        cases h
        exact ⟨Int.ofNat_nonneg _, by exact_mod_cast hle⟩
      · simp only [hle, if_false] at h
        cases h
    | err k => rw [hd] at h; cases h
    | fail k => rw [hd] at h; cases h
  · intro ds z h1 h2 h3
    exact integer_overflow_fails h1 h2 h3 z

/-- Witness for C3's amended claim: `integer` accepts `2147483647`
within bounds and hard-fails on `2147483648`. -/
theorem c3_witness :
    (0 ≤ (2147483647 : Int) ∧ (2147483647 : Int) ≤ 2147483647) ∧
    integer ([50, 49, 52, 55, 52, 56, 51, 54, 52, 56] ++ 32 :: []) =
      .fail .invalidInteger :=
  ⟨c3_integer_overflow_amended.1 (bytes "2147483647") [] 2147483647 (by decide),
   c3_integer_overflow_amended.2.1 [50, 49, 52, 55, 52, 56, 51, 54, 52, 56] []
     (by decide) (by decide) (by decide)⟩

/-- C4 counterexample: the claim says the `[0, 255]` TTL bound applies
everywhere a TTL is parsed, including the Via header's `ttl` parameter;
but `via_ttl` uses the unbounded `integer` parser and accepts 256. -/
theorem c4_counterexample :
    via_ttl (bytes "ttl=256") = .ok [] (.Ttl 256) := by decide

/-- C4 (amended): the `ttl` parser (used for the URI `ttl=` parameter)
is bounded to `[0, 255]` — every accepted value lies in the range,
`ttl("255")` succeeds with 255 and `ttl("256")` hard-fails with
`InvalidTTLValue` — but the Via header's `ttl` parameter is parsed with
the plain `integer` parser instead, so it accepts any value up to
`i32::MAX` (e.g. 256). -/
theorem c4_ttl_bound_amended :
    (∀ i r v, ttl i = .ok r v → 0 ≤ v ∧ v ≤ 255) ∧
    ttl (bytes "255") = .ok [] 255 ∧
    ttl (bytes "256") = .fail .invalidTTL ∧
    via_ttl (bytes "ttl=256") = .ok [] (.Ttl 256) := by
  refine ⟨?_, by decide, by decide, by decide⟩
  intro i r v h
  simp only [ttl] at h
  split at h
  · split at h
    · split at h
      · cases h
      · cases h
        omega
    · cases h
    · cases h
  · cases h
  · cases h

/-- Witness for C4's amended claim at `ttl("255")`. -/
theorem c4_witness : 0 ≤ (255 : Int) ∧ (255 : Int) ≤ 255 :=
  c4_ttl_bound_amended.1 (bytes "255") [] 255 c4_ttl_bound_amended.2.1

/-- C6: the spec's example claims
`contact_param("\"John\" <sip:j@example.com>;expires=8;q=1.0")` parses
with params `[Expires(8), Q("1.0")]` (and the repo's own unit test
asserts the same), but the code rejects it: `left_angle_quote` accepts
no whitespace *before* `<`, so a quoted display name followed by a space
makes `name_addr` fail.  With an unquoted display name the same contact
parses and the parameter list does preserve wire order, and a parsed
request preserves header order without merging duplicates. -/
theorem c6_contact_param_and_header_order :
    contact_param (bytes "\"John\" <sip:j@example.com>;expires=8;q=1.0") =
      .err .nomError ∧
    contact_param (bytes "John <sip:j@example.com>;expires=8;q=1.0") =
      .ok [] ⟨bytes "sip:j@example.com", some (bytes "John "),
             [.Expires 8, .Q (bytes "1.0")]⟩ ∧
    request (bytes "INVITE sip:alice@a.com SIP/2.0\r\nExpires: 60\r\nMax-Forwards: 70\r\nExpires: 70\r\n\r\n") =
      .ok [] ⟨⟨.Invite, bytes "sip:alice@a.com", .Two⟩,
              [.Expires 60, .MaxForwards 70, .Expires 70], some []⟩ :=
  ⟨by decide, by decide, by decide⟩

end Xylosip

namespace Xylosip

theorem alt2_assoc (p q r : Parser α) (i : Input) :
    alt2 (alt2 p q) r i = alt2 p (alt2 q r) i := by
  simp only [alt2]
  cases p i <;> rfl

theorem refines_alt2 {p q : Parser Input} (hp : RefinesSC p) (hq : RefinesSC q) :
    RefinesSC (alt2 p q) := by
  intro q2 hq2 i
  rw [alt2_assoc]
  exact hp _ (hq _ hq2) i

/-- A `tag` of any three digits refines the generic 3-digit parser: when
the tag matches, the fallback would have consumed exactly the same three
bytes. -/
theorem refines_tag (s : Input) (h3 : s.length = 3)
    (hd : ∀ b ∈ s, nom_is_digit b = true) : RefinesSC (tag s) := by
  intro q hq i
  simp only [alt2, tag]
  cases hp : s.isPrefixOf i with
  | false => simp only [hp, Bool.false_eq_true, if_false]; exact hq i
  | true =>
    simp only [hp, if_true]
    obtain ⟨r, rfl⟩ : ∃ r, i = s ++ r := by
      obtain ⟨r, hr⟩ := List.isPrefixOf_iff_prefix.mp hp
      exact ⟨r, hr.symm⟩
    have htw : (s ++ r).takeWhile nom_is_digit = s ++ r.takeWhile nom_is_digit :=
      takeWhile_append_all r hd
    have hts : (s ++ r.takeWhile nom_is_digit).take 3 = s := by
      rw [← h3]
      exact List.take_left s _
    have hnl : ¬ s.length < 3 := by omega
    simp only [statusCodeSpec, take_while_m_n, htw, hts, h3, hnl, if_false,
      List.drop_left]
    norm_num

/-- C7: the status-code alternation (known codes first, generic 3-digit
fallback last) is observationally equivalent to the parser that directly
accepts exactly three ASCII digits. -/
theorem c7_status_code_equivalence : ∀ i, status_code i = statusCodeSpec i := by
  have g1 : RefinesSC (alt2 (tag (bytes "100")) (alt2 (tag (bytes "180"))
      (alt2 (tag (bytes "181")) (alt2 (tag (bytes "182")) (tag (bytes "183")))))) :=
    refines_alt2 (refines_tag _ (by decide) (by decide))
      (refines_alt2 (refines_tag _ (by decide) (by decide))
        (refines_alt2 (refines_tag _ (by decide) (by decide))
          (refines_alt2 (refines_tag _ (by decide) (by decide))
            (refines_tag _ (by decide) (by decide)))))
  have g3 : RefinesSC (alt2 (tag (bytes "300")) (alt2 (tag (bytes "301"))
      (alt2 (tag (bytes "302")) (alt2 (tag (bytes "305")) (tag (bytes "380")))))) :=
    refines_alt2 (refines_tag _ (by decide) (by decide))
      (refines_alt2 (refines_tag _ (by decide) (by decide))
        (refines_alt2 (refines_tag _ (by decide) (by decide))
          (refines_alt2 (refines_tag _ (by decide) (by decide))
            (refines_tag _ (by decide) (by decide)))))
  have g4 : RefinesSC (alt2 (tag (bytes "400")) (alt2 (tag (bytes "401"))
      (alt2 (tag (bytes "402")) (alt2 (tag (bytes "403"))
        (alt2 (tag (bytes "404")) (alt2 (tag (bytes "405"))
          (alt2 (tag (bytes "406")) (alt2 (tag (bytes "407"))
            (alt2 (tag (bytes "408")) (alt2 (tag (bytes "410"))
              (alt2 (tag (bytes "413")) (alt2 (tag (bytes "414"))
                (alt2 (tag (bytes "415")) (alt2 (tag (bytes "416"))
                  (alt2 (tag (bytes "420")) (alt2 (tag (bytes "421"))
                    (alt2 (tag (bytes "423")) (alt2 (tag (bytes "480"))
                      (alt2 (tag (bytes "481")) (alt2 (tag (bytes "482"))
                        (tag (bytes "483")))))))))))))))))))))) := by
    refine refines_alt2 (refines_tag _ (by decide) (by decide)) ?_
    refine refines_alt2 (refines_tag _ (by decide) (by decide)) ?_
    refine refines_alt2 (refines_tag _ (by decide) (by decide)) ?_
    refine refines_alt2 (refines_tag _ (by decide) (by decide)) ?_
    refine refines_alt2 (refines_tag _ (by decide) (by decide)) ?_
    refine refines_alt2 (refines_tag _ (by decide) (by decide)) ?_
    refine refines_alt2 (refines_tag _ (by decide) (by decide)) ?_
    refine refines_alt2 (refines_tag _ (by decide) (by decide)) ?_
    refine refines_alt2 (refines_tag _ (by decide) (by decide)) ?_
    refine refines_alt2 (refines_tag _ (by decide) (by decide)) ?_
    refine refines_alt2 (refines_tag _ (by decide) (by decide)) ?_
    refine refines_alt2 (refines_tag _ (by decide) (by decide)) ?_
    refine refines_alt2 (refines_tag _ (by decide) (by decide)) ?_
    refine refines_alt2 (refines_tag _ (by decide) (by decide)) ?_
    refine refines_alt2 (refines_tag _ (by decide) (by decide)) ?_
    refine refines_alt2 (refines_tag _ (by decide) (by decide)) ?_
    refine refines_alt2 (refines_tag _ (by decide) (by decide)) ?_
    refine refines_alt2 (refines_tag _ (by decide) (by decide)) ?_
    refine refines_alt2 (refines_tag _ (by decide) (by decide)) ?_
    exact refines_alt2 (refines_tag _ (by decide) (by decide))
      (refines_tag _ (by decide) (by decide))
  have g45 : RefinesSC (alt2 (tag (bytes "483")) (alt2 (tag (bytes "485"))
      (alt2 (tag (bytes "486")) (alt2 (tag (bytes "487"))
        (alt2 (tag (bytes "488")) (alt2 (tag (bytes "491"))
          (tag (bytes "493")))))))) := by
    refine refines_alt2 (refines_tag _ (by decide) (by decide)) ?_
    refine refines_alt2 (refines_tag _ (by decide) (by decide)) ?_
    refine refines_alt2 (refines_tag _ (by decide) (by decide)) ?_
    refine refines_alt2 (refines_tag _ (by decide) (by decide)) ?_
    refine refines_alt2 (refines_tag _ (by decide) (by decide)) ?_
    exact refines_alt2 (refines_tag _ (by decide) (by decide))
      (refines_tag _ (by decide) (by decide))
  have g5 : RefinesSC (alt2 (tag (bytes "500")) (alt2 (tag (bytes "501"))
      (alt2 (tag (bytes "502")) (alt2 (tag (bytes "503"))
        (alt2 (tag (bytes "504")) (alt2 (tag (bytes "505"))
          (tag (bytes "513")))))))) := by
    refine refines_alt2 (refines_tag _ (by decide) (by decide)) ?_
    refine refines_alt2 (refines_tag _ (by decide) (by decide)) ?_
    refine refines_alt2 (refines_tag _ (by decide) (by decide)) ?_
    refine refines_alt2 (refines_tag _ (by decide) (by decide)) ?_
    refine refines_alt2 (refines_tag _ (by decide) (by decide)) ?_
    exact refines_alt2 (refines_tag _ (by decide) (by decide))
      (refines_tag _ (by decide) (by decide))
  have g6 : RefinesSC (alt2 (tag (bytes "600")) (alt2 (tag (bytes "603"))
      (alt2 (tag (bytes "604")) (tag (bytes "606"))))) :=
    refines_alt2 (refines_tag _ (by decide) (by decide))
      (refines_alt2 (refines_tag _ (by decide) (by decide))
        (refines_alt2 (refines_tag _ (by decide) (by decide))
          (refines_tag _ (by decide) (by decide))))
  intro i
  exact g1 _ (refines_tag (bytes "200") (by decide) (by decide) _
    (g3 _ (g4 _ (g45 _ (g5 _ (g6 _ (fun _ => rfl))))))) i

end Xylosip

namespace Xylosip

/-! Inversion lemmas for the combinators. -/

theorem tag_ok_inv {s i r : Input} {v : Input} (h : tag s i = .ok r v) :
    v = s ∧ i = s ++ r := by
  simp only [tag] at h
  by_cases hp : s.isPrefixOf i
  · simp only [hp, if_true] at h
    cases h
    obtain ⟨t, ht⟩ := List.isPrefixOf_iff_prefix.mp hp
    subst ht
    simp
  · simp only [hp, Bool.false_eq_true, if_false] at h
    cases h

theorem pair_ok_inv {p : Parser α} {q : Parser β} {i r : Input} {v : α × β}
    (h : pair p q i = .ok r v) : ∃ m, p i = .ok m v.1 ∧ q m = .ok r v.2 := by
  simp only [pair] at h
  cases hp : p i with
  | ok m a =>
    simp only [hp] at h
    cases hq : q m with
    | ok r2 b => simp only [hq] at h; cases h; exact ⟨m, rfl, hq⟩
    | err k => simp only [hq] at h; cases h
    | fail k => simp only [hq] at h; cases h
  | err k => simp only [hp] at h; cases h
  | fail k => simp only [hp] at h; cases h

theorem opt_ok_inv {p : Parser α} {i r : Input} {v : Option α}
    (h : opt p i = .ok r v) :
    (∃ w, v = some w ∧ p i = .ok r w) ∨ (v = none ∧ r = i) := by
  simp only [opt] at h
  cases hp : p i with
  | ok m a => simp only [hp] at h; cases h; exact Or.inl ⟨a, rfl, rfl⟩
  | err k => simp only [hp] at h; cases h; exact Or.inr ⟨rfl, rfl⟩
  | fail k => simp only [hp] at h; cases h

theorem alt2_ok_inv {p q : Parser α} {i r : Input} {v : α}
    (h : alt2 p q i = .ok r v) : p i = .ok r v ∨ q i = .ok r v := by
  simp only [alt2] at h
  cases hp : p i with
  | ok m a => simp only [hp] at h; cases h; exact Or.inl rfl
  | err k => simp only [hp] at h; exact Or.inr h
  | fail k => simp only [hp] at h; cases h

theorem take_consumed (pre r : Input) :
    (pre ++ r).take ((pre ++ r).length - r.length) = pre := by
  have : (pre ++ r).length - r.length = pre.length := by
    simp [List.length_append]
  rw [this]
  exact List.take_left pre r

theorem recognize_ok_inv {p : Parser α} {i r v : Input}
    (h : recognize p i = .ok r v) :
    ∃ w, p i = .ok r w ∧ v = i.take (i.length - r.length) := by
  simp only [recognize] at h
  cases hp : p i with
  | ok m a => simp only [hp] at h; cases h; exact ⟨a, rfl, rfl⟩
  | err k => simp only [hp] at h; cases h
  | fail k => simp only [hp] at h; cases h

theorem take_while_m_n_ok_inv {m n : Nat} {f : Nat → Bool} {i r v : Input}
    (h : take_while_m_n m n f i = .ok r v) :
    v = (i.takeWhile f).take n ∧ ¬ v.length < m ∧ i = v ++ r ∧
      (∀ b ∈ v, f b = true) := by
  simp only [take_while_m_n] at h
  by_cases hl : ((i.takeWhile f).take n).length < m
  · simp only [hl, if_true] at h
    cases h
  · simp only [hl, if_false] at h
    cases h
    have hpre : (i.takeWhile f).take n <+: i :=
      ⟨(i.takeWhile f).drop n ++ i.dropWhile f, by
        rw [← List.append_assoc, List.take_append_drop,
          List.takeWhile_append_dropWhile]⟩
    refine ⟨rfl, hl, ?_, ?_⟩
    · exact (List.prefix_iff_eq_append.mp hpre).symm
    · intro b hb
      exact List.mem_takeWhile_imp ((List.take_subset _ _) hb)

/-- `many_m_n 0 n (tag [48])` consumes exactly a run of at most `n`
zero bytes. -/
theorem manyMN_tag48 : ∀ (n : Nat) (i : Input), ∃ k, k ≤ n ∧
    i.take k = List.replicate k 48 ∧
    manyMNF (tag [48]) 0 n i = .ok (i.drop k) (List.replicate k [48]) := by
  intro n
  induction n with
  | zero => intro i; exact ⟨0, le_refl 0, by simp, by simp [manyMNF]⟩
  | succ n ih =>
    intro i
    cases i with
    | nil =>
      refine ⟨0, Nat.zero_le _, by simp, ?_⟩
      simp [manyMNF, tag, List.isPrefixOf]
    | cons b t =>
      by_cases hb : b = 48
      · subst hb
        obtain ⟨k, hk, htake, heq⟩ := ih t
        refine ⟨k + 1, by omega, ?_, ?_⟩
        · simp [List.take_succ_cons, htake, List.replicate_succ]
        · have htag : tag [48] (48 :: t) = .ok t [48] := by
            simp [tag, List.isPrefixOf]
          simp only [manyMNF, htag]
          have hlt : t.length < (48 :: t).length := by simp
          simp only [hlt, if_true, heq, List.drop_succ_cons, List.replicate_succ]
      · refine ⟨0, Nat.zero_le _, by simp, ?_⟩
        have htag : tag [48] (b :: t) = .err .nomError := by
          have : ([48] : Input).isPrefixOf (b :: t) = false := by
            simp [List.isPrefixOf]
            omega
          simp [tag, this]
        simp [manyMNF, htag]

theorem fracMilli_digits_le {ds : Input} (h : ∀ b ∈ ds, nom_is_digit b = true) :
    fracMilli ds ≤ 999 := by
  have hb : ∀ b ∈ ds, 48 ≤ b ∧ b ≤ 57 := by
    intro b hbm
    have := h b hbm
    simp only [nom_is_digit, Bool.and_eq_true, decide_eq_true_eq] at this
    exact this
  match ds with
  | [] => simp [fracMilli]
  | [d] =>
    have := hb d (by simp)
    simp only [fracMilli]
    omega
  | [d, e] =>
    have h1 := hb d (by simp)
    have h2 := hb e (by simp)
    simp only [fracMilli]
    omega
  | d :: e :: f :: t =>
    have h1 := hb d (by simp)
    have h2 := hb e (by simp)
    have h3 := hb f (by simp)
    simp only [fracMilli]
    omega

theorem fracMilli_zeros {k : Nat} (h : k ≤ 3) :
    fracMilli (List.replicate k 48) = 0 := by
  interval_cases k <;> decide

end Xylosip

namespace Xylosip

/-- C8: every span accepted by the `qvalue` parser is the consumed
prefix of the input and, purely by the shape of the grammar (no
post-hoc numeric comparison in the parser), is either `"0"` optionally
followed by a dot and 0–3 digits, or `"1"` optionally followed by a dot
and 0–3 zeros; its denoted value, in thousandths, is at most 1000,
i.e. every accepted qvalue lies in [0.000, 1.000]. -/
theorem c8_qvalue_bounded_by_grammar (i r v : Input)
    (h : qvalue i = .ok r v) :
    i = v ++ r ∧
    (v = [48] ∨
      (∃ ds, v = 48 :: 46 :: ds ∧ ds.length ≤ 3 ∧
        ∀ b ∈ ds, nom_is_digit b = true) ∨
      v = [49] ∨
      (∃ k, k ≤ 3 ∧ v = 49 :: 46 :: List.replicate k 48)) ∧
    qvalueMilli v ≤ 1000 := by
  unfold qvalue at h
  rcases alt2_ok_inv h with h0 | h1
  · obtain ⟨w, hp, hv⟩ := recognize_ok_inv h0
    obtain ⟨m, htag, hopt⟩ := pair_ok_inv hp
    obtain ⟨hw1, him⟩ := tag_ok_inv htag
    rcases opt_ok_inv hopt with ⟨w2, hw2, hpair⟩ | ⟨hw2n, hrm⟩
    · obtain ⟨m2, htag2, htw⟩ := pair_ok_inv hpair
      obtain ⟨hw21, hm2⟩ := tag_ok_inv htag2
      obtain ⟨hds, hlen0, hm2r, hdig⟩ := take_while_m_n_ok_inv htw
      subst him hm2 hm2r
      have hI : ([48] ++ ([46] ++ (w2.2 ++ r)) : Input)
          = (48 :: 46 :: w2.2) ++ r := by simp
      rw [hI, take_consumed] at hv
      subst hv
      refine ⟨by simp, Or.inr (Or.inl ⟨w2.2, rfl, ?_, hdig⟩), ?_⟩
      · rw [hds]
        apply List.length_take_le
      · have hle := fracMilli_digits_le hdig
        simp only [qvalueMilli, if_true, eq_self_iff_true]
        omega
    · subst him hrm
      rw [take_consumed] at hv
      subst hv
      exact ⟨rfl, Or.inl rfl, by decide⟩
  · obtain ⟨w, hp, hv⟩ := recognize_ok_inv h1
    obtain ⟨m, htag, hopt⟩ := pair_ok_inv hp
    obtain ⟨hw1, him⟩ := tag_ok_inv htag
    rcases opt_ok_inv hopt with ⟨w2, hw2, hpair⟩ | ⟨hw2n, hrm⟩
    · obtain ⟨m2, htag2, hmn⟩ := pair_ok_inv hpair
      obtain ⟨hw21, hm2⟩ := tag_ok_inv htag2
      unfold many_m_n at hmn
      obtain ⟨k, hk, htake, heq⟩ := manyMN_tag48 3 m2
      rw [heq] at hmn
      injection hmn with hr hw
      subst hr
      have hsplit : m2 = List.replicate k 48 ++ m2.drop k :=
        (List.take_append_drop k m2).symm.trans (by rw [htake])
      have hI : i = (49 :: 46 :: List.replicate k 48) ++ m2.drop k := by
        rw [him, hm2]
        conv_lhs => rw [hsplit]
        simp
      rw [hI, take_consumed] at hv
      subst hv
      refine ⟨hI, Or.inr (Or.inr (Or.inr ⟨k, hk, rfl⟩)), ?_⟩
      have hz := fracMilli_zeros hk
      simp only [qvalueMilli, if_true, eq_self_iff_true]
      omega
    · subst him hrm
      rw [take_consumed] at hv
      subst hv
      exact ⟨rfl, Or.inr (Or.inr (Or.inl rfl)), by decide⟩

/-- Witness for C8 at the concrete input `0.8`: its thousandths value
is within the bound. -/
theorem c8_witness : qvalueMilli [48, 46, 56] ≤ 1000 :=
  (c8_qvalue_bounded_by_grammar [48, 46, 56] [] [48, 46, 56] (by decide)).2.2

end Xylosip

namespace Xylosip

theorem take_sub_dropWhile (f : Nat → Bool) (i : Input) :
    i.take (i.length - (i.dropWhile f).length) = i.takeWhile f := by
  obtain ⟨tW, dW, htW, hdW, hsplit⟩ :
      ∃ tW dW, i.takeWhile f = tW ∧ i.dropWhile f = dW ∧ tW ++ dW = i :=
    ⟨_, _, rfl, rfl, List.takeWhile_append_dropWhile f i⟩
  rw [htW, hdW, ← hsplit]
  exact take_consumed tW dW

theorem anh_eq (i : Input) : alphanumeric_hyphen i =
    match i with
    | [] => .err .nomError
    | b :: t =>
      if is_alphanumeric_hyphen b then .ok t [b] else .err .nomError := by
  cases i with
  | nil => rfl
  | cons b t =>
    by_cases hb : is_alphanumeric_hyphen b
    · simp [alphanumeric_hyphen, take_while_m_n, hb]
    · simp [alphanumeric_hyphen, take_while_m_n, hb]

theorem many0F_anh : ∀ (fuel : Nat) (i : Input), i.length < fuel →
    many0F alphanumeric_hyphen fuel i =
      .ok (i.dropWhile is_alphanumeric_hyphen)
          ((i.takeWhile is_alphanumeric_hyphen).map (fun b => [b])) := by
  intro fuel
  induction fuel with
  | zero => intro i h; omega
  | succ fuel ih =>
    intro i h
    cases i with
    | nil => simp [many0F, anh_eq]
    | cons b t =>
      by_cases hb : is_alphanumeric_hyphen b
      · have hstep : alphanumeric_hyphen (b :: t) = .ok t [b] := by
          rw [anh_eq]; simp [hb]
        have hlt : t.length < (b :: t).length := by simp
        have hrec := ih t (by simp at h ⊢; omega)
        simp only [many0F, hstep, hlt, if_true, hrec, List.takeWhile_cons, hb,
          List.dropWhile_cons, List.map]
      · have hstep : alphanumeric_hyphen (b :: t) = .err .nomError := by
          rw [anh_eq]; simp [hb]
        simp [many0F, hstep, List.takeWhile_cons, List.dropWhile_cons, hb]

theorem recognize_many1_anh (i : Input) :
    recognize (many1 alphanumeric_hyphen) i =
      if i.takeWhile is_alphanumeric_hyphen = []
      then .err .nomError
      else .ok (i.dropWhile is_alphanumeric_hyphen)
              (i.takeWhile is_alphanumeric_hyphen) := by
  cases i with
  | nil => rfl
  | cons b t =>
    by_cases hb : is_alphanumeric_hyphen b
    · have hstep : alphanumeric_hyphen (b :: t) = .ok t [b] := by
        rw [anh_eq]; simp [hb]
      have hrec := many0F_anh (t.length + 1) t (by omega)
      have htw : (b :: t).takeWhile is_alphanumeric_hyphen
          = b :: t.takeWhile is_alphanumeric_hyphen := by
        simp [List.takeWhile_cons, hb]
      have hdw : (b :: t).dropWhile is_alphanumeric_hyphen
          = t.dropWhile is_alphanumeric_hyphen := by
        simp [List.dropWhile_cons, hb]
      have hne : ¬ ((b :: t).takeWhile is_alphanumeric_hyphen = []) := by
        rw [htw]; simp
      have hmany1 : many1 alphanumeric_hyphen (b :: t) =
          .ok ((b :: t).dropWhile is_alphanumeric_hyphen)
              (((b :: t).takeWhile is_alphanumeric_hyphen).map (fun c => [c])) := by
        simp only [many1, hstep, many0, hrec, htw, hdw, List.map]
      simp only [recognize, hmany1, take_sub_dropWhile, if_neg hne]
    · have htw : (b :: t).takeWhile is_alphanumeric_hyphen = [] := by
        simp [List.takeWhile_cons, hb]
      have hstep : alphanumeric_hyphen (b :: t) = .err .nomError := by
        rw [anh_eq]; simp [hb]
      simp [recognize, many1, hstep, htw]

theorem domain_label_eq (i : Input) : domain_label i =
    (if i.takeWhile is_alphanumeric_hyphen = []
     then .err .nomError
     else if (i.takeWhile is_alphanumeric_hyphen).head? = some 45 ∨
             (i.takeWhile is_alphanumeric_hyphen).getLast? = some 45
       then .err (.invalidDomainPart (i.takeWhile is_alphanumeric_hyphen))
       else .ok (i.dropWhile is_alphanumeric_hyphen)
               (i.takeWhile is_alphanumeric_hyphen)) := by
  unfold domain_label
  rw [recognize_many1_anh]
  by_cases htW : i.takeWhile is_alphanumeric_hyphen = []
  · simp [htW]
  · obtain ⟨hd, tl, hcons⟩ := List.exists_cons_of_ne_nil htW
    have hheadB : (i.takeWhile is_alphanumeric_hyphen).head? = some hd := by
      rw [hcons]; rfl
    have hlastB : ∃ l, (i.takeWhile is_alphanumeric_hyphen).getLast? = some l := by
      rw [hcons]
      exact ⟨(hd :: tl).getLast (by simp), List.getLast?_eq_getLast _ (by simp)⟩
    obtain ⟨lastB, hlastB⟩ := hlastB
    rw [if_neg htW, if_neg htW]
    simp only [hheadB, hlastB, Option.some.injEq]

theorem top_label_eq (i : Input) : top_label i =
    (if i.takeWhile is_alphanumeric_hyphen = []
     then .err .nomError
     else if (i.takeWhile is_alphanumeric_hyphen).getLast? = some 45 ∨
             ¬ (∃ b, (i.takeWhile is_alphanumeric_hyphen).head? = some b ∧
                  is_ascii_alphabetic b = true)
       then .err (.invalidDomainPart (i.takeWhile is_alphanumeric_hyphen))
       else .ok (i.dropWhile is_alphanumeric_hyphen)
               (i.takeWhile is_alphanumeric_hyphen)) := by
  unfold top_label
  rw [recognize_many1_anh]
  by_cases htW : i.takeWhile is_alphanumeric_hyphen = []
  · simp [htW]
  · obtain ⟨hd, tl, hcons⟩ := List.exists_cons_of_ne_nil htW
    have hheadB : (i.takeWhile is_alphanumeric_hyphen).head? = some hd := by
      rw [hcons]; rfl
    have hlastB : ∃ l, (i.takeWhile is_alphanumeric_hyphen).getLast? = some l := by
      rw [hcons]
      exact ⟨(hd :: tl).getLast (by simp), List.getLast?_eq_getLast _ (by simp)⟩
    obtain ⟨lastB, hlastB⟩ := hlastB
    rw [if_neg htW, if_neg htW]
    simp only [hheadB, hlastB, Option.some.injEq, exists_eq_left, exists_eq_left']

theorem domain_label_ok_inv {i m lab : Input} (h : domain_label i = .ok m lab) :
    lab = i.takeWhile is_alphanumeric_hyphen ∧
      lab ≠ [] ∧ i = lab ++ m ∧ validDomainLabel lab = true := by
  rw [domain_label_eq] at h
  by_cases htW : i.takeWhile is_alphanumeric_hyphen = []
  · rw [if_pos htW] at h; cases h
  · rw [if_neg htW] at h
    by_cases hc : (i.takeWhile is_alphanumeric_hyphen).head? = some 45 ∨
        (i.takeWhile is_alphanumeric_hyphen).getLast? = some 45
    · rw [if_pos hc] at h; cases h
    · rw [if_neg hc] at h
      injection h with h1 h2
      subst h1
      subst h2
      push_neg at hc
      have hall : (i.takeWhile is_alphanumeric_hyphen).all is_alphanumeric_hyphen = true := by
        rw [List.all_eq_true]
        intro b hb
        exact List.mem_takeWhile_imp hb
      refine ⟨rfl, htW, (List.takeWhile_append_dropWhile _ _).symm, ?_⟩
      simp [validDomainLabel, htW, hall, hc.1, hc.2, List.isEmpty_iff]

theorem top_label_ok_inv {i m lab : Input} (h : top_label i = .ok m lab) :
    lab = i.takeWhile is_alphanumeric_hyphen ∧
      lab ≠ [] ∧ i = lab ++ m ∧ validTopLabel lab = true := by
  rw [top_label_eq] at h
  by_cases htW : i.takeWhile is_alphanumeric_hyphen = []
  · rw [if_pos htW] at h; cases h
  · rw [if_neg htW] at h
    by_cases hc : (i.takeWhile is_alphanumeric_hyphen).getLast? = some 45 ∨
        ¬ (∃ b, (i.takeWhile is_alphanumeric_hyphen).head? = some b ∧
            is_ascii_alphabetic b = true)
    · rw [if_pos hc] at h; cases h
    · rw [if_neg hc] at h
      injection h with h1 h2
      subst h1
      subst h2
      push_neg at hc
      obtain ⟨hlast, hd, hhd, halpha⟩ := hc
      have hall : (i.takeWhile is_alphanumeric_hyphen).all is_alphanumeric_hyphen = true := by
        rw [List.all_eq_true]
        intro b hb
        exact List.mem_takeWhile_imp hb
      refine ⟨rfl, htW, (List.takeWhile_append_dropWhile _ _).symm, ?_⟩
      simp [validTopLabel, htW, hall, hlast, hhd, halpha, List.isEmpty_iff]

theorem anh_no_dot {lab : Input} (h : lab.all is_alphanumeric_hyphen = true) :
    46 ∉ lab := by
  intro hm
  have h2 := (List.all_eq_true.mp h) 46 hm
  exact absurd h2 (by decide)

theorem alpha_ne_45 {b : Nat} (h : is_ascii_alphabetic b = true) : b ≠ 45 := by
  intro he
  subst he
  exact absurd h (by decide)

theorem validDomainLabel_no_dot {lab : Input} (h : validDomainLabel lab = true) :
    46 ∉ lab := by
  simp only [validDomainLabel, Bool.and_eq_true] at h
  exact anh_no_dot h.1.1.2

theorem validTopLabel_parts {lab : Input} (h : validTopLabel lab = true) :
    lab ≠ [] ∧ lab.all is_alphanumeric_hyphen = true ∧
      ¬ lab.getLast? = some 45 ∧
      ∃ b, lab.head? = some b ∧ is_ascii_alphabetic b = true := by
  simp only [validTopLabel, Bool.and_eq_true] at h
  obtain ⟨⟨⟨hne, hall⟩, hhd⟩, hlast⟩ := h
  refine ⟨by simpa [List.isEmpty_iff] using hne, hall, by simpa using hlast, ?_⟩
  cases hh : lab.head? with
  | none => rw [hh] at hhd; cases hhd
  | some b => exact ⟨b, rfl, by rw [hh] at hhd; exact hhd⟩

theorem splitOnDot_cons (b : Nat) (r : Input) : splitOnDot (b :: r) =
    (if b = 46 then [] :: splitOnDot r
     else match splitOnDot r with
       | s :: ss => (b :: s) :: ss
       | [] => [[b]]) := rfl

theorem splitOnDot_ne_nil (i : Input) : splitOnDot i ≠ [] := by
  cases i with
  | nil => simp [splitOnDot]
  | cons b r =>
    simp only [splitOnDot]
    by_cases hb : b = 46
    · simp [hb]
    · rw [if_neg hb]
      cases h : splitOnDot r <;> simp

theorem splitOnDot_dotfree {lab : Input} (h : 46 ∉ lab) : splitOnDot lab = [lab] := by
  induction lab with
  | nil => rfl
  | cons b t ih =>
    have hb : ¬ b = 46 := fun e => h (by simp [e])
    have ht : splitOnDot t = [t] := ih (fun m => h (by simp [m]))
    simp [splitOnDot, hb, ht]

theorem splitOnDot_label_dot {lab rest : Input} (h : 46 ∉ lab) :
    splitOnDot (lab ++ 46 :: rest) = lab :: splitOnDot rest := by
  induction lab with
  | nil => simp [splitOnDot]
  | cons b t ih =>
    have hb : ¬ b = 46 := fun e => h (by simp [e])
    have ht := ih (fun m => h (by simp [m]))
    simp [splitOnDot, hb, ht]

theorem splitOnDot_dotJoin {labs : List Input} {rest : Input}
    (h : ∀ lab ∈ labs, 46 ∉ lab) :
    splitOnDot (dotJoin labs ++ rest) = labs ++ splitOnDot rest := by
  induction labs with
  | nil => simp [dotJoin]
  | cons l ls ih =>
    have hl : 46 ∉ l := h l (by simp)
    have hls := ih (fun lab hm => h lab (by simp [hm]))
    simp only [dotJoin, List.cons_append, List.append_assoc]
    rw [splitOnDot_label_dot hl, hls]

theorem many0F_dlabdot_inv : ∀ (fuel : Nat) (i r : Input) (vs : List (Input × Input)),
    many0F (pair domain_label (tag [46])) fuel i = .ok r vs →
    ∃ labs : List Input, i = dotJoin labs ++ r ∧
      ∀ lab ∈ labs, validDomainLabel lab = true := by
  intro fuel
  induction fuel with
  | zero => intro i r vs h; simp [many0F] at h
  | succ fuel ih =>
    intro i r vs h
    simp only [many0F] at h
    cases hp : pair domain_label (tag [46]) i with
    | ok m v =>
      simp only [hp] at h
      by_cases hlt : m.length < i.length
      · rw [if_pos hlt] at h
        cases hrec : many0F (pair domain_label (tag [46])) fuel m with
        | ok r2 vs2 =>
          rw [hrec] at h
          injection h with hr hvs
          subst hr
          obtain ⟨labs, hm, hlabs⟩ := ih m r2 vs2 hrec
          obtain ⟨m1, hdl, htag⟩ := pair_ok_inv hp
          obtain ⟨hlabtw, hlabne, hi, hvalid⟩ := domain_label_ok_inv hdl
          obtain ⟨hv2, hm1⟩ := tag_ok_inv htag
          refine ⟨v.1 :: labs, ?_, ?_⟩
          · rw [hi, hm1, hm]
            simp [dotJoin]
          · intro lab hmem
            rcases List.mem_cons.mp hmem with he | ht
            · rw [he]; exact hvalid
            · exact hlabs lab ht
        | err k => rw [hrec] at h; cases h
        | fail k => rw [hrec] at h; cases h
      · rw [if_neg hlt] at h; cases h
    | err k =>
      simp only [hp] at h
      injection h with hr hvs
      exact ⟨[], by simp [dotJoin, hr], by simp⟩
    | fail k => simp only [hp] at h; cases h

theorem many1_dlabdot_inv {i r : Input} {vs : List (Input × Input)}
    (h : many1 (pair domain_label (tag [46])) i = .ok r vs) :
    ∃ labs : List Input, labs ≠ [] ∧ i = dotJoin labs ++ r ∧
      ∀ lab ∈ labs, validDomainLabel lab = true := by
  simp only [many1] at h
  cases hp : pair domain_label (tag [46]) i with
  | ok m v =>
    simp only [hp] at h
    cases hrec : many0 (pair domain_label (tag [46])) m with
    | ok r2 vs2 =>
      rw [hrec] at h
      injection h with hr hvs
      subst hr
      simp only [many0] at hrec
      obtain ⟨labs, hm, hlabs⟩ := many0F_dlabdot_inv _ m r2 vs2 hrec
      obtain ⟨m1, hdl, htag⟩ := pair_ok_inv hp
      obtain ⟨hlabtw, hlabne, hi, hvalid⟩ := domain_label_ok_inv hdl
      obtain ⟨hv2, hm1⟩ := tag_ok_inv htag
      refine ⟨v.1 :: labs, by simp, ?_, ?_⟩
      · rw [hi, hm1, hm]
        simp [dotJoin]
      · intro lab hmem
        rcases List.mem_cons.mp hmem with he | ht
        · rw [he]; exact hvalid
        · exact hlabs lab ht
    | err k => rw [hrec] at h; cases h
    | fail k => rw [hrec] at h; cases h
  | err k => simp only [hp] at h; cases h
  | fail k => simp only [hp] at h; cases h

/-- The two alternatives inside `hostname`, characterized: the matched
span is dot-joined valid domain labels followed by a valid top label,
or (FQDN) a non-empty dot-terminated sequence of valid domain labels. -/
theorem hostname_alt_inv {i r hn : Input}
    (h : (alt2 (recognize (pair (many0 (pair domain_label (tag [46]))) top_label))
              (recognize (many1 (pair domain_label (tag [46]))))) i = .ok r hn) :
    i = hn ++ r ∧
    ∃ labs : List Input, (∀ lab ∈ labs, validDomainLabel lab = true) ∧
      ((∃ top, validTopLabel top = true ∧ hn = dotJoin labs ++ top) ∨
       (labs ≠ [] ∧ hn = dotJoin labs)) := by
  rcases alt2_ok_inv h with h1 | h2
  · obtain ⟨w, hp, hv⟩ := recognize_ok_inv h1
    obtain ⟨m, hmany, htop⟩ := pair_ok_inv hp
    simp only [many0] at hmany
    obtain ⟨labs, hi, hlabs⟩ := many0F_dlabdot_inv _ i m w.1 hmany
    obtain ⟨htoptw, htopne, hm, hvalid⟩ := top_label_ok_inv htop
    have hiI : i = (dotJoin labs ++ w.2) ++ r := by
      rw [hi, hm]; simp
    rw [hiI, take_consumed] at hv
    subst hv
    exact ⟨hiI, labs, hlabs, Or.inl ⟨w.2, hvalid, rfl⟩⟩
  · obtain ⟨w, hp, hv⟩ := recognize_ok_inv h2
    obtain ⟨labs, hne, hi, hlabs⟩ := many1_dlabdot_inv hp
    rw [hi, take_consumed] at hv
    subst hv
    exact ⟨hi, labs, hlabs, Or.inr ⟨hne, rfl⟩⟩

theorem splitOnDot_length_two {i : Input} (h : i.getLast? = some 46) :
    2 ≤ (splitOnDot i).length := by
  induction i with
  | nil => simp at h
  | cons b t ih =>
    cases t with
    | nil =>
      simp at h
      subst h
      simp [splitOnDot]
    | cons c u =>
      have hg : (c :: u).getLast? = some 46 := by
        rw [List.getLast?_cons_cons] at h
        exact h
      have ih2 := ih hg
      rw [splitOnDot_cons]
      by_cases hb : b = 46
      · rw [if_pos hb]
        have hne := splitOnDot_ne_nil (c :: u)
        have hlen : 1 ≤ (splitOnDot (c :: u)).length := by
          cases hs : splitOnDot (c :: u) with
          | nil => exact absurd hs hne
          | cons s ss => simp
        simp only [List.length_cons]
        omega
      · rw [if_neg hb]
        cases hs : splitOnDot (c :: u) with
        | nil => exact absurd hs (splitOnDot_ne_nil _)
        | cons s ss =>
          rw [hs] at ih2
          simp only [hs, List.length_cons] at ih2 ⊢
          omega

theorem takeWhile_all_eq {f : Nat → Bool} {l : Input}
    (h : ∀ b ∈ l, f b = true) : l.takeWhile f = l := by
  have := @takeWhile_append_all f l [] h
  simpa using this

theorem validDomainLabel_chunk {lab : Input} (h : validDomainLabel lab = true) :
    lab.all is_alphanumeric_hyphen = true ∧ hyphenFreeEnds lab = true := by
  simp only [validDomainLabel, Bool.and_eq_true] at h
  exact ⟨h.1.1.2, by simp [hyphenFreeEnds, h.1.2, h.2]⟩

theorem validTopLabel_chunk {lab : Input} (h : validTopLabel lab = true) :
    lab.all is_alphanumeric_hyphen = true ∧ hyphenFreeEnds lab = true := by
  obtain ⟨hne, hall, hlast, b, hhd, halpha⟩ := validTopLabel_parts h
  refine ⟨hall, ?_⟩
  have hb45 : b ≠ 45 := alpha_ne_45 halpha
  simp [hyphenFreeEnds, hhd, hb45, hlast]

theorem dotJoin_ne_nil {labs : List Input} (h : labs ≠ []) : dotJoin labs ≠ [] := by
  cases labs with
  | nil => exact absurd rfl h
  | cons l ls =>
    simp only [dotJoin]
    cases l <;> simp

theorem getLast?_append_right {l1 l2 : Input} (h : l2 ≠ []) :
    (l1 ++ l2).getLast? = l2.getLast? := by
  induction l1 with
  | nil => rfl
  | cons a t ih =>
    cases hE : t ++ l2 with
    | nil => exact absurd (List.append_eq_nil.mp hE).2 h
    | cons x xs =>
      rw [List.cons_append, hE, List.getLast?_cons_cons, ← hE, ih]

theorem dotJoin_getLast : ∀ {labs : List Input}, labs ≠ [] →
    (dotJoin labs).getLast? = some 46 := by
  intro labs
  induction labs with
  | nil => intro h; exact absurd rfl h
  | cons l ls ih =>
    intro _
    cases ls with
    | nil =>
      have h1 : dotJoin [l] = l ++ [46] := by simp [dotJoin]
      rw [h1, List.getLast?_concat]
    | cons l2 ls2 =>
      have hne : dotJoin (l2 :: ls2) ≠ [] := dotJoin_ne_nil (by simp)
      have ihv := ih (by simp)
      have h1 : dotJoin (l :: l2 :: ls2) = l ++ ([46] ++ dotJoin (l2 :: ls2)) := by
        simp [dotJoin]
      rw [h1, getLast?_append_right (by simp), getLast?_append_right hne, ihv]

theorem getLast?_mem_local {l : Input} {a : Nat} (h : l.getLast? = some a) :
    a ∈ l := by
  cases l with
  | nil => cases h
  | cons x xs =>
    rw [List.getLast?_eq_getLast _ (by simp)] at h
    injection h with h1
    rw [← h1]
    exact List.getLast_mem _

/-- Full soundness characterization of `hostname`: the matched span is
the consumed prefix, is non-empty, every dot-separated chunk of it is an
alphanumeric-or-hyphen run with no hyphen at either end, and if it ends
in a dot, its second-to-last chunk is a valid top label. -/
theorem hostname_ok_inv {i r hn : Input} (h : hostname i = .ok r hn) :
    i = hn ++ r ∧ hn ≠ [] ∧
    (∀ lab ∈ splitOnDot hn, lab.all is_alphanumeric_hyphen = true ∧
        hyphenFreeEnds lab = true) ∧
    (hn.getLast? = some 46 →
      ∃ top, (splitOnDot hn).get? ((splitOnDot hn).length - 2) = some top ∧
        validTopLabel top = true) := by
  unfold hostname at h
  cases halt : (alt2 (recognize (pair (many0 (pair domain_label (tag [46]))) top_label))
      (recognize (many1 (pair domain_label (tag [46]))))) i with
  | err k =>
    simp only [halt] at h
    cases h
  | fail k =>
    simp only [halt] at h
    cases h
  | ok r0 hn0 =>
    simp only [halt] at h
    obtain ⟨hiI, labs, hlabs, hbranch⟩ := hostname_alt_inv halt
    rcases hbranch with ⟨top, htopv, hhn0⟩ | ⟨hlne, hhn0⟩
    · obtain ⟨htne, htall, htlast, b, hhd, halpha⟩ := validTopLabel_parts htopv
      have hnodot : ∀ lab ∈ labs, 46 ∉ lab := fun lab hm =>
        validDomainLabel_no_dot (hlabs lab hm)
      have hsplit : splitOnDot hn0 = labs ++ [top] := by
        rw [hhn0, splitOnDot_dotJoin hnodot,
          splitOnDot_dotfree (anh_no_dot htall)]
      have hlast46 : hn0.getLast? ≠ some 46 := by
        rw [hhn0, getLast?_append_right htne]
        intro he
        exact anh_no_dot htall (getLast?_mem_local he)
      cases hlastc : hn0.getLast? with
      | none =>
        have hne : hn0 ≠ [] := by
          rw [hhn0]
          intro he
          exact htne (List.append_eq_nil.mp he).2
        rw [List.getLast?_eq_getLast _ hne] at hlastc
        cases hlastc
      | some lastB =>
        simp only [hlastc] at h
        have hne46 : lastB ≠ 46 := by
          intro he
          subst he
          exact hlast46 hlastc
        rw [if_neg hne46] at h
        injection h with h1 h2
        subst h1
        subst h2
        refine ⟨hiI, ?_, ?_, ?_⟩
        · rw [hhn0]
          intro he
          exact htne (List.append_eq_nil.mp he).2
        · rw [hsplit]
          intro lab hm
          rcases List.mem_append.mp hm with hm | hm
          · exact validDomainLabel_chunk (hlabs lab hm)
          · simp only [List.mem_singleton] at hm
            subst hm
            exact validTopLabel_chunk htopv
        · intro hlast
          exact absurd hlast hlast46
    · have hnodot : ∀ lab ∈ labs, 46 ∉ lab := fun lab hm =>
        validDomainLabel_no_dot (hlabs lab hm)
      have hsplit : splitOnDot hn0 = labs ++ [[]] := by
        rw [hhn0]
        have he : dotJoin labs = dotJoin labs ++ [] := by simp
        rw [he, splitOnDot_dotJoin hnodot]
        rfl
      have hlastc : hn0.getLast? = some 46 := by
        rw [hhn0]
        exact dotJoin_getLast hlne
      simp only [hlastc, eq_self_iff_true, if_true] at h
      have hlen1 : 1 ≤ labs.length := List.length_pos.mpr hlne
      have hlen2 : ¬ (splitOnDot hn0).length < 2 := by
        have := splitOnDot_length_two hlastc
        omega
      rw [if_neg hlen2] at h
      have hidx : (splitOnDot hn0).get? ((splitOnDot hn0).length - 2)
          = labs.get? (labs.length - 1) := by
        rw [hsplit]
        simp only [List.length_append, List.length_cons, List.length_nil]
        have he : labs.length + (0 + 1) - 2 = labs.length - 1 := by omega
        rw [he, List.get?_append (by omega)]
      obtain ⟨lastLab, hlastLab⟩ : ∃ x, labs.get? (labs.length - 1) = some x := by
        cases hx : labs.get? (labs.length - 1) with
        | none =>
          have := List.get?_eq_none.mp hx
          omega
        | some x => exact ⟨x, rfl⟩
      rw [hidx, hlastLab] at h
      have hmemLast : lastLab ∈ labs := List.get?_mem hlastLab
      cases htl : top_label lastLab with
      | ok rem lab2 =>
        simp only [htl] at h
        injection h with h1 h2
        subst h1
        subst h2
        obtain ⟨hlab2tw, hlab2ne, hlab2eq, hlab2v⟩ := top_label_ok_inv htl
        have hallLast : lastLab.all is_alphanumeric_hyphen = true :=
          (validDomainLabel_chunk (hlabs _ hmemLast)).1
        have hlab2full : lab2 = lastLab := by
          rw [hlab2tw, takeWhile_all_eq (List.all_eq_true.mp hallLast)]
        refine ⟨hiI, ?_, ?_, ?_⟩
        · rw [hhn0]
          exact dotJoin_ne_nil hlne
        · rw [hsplit]
          intro lab hm
          rcases List.mem_append.mp hm with hm | hm
          · exact validDomainLabel_chunk (hlabs lab hm)
          · simp only [List.mem_singleton] at hm
            subst hm
            exact ⟨rfl, rfl⟩
        · intro _
          refine ⟨lastLab, by rw [hidx, hlastLab], ?_⟩
          rw [← hlab2full]
          exact hlab2v
      | err k =>
        simp only [htl] at h
        cases h
      | fail k =>
        simp only [htl] at h
        cases h

theorem tag_no_fail (s i : Input) (k : ErrKind) : tag s i ≠ .fail k := by
  intro h
  simp only [tag] at h
  by_cases hp : s.isPrefixOf i = true
  · rw [if_pos hp] at h; cases h
  · rw [if_neg hp] at h; cases h

theorem domain_label_no_fail (i : Input) (k : ErrKind) :
    domain_label i ≠ .fail k := by
  intro h
  rw [domain_label_eq] at h
  by_cases htW : i.takeWhile is_alphanumeric_hyphen = []
  · rw [if_pos htW] at h; cases h
  · rw [if_neg htW] at h
    by_cases hc : (i.takeWhile is_alphanumeric_hyphen).head? = some 45 ∨
        (i.takeWhile is_alphanumeric_hyphen).getLast? = some 45
    · rw [if_pos hc] at h; cases h
    · rw [if_neg hc] at h; cases h

theorem top_label_no_fail (i : Input) (k : ErrKind) :
    top_label i ≠ .fail k := by
  intro h
  rw [top_label_eq] at h
  by_cases htW : i.takeWhile is_alphanumeric_hyphen = []
  · rw [if_pos htW] at h; cases h
  · rw [if_neg htW] at h
    by_cases hc : (i.takeWhile is_alphanumeric_hyphen).getLast? = some 45 ∨
        ¬ (∃ b, (i.takeWhile is_alphanumeric_hyphen).head? = some b ∧
            is_ascii_alphabetic b = true)
    · rw [if_pos hc] at h; cases h
    · rw [if_neg hc] at h; cases h

theorem pair_no_fail {p : Parser α} {q : Parser β}
    (hp : ∀ i k, p i ≠ .fail k) (hq : ∀ i k, q i ≠ .fail k) :
    ∀ i k, pair p q i ≠ .fail k := by
  intro i k h
  simp only [pair] at h
  cases hpi : p i with
  | ok m v =>
    simp only [hpi] at h
    cases hqi : q m with
    | ok r2 w => simp only [hqi] at h; cases h
    | err k2 => simp only [hqi] at h; cases h
    | fail k2 => exact hq m k2 hqi
  | err k2 => simp only [hpi] at h; cases h
  | fail k2 => exact hp i k2 hpi

theorem recognize_no_fail {p : Parser α} (hp : ∀ i k, p i ≠ .fail k) :
    ∀ i k, recognize p i ≠ .fail k := by
  intro i k h
  simp only [recognize] at h
  cases hpi : p i with
  | ok m v => simp only [hpi] at h; cases h
  | err k2 => simp only [hpi] at h; cases h
  | fail k2 => exact hp i k2 hpi

theorem alt2_no_fail {p q : Parser α}
    (hp : ∀ i k, p i ≠ .fail k) (hq : ∀ i k, q i ≠ .fail k) :
    ∀ i k, alt2 p q i ≠ .fail k := by
  intro i k h
  simp only [alt2] at h
  cases hpi : p i with
  | ok m v => simp only [hpi] at h; cases h
  | err k2 => simp only [hpi] at h; exact hq i k h
  | fail k2 => exact hp i k2 hpi

theorem many0F_no_fail {p : Parser α} (hp : ∀ i k, p i ≠ .fail k) :
    ∀ (fuel : Nat) (i : Input) (k : ErrKind), many0F p fuel i ≠ .fail k := by
  intro fuel
  induction fuel with
  | zero => intro i k h; simp [many0F] at h
  | succ fuel ih =>
    intro i k h
    simp only [many0F] at h
    cases hpi : p i with
    | ok m v =>
      simp only [hpi] at h
      by_cases hlt : m.length < i.length
      · rw [if_pos hlt] at h
        cases hrec : many0F p fuel m with
        | ok r2 vs => simp only [hrec] at h; cases h
        | err k2 => simp only [hrec] at h; cases h
        | fail k2 => exact ih m k2 hrec
      · rw [if_neg hlt] at h; cases h
    | err k2 => simp only [hpi] at h; cases h
    | fail k2 => exact hp i k2 hpi

theorem many1_no_fail {p : Parser α} (hp : ∀ i k, p i ≠ .fail k) :
    ∀ (i : Input) (k : ErrKind), many1 p i ≠ .fail k := by
  intro i k h
  simp only [many1] at h
  cases hpi : p i with
  | ok m v =>
    simp only [hpi] at h
    cases hrec : many0 p m with
    | ok r2 vs => simp only [hrec] at h; cases h
    | err k2 => simp only [hrec] at h; cases h
    | fail k2 =>
      simp only [many0] at hrec
      exact many0F_no_fail hp _ m k2 hrec
  | err k2 => simp only [hpi] at h; cases h
  | fail k2 => exact hp i k2 hpi

theorem dlabdot_no_fail : ∀ (i : Input) (k : ErrKind),
    pair domain_label (tag [46]) i ≠ .fail k :=
  pair_no_fail domain_label_no_fail (tag_no_fail [46])

theorem hostname_alt_no_fail : ∀ (i : Input) (k : ErrKind),
    alt2 (recognize (pair (many0 (pair domain_label (tag [46]))) top_label))
        (recognize (many1 (pair domain_label (tag [46])))) i ≠ .fail k := by
  apply alt2_no_fail
  · apply recognize_no_fail
    apply pair_no_fail
    · intro i k h
      simp only [many0] at h
      exact many0F_no_fail dlabdot_no_fail _ i k h
    · exact top_label_no_fail
  · apply recognize_no_fail
    exact many1_no_fail dlabdot_no_fail

theorem get?_some_of_lt {l : List Input} {n : Nat} (h : n < l.length) :
    ∃ x, l.get? n = some x := by
  cases hx : l.get? n with
  | none =>
    have := List.get?_eq_none.mp hx
    omega
  | some x => exact ⟨x, rfl⟩

theorem hostname_no_fail (i : Input) (k : ErrKind) : hostname i ≠ .fail k := by
  intro h
  unfold hostname at h
  cases halt : (alt2 (recognize (pair (many0 (pair domain_label (tag [46]))) top_label))
      (recognize (many1 (pair domain_label (tag [46]))))) i with
  | err k2 => simp only [halt] at h; cases h
  | fail k2 => exact hostname_alt_no_fail i k2 halt
  | ok r0 hn0 =>
    simp only [halt] at h
    obtain ⟨hiI, labs, hlabs, hbranch⟩ := hostname_alt_inv halt
    have hne : hn0 ≠ [] := by
      rcases hbranch with ⟨top, htopv, hhn0⟩ | ⟨hlne, hhn0⟩
      · obtain ⟨htne, -, -, -, -, -⟩ := validTopLabel_parts htopv
        rw [hhn0]
        intro he
        exact htne (List.append_eq_nil.mp he).2
      · rw [hhn0]
        exact dotJoin_ne_nil hlne
    cases hlastc : hn0.getLast? with
    | none =>
      rw [List.getLast?_eq_getLast _ hne] at hlastc
      cases hlastc
    | some lastB =>
      simp only [hlastc] at h
      by_cases h46 : lastB = 46
      · subst h46
        rw [if_pos rfl] at h
        have hlen2 : ¬ (splitOnDot hn0).length < 2 := by
          have := splitOnDot_length_two hlastc
          omega
        rw [if_neg hlen2] at h
        obtain ⟨top, htop⟩ := get?_some_of_lt
          (show (splitOnDot hn0).length - 2 < (splitOnDot hn0).length by omega)
        rw [htop] at h
        cases htl : top_label top with
        | ok rem lab2 => simp only [htl] at h; cases h
        | err k2 => simp only [htl] at h; cases h
        | fail k2 => exact top_label_no_fail top k2 htl
      · rw [if_neg h46] at h
        cases h

theorem validDomainLabel_parts {lab : Input} (h : validDomainLabel lab = true) :
    lab ≠ [] ∧ lab.all is_alphanumeric_hyphen = true ∧
      ¬ lab.head? = some 45 ∧ ¬ lab.getLast? = some 45 := by
  simp only [validDomainLabel, Bool.and_eq_true] at h
  obtain ⟨⟨⟨hne, hall⟩, hhd⟩, hlast⟩ := h
  exact ⟨by simpa [List.isEmpty_iff] using hne, hall,
    by simpa using hhd, by simpa using hlast⟩

theorem dropWhile_all_eq {f : Nat → Bool} {l : Input}
    (h : ∀ b ∈ l, f b = true) : l.dropWhile f = [] := by
  have h1 := List.takeWhile_append_dropWhile f l
  rw [takeWhile_all_eq h] at h1
  have h2 := congrArg List.length h1
  simp only [List.length_append] at h2
  have h3 : (l.dropWhile f).length = 0 := by omega
  exact List.eq_nil_of_length_eq_zero h3

theorem domain_label_pre {lab X : Input} (hv : validDomainLabel lab = true) :
    domain_label (lab ++ 46 :: X) = .ok (46 :: X) lab := by
  obtain ⟨hne, hall, hhd, hlast⟩ := validDomainLabel_parts hv
  have h46 : is_alphanumeric_hyphen 46 = false := by decide
  have htw : (lab ++ 46 :: X).takeWhile is_alphanumeric_hyphen = lab := by
    rw [takeWhile_append_all _ (List.all_eq_true.mp hall)]
    simp [List.takeWhile_cons, h46]
  have hdw : (lab ++ 46 :: X).dropWhile is_alphanumeric_hyphen = 46 :: X := by
    rw [dropWhile_append_all _ (List.all_eq_true.mp hall)]
    simp [List.dropWhile_cons, h46]
  rw [domain_label_eq, htw, hdw, if_neg hne,
    if_neg (by rintro (hx | hx); exacts [hhd hx, hlast hx])]

theorem top_label_self {top : Input} (hv : validTopLabel top = true) :
    top_label top = .ok [] top := by
  obtain ⟨hne, hall, hlast, b, hhd, halpha⟩ := validTopLabel_parts hv
  have htw : top.takeWhile is_alphanumeric_hyphen = top :=
    takeWhile_all_eq (List.all_eq_true.mp hall)
  have hdw : top.dropWhile is_alphanumeric_hyphen = [] :=
    dropWhile_all_eq (List.all_eq_true.mp hall)
  rw [top_label_eq, htw, hdw, if_neg hne, if_neg ?hc]
  case hc =>
    rintro (hx | hx)
    · exact hlast hx
    · exact hx ⟨b, hhd, halpha⟩

theorem dlabdot_stops {rest : Input} (h46 : 46 ∉ rest) :
    ∃ k, pair domain_label (tag [46]) rest = .err k := by
  by_cases htW : rest.takeWhile is_alphanumeric_hyphen = []
  · refine ⟨.nomError, ?_⟩
    have hdl : domain_label rest = .err .nomError := by
      rw [domain_label_eq, if_pos htW]
    simp only [pair, hdl]
  · by_cases hc : (rest.takeWhile is_alphanumeric_hyphen).head? = some 45 ∨
        (rest.takeWhile is_alphanumeric_hyphen).getLast? = some 45
    · refine ⟨.invalidDomainPart (rest.takeWhile is_alphanumeric_hyphen), ?_⟩
      have hdl : domain_label rest
          = .err (.invalidDomainPart (rest.takeWhile is_alphanumeric_hyphen)) := by
        rw [domain_label_eq, if_neg htW, if_pos hc]
      simp only [pair, hdl]
    · refine ⟨.nomError, ?_⟩
      have hdl : domain_label rest = .ok (rest.dropWhile is_alphanumeric_hyphen)
          (rest.takeWhile is_alphanumeric_hyphen) := by
        rw [domain_label_eq, if_neg htW, if_neg hc]
      have htag : tag [46] (rest.dropWhile is_alphanumeric_hyphen)
          = .err .nomError := by
        cases hdw : rest.dropWhile is_alphanumeric_hyphen with
        | nil => simp [tag, List.isPrefixOf]
        | cons x xs =>
          have hx : x ∈ rest := by
            have hx0 : x ∈ rest.dropWhile is_alphanumeric_hyphen := by
              rw [hdw]; simp
            exact (List.dropWhile_sublist _).subset hx0
          have hx46 : ¬ (46 = x) := fun he => h46 (he ▸ hx)
          simp [tag, List.isPrefixOf, hx46]
      simp only [pair, hdl, htag]

theorem many0F_dlabdot_complete : ∀ (labs : List Input) (rest : Input) (fuel : Nat),
    (dotJoin labs ++ rest).length < fuel →
    (∀ lab ∈ labs, validDomainLabel lab = true) →
    46 ∉ rest →
    ∃ vs, many0F (pair domain_label (tag [46])) fuel (dotJoin labs ++ rest)
      = .ok rest vs := by
  intro labs
  induction labs with
  | nil =>
    intro rest fuel hf hv h46
    simp only [dotJoin, List.nil_append] at hf ⊢
    obtain ⟨k, hstop⟩ := dlabdot_stops h46
    cases fuel with
    | zero => exact absurd hf (by omega)
    | succ fuel => exact ⟨[], by simp [many0F, hstop]⟩
  | cons l ls ih =>
    intro rest fuel hf hv h46
    have hvl : validDomainLabel l = true := hv l (by simp)
    have hshape : dotJoin (l :: ls) ++ rest = l ++ (46 :: (dotJoin ls ++ rest)) := by
      simp [dotJoin]
    have hdl : domain_label (dotJoin (l :: ls) ++ rest)
        = .ok (46 :: (dotJoin ls ++ rest)) l := by
      rw [hshape]
      exact domain_label_pre hvl
    have htag : tag [46] (46 :: (dotJoin ls ++ rest))
        = .ok (dotJoin ls ++ rest) [46] := by
      simp [tag, List.isPrefixOf]
    have hpair : pair domain_label (tag [46]) (dotJoin (l :: ls) ++ rest)
        = .ok (dotJoin ls ++ rest) (l, [46]) := by
      simp only [pair, hdl, htag]
    have hlen : (dotJoin ls ++ rest).length < (dotJoin (l :: ls) ++ rest).length := by
      rw [hshape]
      simp [List.length_append]
      omega
    cases fuel with
    | zero => exact absurd hf (by omega)
    | succ fuel =>
      obtain ⟨vs, hrec⟩ := ih rest fuel (by omega)
        (fun lab hm => hv lab (by simp [hm])) h46
      refine ⟨(l, [46]) :: vs, ?_⟩
      simp only [many0F, hpair, if_pos hlen, hrec]

theorem hostname_complete_top (labs : List Input) (top : Input)
    (hlabs : ∀ lab ∈ labs, validDomainLabel lab = true)
    (htop : validTopLabel top = true) :
    hostname (dotJoin labs ++ top) = .ok [] (dotJoin labs ++ top) := by
  obtain ⟨htne, htall, htlast, b, hhd, halpha⟩ := validTopLabel_parts htop
  have h46 : 46 ∉ top := anh_no_dot htall
  obtain ⟨vs, hmany⟩ := many0F_dlabdot_complete labs top
    ((dotJoin labs ++ top).length + 1) (by omega) hlabs h46
  have htl : top_label top = .ok [] top := top_label_self htop
  have hpair : pair (many0 (pair domain_label (tag [46]))) top_label
      (dotJoin labs ++ top) = .ok [] (vs, top) := by
    simp only [pair, many0, hmany, htl]
  have hrec : recognize (pair (many0 (pair domain_label (tag [46]))) top_label)
      (dotJoin labs ++ top) = .ok [] (dotJoin labs ++ top) := by
    have hp2 : pair (many0 (pair domain_label (tag [46]))) top_label
        ((dotJoin labs ++ top) ++ []) = .ok [] (vs, top) := by
      rw [List.append_nil]
      exact hpair
    have h3 := recognize_ok_of _ (dotJoin labs ++ top) [] (vs, top) hp2
    rw [List.append_nil] at h3
    exact h3
  have halt2 : (alt2 (recognize (pair (many0 (pair domain_label (tag [46]))) top_label))
      (recognize (many1 (pair domain_label (tag [46]))))) (dotJoin labs ++ top)
      = .ok [] (dotJoin labs ++ top) := by
    simp only [alt2, hrec]
  unfold hostname
  simp only [halt2]
  obtain ⟨lb, hlb⟩ : ∃ lb, top.getLast? = some lb :=
    ⟨top.getLast htne, List.getLast?_eq_getLast _ htne⟩
  have hlastv : (dotJoin labs ++ top).getLast? = some lb := by
    rw [getLast?_append_right htne]
    exact hlb
  have hlb46 : ¬ lb = 46 := fun he => h46 (he ▸ getLast?_mem_local hlb)
  simp only [hlastv]
  rw [if_neg hlb46]

theorem many1_dlabdot_complete (l0 : Input) (ls : List Input)
    (hv : ∀ lab ∈ l0 :: ls, validDomainLabel lab = true) :
    ∃ vs, many1 (pair domain_label (tag [46])) (dotJoin (l0 :: ls)) = .ok [] vs := by
  have hshape : dotJoin (l0 :: ls) = l0 ++ 46 :: dotJoin ls := rfl
  have hdl : domain_label (l0 ++ 46 :: dotJoin ls) = .ok (46 :: dotJoin ls) l0 :=
    domain_label_pre (hv l0 (by simp))
  have htag : tag [46] (46 :: dotJoin ls) = .ok (dotJoin ls) [46] := by
    simp [tag, List.isPrefixOf]
  have hpair : pair domain_label (tag [46]) (dotJoin (l0 :: ls))
      = .ok (dotJoin ls) (l0, [46]) := by
    rw [hshape]
    simp only [pair, hdl, htag]
  obtain ⟨vs0, hmany⟩ := many0F_dlabdot_complete ls []
    ((dotJoin ls).length + 1) (by simp) (fun lab hm => hv lab (by simp [hm]))
    (by simp)
  rw [List.append_nil] at hmany
  refine ⟨(l0, [46]) :: vs0, ?_⟩
  simp only [many1, hpair, many0, hmany]

theorem hostname_complete_fqdn (labs : List Input) (lst : Input)
    (hlabs : ∀ lab ∈ labs ++ [lst], validDomainLabel lab = true)
    (htop : validTopLabel lst = true) :
    hostname (dotJoin (labs ++ [lst])) = .ok [] (dotJoin (labs ++ [lst])) := by
  obtain ⟨vsA, hmanyA⟩ := many0F_dlabdot_complete (labs ++ [lst]) []
    ((dotJoin (labs ++ [lst])).length + 1) (by simp) hlabs (by simp)
  rw [List.append_nil] at hmanyA
  have htl_nil : top_label ([] : Input) = .err .nomError := by
    rw [top_label_eq]
    simp
  have hpairA : pair (many0 (pair domain_label (tag [46]))) top_label
      (dotJoin (labs ++ [lst])) = .err .nomError := by
    simp only [pair, many0, hmanyA, htl_nil]
  have hrecA : recognize (pair (many0 (pair domain_label (tag [46]))) top_label)
      (dotJoin (labs ++ [lst])) = .err .nomError := by
    simp only [recognize, hpairA]
  obtain ⟨l0, ls, hL⟩ : ∃ l0 ls, labs ++ [lst] = l0 :: ls := by
    cases hL : labs ++ [lst] with
    | nil => exact absurd hL (by simp)
    | cons a bb => exact ⟨a, bb, rfl⟩
  obtain ⟨vsB, hmanyB⟩ := many1_dlabdot_complete l0 ls (by rw [← hL]; exact hlabs)
  rw [← hL] at hmanyB
  have hrecB : recognize (many1 (pair domain_label (tag [46])))
      (dotJoin (labs ++ [lst])) = .ok [] (dotJoin (labs ++ [lst])) := by
    have h2 : many1 (pair domain_label (tag [46]))
        ((dotJoin (labs ++ [lst])) ++ []) = .ok [] vsB := by
      rw [List.append_nil]
      exact hmanyB
    have h3 := recognize_ok_of _ (dotJoin (labs ++ [lst])) [] vsB h2
    rw [List.append_nil] at h3
    exact h3
  have halt2 : (alt2 (recognize (pair (many0 (pair domain_label (tag [46]))) top_label))
      (recognize (many1 (pair domain_label (tag [46]))))) (dotJoin (labs ++ [lst]))
      = .ok [] (dotJoin (labs ++ [lst])) := by
    simp only [alt2, hrecA, hrecB]
  unfold hostname
  simp only [halt2]
  have hlastc : (dotJoin (labs ++ [lst])).getLast? = some 46 :=
    dotJoin_getLast (by simp)
  simp only [hlastc, eq_self_iff_true, if_true]
  have hnodot : ∀ lab ∈ labs ++ [lst], 46 ∉ lab := fun lab hm =>
    validDomainLabel_no_dot (hlabs lab hm)
  have hsplit : splitOnDot (dotJoin (labs ++ [lst])) = (labs ++ [lst]) ++ [[]] := by
    conv_lhs => rw [← List.append_nil (dotJoin (labs ++ [lst]))]
    rw [splitOnDot_dotJoin hnodot]
    rfl
  have hlen2 : ¬ (splitOnDot (dotJoin (labs ++ [lst]))).length < 2 := by
    rw [hsplit]
    simp [List.length_append]
  rw [if_neg hlen2]
  have hidx : (splitOnDot (dotJoin (labs ++ [lst]))).get?
      ((splitOnDot (dotJoin (labs ++ [lst]))).length - 2) = some lst := by
    rw [hsplit]
    have hlen : (((labs ++ [lst]) ++ [[]] : List Input)).length - 2 = labs.length := by
      simp
    rw [hlen, List.get?_append (by simp), List.get?_concat_length]
  rw [hidx]
  have htll : top_label lst = .ok [] lst := top_label_self htop
  simp only [htll]

end Xylosip

namespace Xylosip

/-- C5: the `hostname` parser accepts the RFC3261 hostname grammar:
any dot-joined sequence of valid domain labels followed by a valid top
label (e.g. `test.example.com`, `a.b.c.d.e.test.example.com`, `john`),
and any fully dot-terminated sequence of valid domain labels whose
last label also passes the top-label re-validation (e.g. `john.`), is
consumed entirely and returned unchanged; a label starting or ending
in a hyphen (`-foo`, `foo-`) fails; every accepted span splits on dots
into alphanumeric-or-hyphen chunks with no hyphen at either end; and
on a trailing-dot FQDN the second-to-last chunk is a valid top label
(starts alphabetic, does not end in a hyphen), `x0.0.` being rejected
with `InvalidHostname`. -/
theorem c5_hostname_grammar :
    (∀ labs top, (∀ lab ∈ labs, validDomainLabel lab = true) →
      validTopLabel top = true →
      hostname (dotJoin labs ++ top) = .ok [] (dotJoin labs ++ top)) ∧
    (∀ labs lst, (∀ lab ∈ labs ++ [lst], validDomainLabel lab = true) →
      validTopLabel lst = true →
      hostname (dotJoin (labs ++ [lst])) = .ok [] (dotJoin (labs ++ [lst]))) ∧
    hostname (bytes "test.example.com") = .ok [] (bytes "test.example.com") ∧
    hostname (bytes "a.b.c.d.e.test.example.com")
      = .ok [] (bytes "a.b.c.d.e.test.example.com") ∧
    hostname (bytes "john") = .ok [] (bytes "john") ∧
    hostname (bytes "john.") = .ok [] (bytes "john.") ∧
    hostname (bytes "-foo") = .err (.invalidDomainPart (bytes "-foo")) ∧
    hostname (bytes "foo-") = .err (.invalidDomainPart (bytes "foo-")) ∧
    (∀ i r v, hostname i = .ok r v →
      i = v ++ r ∧
      (∀ lab ∈ splitOnDot v, lab.all is_alphanumeric_hyphen = true ∧
          hyphenFreeEnds lab = true) ∧
      (v.getLast? = some 46 →
        ∃ top, (splitOnDot v).get? ((splitOnDot v).length - 2) = some top ∧
          validTopLabel top = true)) ∧
    hostname (bytes "x0.0.") = .err (.invalidHostname (bytes "x0.0.")) := by
  refine ⟨hostname_complete_top, hostname_complete_fqdn, by decide, by decide,
    by decide, by decide, by decide, by decide, ?_, by decide⟩
  intro i r v h
  obtain ⟨h1, h2, h3, h4⟩ := hostname_ok_inv h
  exact ⟨h1, h3, h4⟩

/-- Witness for C5 at the concrete hostname `a.b` (one domain label
`a`, top label `b`): it parses fully. -/
theorem c5_witness :
    hostname (dotJoin [[97]] ++ [98]) = .ok [] (dotJoin [[97]] ++ [98]) :=
  c5_hostname_grammar.1 [[97]] [98] (by decide) (by decide)

/-- C9: `top_label`, `domain_label` and `hostname` are total and
panic-free on every byte input: each returns a success or a typed
recoverable error, never the `fail unreachableUnwrap` result modelling
a Rust `.unwrap()` panic (nor any other `fail`), because the matched
spans those functions inspect are always non-empty; the character
classifiers are total Lean functions by construction. -/
theorem c9_no_panic_totality : ∀ i : Input,
    ((∃ r v, top_label i = .ok r v) ∨ (∃ k, top_label i = .err k)) ∧
    ((∃ r v, domain_label i = .ok r v) ∨ (∃ k, domain_label i = .err k)) ∧
    ((∃ r v, hostname i = .ok r v) ∨ (∃ k, hostname i = .err k)) := by
  intro i
  refine ⟨?_, ?_, ?_⟩
  · cases h : top_label i with
    | ok r v => exact Or.inl ⟨r, v, rfl⟩
    | err k => exact Or.inr ⟨k, rfl⟩
    | fail k => exact absurd h (top_label_no_fail i k)
  · cases h : domain_label i with
    | ok r v => exact Or.inl ⟨r, v, rfl⟩
    | err k => exact Or.inr ⟨k, rfl⟩
    | fail k => exact absurd h (domain_label_no_fail i k)
  · cases h : hostname i with
    | ok r v => exact Or.inl ⟨r, v, rfl⟩
    | err k => exact Or.inr ⟨k, rfl⟩
    | fail k => exact absurd h (hostname_no_fail i k)

end Xylosip

namespace Xylosip

/-- The header scan of `Request::new`: each mandatory-header option ends
up holding the last matching header of the list (or the initial value if
none occurs). -/
theorem foldl_reqAcc (hs : List Header) (a : ReqAcc) :
    hs.foldl reqAccStep a =
      ⟨(match lastCallID hs with | some x => some x | none => a.call_id),
       (match lastCSeq hs with | some x => some x | none => a.cseq),
       (match lastFrom hs with | some x => some x | none => a.from_f),
       (match lastMaxForwards hs with | some x => some x | none => a.max_forwards),
       (match lastTo hs with | some x => some x | none => a.to_f),
       (match lastVia hs with | some x => some x | none => a.via)⟩ := by
  induction hs using List.reverseRecOn with
  | nil => rfl
  | append_singleton t h ih =>
    rw [List.foldl_append, List.foldl_cons, List.foldl_nil, ih]
    cases h <;>
      simp [reqAccStep, lastCallID, lastCSeq, lastFrom, lastMaxForwards,
        lastTo, lastVia, List.findSome?_cons]

theorem foldl_reqAcc_init (hs : List Header) :
    hs.foldl reqAccStep ⟨none, none, none, none, none, none⟩ =
      ⟨lastCallID hs, lastCSeq hs, lastFrom hs, lastMaxForwards hs,
       lastTo hs, lastVia hs⟩ := by
  rw [foldl_reqAcc]
  simp only [ReqAcc.mk.injEq]
  refine ⟨?_, ?_, ?_, ?_, ?_, ?_⟩
  · cases lastCallID hs <;> rfl
  · cases lastCSeq hs <;> rfl
  · cases lastFrom hs <;> rfl
  · cases lastMaxForwards hs <;> rfl
  · cases lastTo hs <;> rfl
  · cases lastVia hs <;> rfl

/-- C10: `Request::new` checks the six mandatory headers in the fixed
source order Call-ID, CSeq, From, Max-Forwards, To, Via, returning the
corresponding `Missing*Header` error for the first one absent; on
success the dedicated fields hold the payload of the *last* occurrence
of each header in wire order and the full header list is stored
unchanged. -/
theorem c10_request_new_mandatory :
    ∀ (rl : RequestLine) (hs : List Header) (body : Option Input),
    (lastCallID hs = none →
      Request.new rl hs body = .error .MissingCallIDHeader) ∧
    ((∃ x, lastCallID hs = some x) → lastCSeq hs = none →
      Request.new rl hs body = .error .MissingCSeqHeader) ∧
    ((∃ x, lastCallID hs = some x) → (∃ x, lastCSeq hs = some x) →
      lastFrom hs = none →
      Request.new rl hs body = .error .MissingFromHeader) ∧
    ((∃ x, lastCallID hs = some x) → (∃ x, lastCSeq hs = some x) →
      (∃ x, lastFrom hs = some x) → lastMaxForwards hs = none →
      Request.new rl hs body = .error .MissingMaxForwardsHeader) ∧
    ((∃ x, lastCallID hs = some x) → (∃ x, lastCSeq hs = some x) →
      (∃ x, lastFrom hs = some x) → (∃ x, lastMaxForwards hs = some x) →
      lastTo hs = none →
      Request.new rl hs body = .error .MissingToHeader) ∧
    ((∃ x, lastCallID hs = some x) → (∃ x, lastCSeq hs = some x) →
      (∃ x, lastFrom hs = some x) → (∃ x, lastMaxForwards hs = some x) →
      (∃ x, lastTo hs = some x) → lastVia hs = none →
      Request.new rl hs body = .error .MissingViaHeader) ∧
    (∀ cid cs f mf t v, lastCallID hs = some cid → lastCSeq hs = some cs →
      lastFrom hs = some f → lastMaxForwards hs = some mf →
      lastTo hs = some t → lastVia hs = some v →
      Request.new rl hs body = .ok ⟨rl, cid, cs, f, mf, t, v, hs, body⟩) := by
  intro rl hs body
  refine ⟨?_, ?_, ?_, ?_, ?_, ?_, ?_⟩
  · intro h1
    simp only [Request.new, foldl_reqAcc_init, h1]
  · rintro ⟨x1, h1⟩ h2
    simp only [Request.new, foldl_reqAcc_init, h1, h2]
  · rintro ⟨x1, h1⟩ ⟨x2, h2⟩ h3
    simp only [Request.new, foldl_reqAcc_init, h1, h2, h3]
  · rintro ⟨x1, h1⟩ ⟨x2, h2⟩ ⟨x3, h3⟩ h4
    simp only [Request.new, foldl_reqAcc_init, h1, h2, h3, h4]
  · rintro ⟨x1, h1⟩ ⟨x2, h2⟩ ⟨x3, h3⟩ ⟨x4, h4⟩ h5
    simp only [Request.new, foldl_reqAcc_init, h1, h2, h3, h4, h5]
  · rintro ⟨x1, h1⟩ ⟨x2, h2⟩ ⟨x3, h3⟩ ⟨x4, h4⟩ ⟨x5, h5⟩ h6
    simp only [Request.new, foldl_reqAcc_init, h1, h2, h3, h4, h5, h6]
  · intro cid cs f mf t v h1 h2 h3 h4 h5 h6
    simp only [Request.new, foldl_reqAcc_init, h1, h2, h3, h4, h5, h6]

/-- Witness for C10 on a concrete header list containing duplicate
Call-ID headers: the success case stores the last occurrence. -/
theorem c10_witness :
    Request.new ⟨.Invite, bytes "sip:a@b", .Two⟩
      [.CallID (bytes "one"), .CSeq 1 .Invite, .From ⟨bytes "f", none, []⟩,
       .MaxForwards 70, .To ⟨bytes "t", none, []⟩,
       .Via [⟨bytes "p", bytes "s", []⟩], .CallID (bytes "two")] none
    = .ok ⟨⟨.Invite, bytes "sip:a@b", .Two⟩, bytes "two", (1, .Invite),
        ⟨bytes "f", none, []⟩, 70, ⟨bytes "t", none, []⟩,
        [⟨bytes "p", bytes "s", []⟩],
        [.CallID (bytes "one"), .CSeq 1 .Invite, .From ⟨bytes "f", none, []⟩,
         .MaxForwards 70, .To ⟨bytes "t", none, []⟩,
         .Via [⟨bytes "p", bytes "s", []⟩], .CallID (bytes "two")], none⟩ :=
  (c10_request_new_mandatory _ _ _).2.2.2.2.2.2 _ _ _ _ _ _
    (by decide) (by decide) (by decide) (by decide) (by decide) (by decide)

end Xylosip

namespace Xylosip

theorem pmap_ok_inv {p : Parser α} {f : α → β} {i r : Input} {v : β}
    (h : pmap p f i = .ok r v) : ∃ w, p i = .ok r w ∧ v = f w := by
  simp only [pmap] at h
  cases hp : p i with
  | ok m a => simp only [hp] at h; cases h; exact ⟨a, rfl, rfl⟩
  | err k => simp only [hp] at h; cases h
  | fail k => simp only [hp] at h; cases h

/-- The loop body of `header_value` never returns a recoverable error:
its last alternative `take_while(is_utf8_cont)` succeeds on every input
(possibly consuming nothing). -/
theorem hv_inner_never_err : ∀ (i : Input) (k : ErrKind),
    alt2 utf8_char1 (alt2 (take_while is_utf8_cont) linear_whitespace) i
      ≠ .err k := by
  intro i k h
  simp only [alt2, take_while] at h
  cases hp : utf8_char1 i with
  | ok m v => simp only [hp] at h; cases h
  | err k2 => simp only [hp] at h; cases h
  | fail k2 => simp only [hp] at h; cases h

/-- nom 5's `many0` over a parser that never errs recoverably can never
succeed: the loop only stops on a recoverable error of the body, so it
runs until the body stops consuming and the zero-length-match guard
errors out (or a hard failure aborts it). -/
theorem many0F_never_ok {p : Parser α} (hp : ∀ i k, p i ≠ .err k) :
    ∀ (fuel : Nat) (i r : Input) (vs : List α), many0F p fuel i ≠ .ok r vs := by
  intro fuel
  induction fuel with
  | zero => intro i r vs h; simp [many0F] at h
  | succ fuel ih =>
    intro i r vs h
    simp only [many0F] at h
    cases hpi : p i with
    | ok m v =>
      simp only [hpi] at h
      by_cases hlt : m.length < i.length
      · rw [if_pos hlt] at h
        cases hrec : many0F p fuel m with
        | ok r2 vs2 => exact ih m r2 vs2 hrec
        | err k2 => simp only [hrec] at h; cases h
        | fail k2 => simp only [hrec] at h; cases h
      · rw [if_neg hlt] at h; cases h
    | err k2 => exact hp i k2 hpi
    | fail k2 => simp only [hpi] at h; cases h

/-- `header_value` can never succeed, on any input. -/
theorem header_value_never_ok : ∀ (i r v : Input), header_value i ≠ .ok r v := by
  intro i r v h
  simp only [header_value, mapUtf8] at h
  cases hrec : recognize (many0 (alt2 utf8_char1
      (alt2 (take_while is_utf8_cont) linear_whitespace))) i with
  | ok r2 v2 =>
    obtain ⟨w, hm, -⟩ := recognize_ok_inv hrec
    simp only [many0] at hm
    exact many0F_never_ok hv_inner_never_err _ i r2 w hm
  | err k => simp only [hrec] at h; cases h
  | fail k => simp only [hrec] at h; cases h

/-- The `extension_header` fallback can never succeed, on any input, so
no header line — in particular none whose known name has matched — is
ever returned as `Header::Extension`. -/
theorem extension_header_never_ok : ∀ (i r : Input) (v : Header),
    extension_header i ≠ .ok r v := by
  intro i r v h
  simp only [extension_header] at h
  obtain ⟨w, hpair, -⟩ := pmap_ok_inv h
  obtain ⟨m, -, hpre⟩ := pair_ok_inv hpair
  simp only [preceded] at hpre
  obtain ⟨w2, hpair2, -⟩ := pmap_ok_inv hpre
  obtain ⟨m2, -, hhv⟩ := pair_ok_inv hpair2
  exact header_value_never_ok m2 _ _ hhv

/-- C2 counterexample: the claim asserts that *every* header line whose
known name matches but whose value breaks that header's value grammar
is a hard failure that propagates up.  For the ordinary mismatch
`CSeq: abc\r\n` the name `CSeq` matches and the value fails its
grammar, yet `cseq`, `message_header` and a whole request containing
the line all return nom's *recoverable* `Err::Error` (`PRes.err`), not
the claimed propagating `Err::Failure` (`PRes.fail`). -/
theorem c2_counterexample :
    cseq (bytes "CSeq: abc\r\n") = .err .nomError ∧
    message_header (bytes "CSeq: abc\r\n") = .err .nomError ∧
    request (bytes "INVITE sip:j@x.com SIP/2.0\r\nCSeq: abc\r\n\r\n") =
      .err .nomError :=
  ⟨by decide, by decide, by decide⟩

/-- C2 (amended): once a known header name has matched, a bad value is
never demoted to `Header::Extension` — the extension fallback can never
succeed on any input — but the failure is *hard* only for the checked
conversions: every overflowing CSeq sequence number turns the `CSeq`
branch into `Err::Failure(InvalidIntegerError)`, which `alt` does not
catch, so `message_header` and a whole request containing the header
abort with that very failure; an ordinary value-grammar mismatch such
as `CSeq: abc\r\n` instead yields only a recoverable `Err::Error`
(from `cseq`, `message_header` and the enclosing request alike). -/
theorem c2_bad_value_amended :
    (∀ ds : Input, ds ≠ [] → (∀ b ∈ ds, nom_is_digit b = true) →
      2147483647 < digitsToNat ds →
      cseq (bytes "CSeq: " ++ ds ++ bytes " INVITE\r\n") = .fail .invalidInteger) ∧
    message_header (bytes "CSeq: 2147483648 INVITE\r\n") = .fail .invalidInteger ∧
    request (bytes "INVITE sip:j@x.com SIP/2.0\r\nCSeq: 2147483648 INVITE\r\n\r\n") =
      .fail .invalidInteger ∧
    (∀ (i r : Input) (v : Header), extension_header i ≠ .ok r v) ∧
    cseq (bytes "CSeq: abc\r\n") = .err .nomError ∧
    message_header (bytes "CSeq: abc\r\n") = .err .nomError ∧
    request (bytes "INVITE sip:j@x.com SIP/2.0\r\nCSeq: abc\r\n\r\n") =
      .err .nomError :=
  ⟨cseq_overflow_hard, by decide, by decide, extension_header_never_ok,
    by decide, by decide, by decide⟩

/-- Witness for C2 at the concrete overflowing digit run `2147483648`. -/
theorem c2_witness :
    cseq (bytes "CSeq: " ++ [50, 49, 52, 55, 52, 56, 51, 54, 52, 56] ++
      bytes " INVITE\r\n") = .fail .invalidInteger :=
  c2_bad_value_amended.1
    [50, 49, 52, 55, 52, 56, 51, 54, 52, 56] (by decide) (by decide) (by decide)

end Xylosip
